import Mathlib

/-!
# baton-tenable-vm: caches and grant/revoke reconciliation

A shallow embedding of the connector (`pkg/connector`) and of the client
helpers it relies on (`pkg/client`).

* Go structs become Lean structures with the same field names.
* A Go method that talks to the upstream service becomes a function that
  takes the outside world (`World`) and returns its results together with the
  new world.  The world records every client call in `calls`, so statements
  about "how many upstream calls were issued" are statements about that log.
* The upstream service and the wall clock are an arbitrary `Env`: one handler
  per REST endpoint, each free to answer or fail as it likes.
* A Go `map[string]V` is an association list with unique keys; a nil map is
  `none`, a map made with `make` is `some _`.
* Loop variables follow the per-iteration semantics (Go 1.22 and later), so
  `&user` taken inside a `range` loop denotes that iteration's element.
-/

namespace TenableVM

/-! ## Go runtime -/

/-- A Go `error` value: its message. `Option GoError` is a possibly nil error. -/
abbrev GoError := String

deriving instance DecidableEq for Except

/-- Go `map[string]V` that is not nil. Keys are unique; iteration follows the list. -/
abbrev GoMap (V : Type) := List (String × V)

/-- Map lookup `m[k]` with the comma-ok idiom. -/
def GoMap.get? {V : Type} : GoMap V → String → Option V
  | [], _ => none
  | (k', v) :: rest, k => if k' = k then some v else GoMap.get? rest k

/-- Map assignment `m[k] = v`: overwrites the entry of an existing key, adds one otherwise. -/
def GoMap.set {V : Type} : GoMap V → String → V → GoMap V
  | [], k, v => [(k, v)]
  | (k', v') :: rest, k, v =>
    if k' = k then (k, v) :: rest else (k', v') :: GoMap.set rest k v

/-- List of keys of a map. -/
def GoMap.keys {V : Type} (m : GoMap V) : List String := m.map Prod.fst

/-- Decimal rendering `strconv.Itoa`. -/
def Itoa : Int → String
  | Int.ofNat n => Nat.repr n
  | Int.negSucc n => "-" ++ Nat.repr (n + 1)

/-- First-occurrence replacement `strings.Replace(s, old, new, 1)` for one-character
`old` and `new`, on the characters of `s`. -/
def replaceFirst (old new : Char) : List Char → List Char
  | [] => []
  | c :: cs => if c = old then new :: cs else c :: replaceFirst old new cs

/-- Nanoseconds in `time.Minute`. -/
def Minute : Int := 60 * 1000000000

/-- Largest `time.Duration`. -/
def maxDuration : Int := 2 ^ 63 - 1

/-- Smallest `time.Duration`. -/
def minDuration : Int := -(2 ^ 63)

/-- Saturating difference `t.Sub(u)` of two instants given in nanoseconds. -/
def timeSub (t u : Int) : Int :=
  if t - u > maxDuration then maxDuration
  else if t - u < minDuration then minDuration
  else t - u

/-! ## github.com/google/uuid

`uuid.UUID` is `[16]byte`. `String` renders the canonical lower-case
`xxxxxxxx-xxxx-xxxx-xxxx-xxxxxxxxxxxx` form; `Parse` accepts that form with
hex digits of either case, the same behind `urn:uuid:`, the same between two
arbitrary bytes (the braces form), and 32 bare hex digits. -/

/-- Type `uuid.UUID`. -/
abbrev UUID := { bs : List (Fin 256) // bs.length = 16 }

/-- Lower-case hex digit of a value below 16. -/
def hexdigit (n : Nat) : Char := ("0123456789abcdef".data).getD n '0'

/-- Two hex digits of a byte, high nibble first (`hex.Encode`). -/
def encodeByte (b : Fin 256) : List Char := [hexdigit (b.val / 16), hexdigit (b.val % 16)]

/-- Hex encoding of a run of bytes. -/
def encodeHexBytes (bs : List (Fin 256)) : List Char := (bs.map encodeByte).flatten

/-- Rendering `UUID.String()`. -/
def UUID.String (u : UUID) : String :=
  String.mk (encodeHexBytes (u.val.take 4) ++ '-' :: encodeHexBytes ((u.val.drop 4).take 2)
    ++ '-' :: encodeHexBytes ((u.val.drop 6).take 2)
    ++ '-' :: encodeHexBytes ((u.val.drop 8).take 2)
    ++ '-' :: encodeHexBytes (u.val.drop 10))

/-- Table `xvalues`: the value of a hex digit of either case, `none` for 255. -/
def xvalue (c : Char) : Option Nat :=
  if 48 ≤ c.toNat ∧ c.toNat ≤ 57 then some (c.toNat - 48)
  else if 97 ≤ c.toNat ∧ c.toNat ≤ 102 then some (c.toNat - 87)
  else if 65 ≤ c.toNat ∧ c.toNat ≤ 70 then some (c.toNat - 55)
  else none

/-- Function `xtob`: two hex digits to a byte. -/
def xtob (x1 x2 : Char) : Option (Fin 256) :=
  match xvalue x1, xvalue x2 with
  | some a, some b => some (Fin.ofNat (a * 16 + b))
  | _, _ => none

/-- Reads the bytes whose hex digits start at the given offsets. -/
def xtobAt (cs : List Char) : List Nat → Option (List (Fin 256))
  | [] => some []
  | x :: xs =>
    match xtob (cs.getD x ' ') (cs.getD (x + 1) ' '), xtobAt cs xs with
    | some b, some bs => some (b :: bs)
    | _, _ => none

/-- Packs sixteen bytes into a `UUID`. -/
def mkUUID (bs : List (Fin 256)) : Except GoError UUID :=
  if h : bs.length = 16 then .ok ⟨bs, h⟩ else .error "invalid UUID format"

/-- The tail of `uuid.Parse`: `cs` starts with the 36-character hyphenated form. -/
def parseHyphenated (cs : List Char) : Except GoError UUID :=
  if cs.getD 8 ' ' ≠ '-' ∨ cs.getD 13 ' ' ≠ '-' ∨ cs.getD 18 ' ' ≠ '-' ∨ cs.getD 23 ' ' ≠ '-' then
    .error "invalid UUID format"
  else
    match xtobAt cs [0, 2, 4, 6, 9, 11, 14, 16, 19, 21, 24, 26, 28, 30, 32, 34] with
    | some bs => mkUUID bs
    | none => .error "invalid UUID format"

/-- ASCII case folding used for the `urn:uuid:` prefix test. -/
def foldAscii (c : Char) : Char :=
  if 65 ≤ c.toNat ∧ c.toNat ≤ 90 then Char.ofNat (c.toNat + 32) else c

/-- Function `uuid.Parse`. A string with a byte outside ASCII is rejected by every
branch of the Go function (each such byte lands on a checked position or changes
the length class), so it is rejected up front and the rest works on characters. -/
def Parse (s : String) : Except GoError UUID :=
  let cs := s.data
  if cs.any (fun c => decide (128 ≤ c.toNat)) then .error "invalid UUID format"
  else if cs.length = 36 then parseHyphenated cs
  else if cs.length = 36 + 9 then
    if (cs.take 9).map foldAscii = "urn:uuid:".data then parseHyphenated (cs.drop 9)
    else .error "invalid urn prefix"
  else if cs.length = 36 + 2 then parseHyphenated (cs.drop 1)
  else if cs.length = 32 then
    match xtobAt cs [0, 2, 4, 6, 8, 10, 12, 14, 16, 18, 20, 22, 24, 26, 28, 30] with
    | some bs => mkUUID bs
    | none => .error "invalid UUID format"
  else .error "invalid UUID length"

/-! ## pkg/client/models.go -/

/-- Struct `client.Role`. -/
structure Role where
  UUID : UUID
  Name : String
deriving DecidableEq

/-- Struct `client.User`. -/
structure User where
  ID : Int
  UUID : String
  Username : String
  Email : String
  Name : String
  LastLogin : Int
  Enabled : Bool
  Permissions : Int
  ContainerUUID : String
  RbacRoles : List Role
  Roles : List String
  GroupUUIDs : List String
deriving DecidableEq

/-- Struct `client.UserRole`. -/
structure UserRole where
  ContainerUUID : String
  UserUUID : String
  RolesUUID : List String
deriving DecidableEq

/-- Struct `client.UserUpdateReqBody`. -/
structure UserUpdateReqBody where
  Name : String
  Permissions : Int
  Email : String
  Enabled : Bool
deriving DecidableEq

/-- Struct `client.UserRoleReqBody`. -/
structure UserRoleReqBody where
  RolesUUIDs : List String
deriving DecidableEq

/-- Struct `client.NewUser`. -/
structure NewUser where
  Username : String
  Password : String
  Email : String
  Name : String
  Permissions : Int
deriving DecidableEq

/-- Struct `client.Group`. -/
structure Group where
  ID : Int
  UUID : String
  Name : String
  Permissions : Int
  UsersCount : Int
  ContainerUUID : String
deriving DecidableEq

/-- Struct `client.TenableObject`. -/
structure TenableObject where
  Type_ : String
  UUID : UUID
  Name : String
deriving DecidableEq

/-- Struct `client.Permission`. -/
structure Permission where
  UUID : UUID
  Name : String
  Actions : List String
  Objects : List TenableObject
  Subjects : List TenableObject
  CreatedAt : Int
  CreatedBy : String
  UpdatedAt : Int
  UpdatedBy : String
deriving DecidableEq

/-- Struct `client.PermissionUpdateBody`. -/
structure PermissionUpdateBody where
  Name : String
  Actions : List String
  Objects : List TenableObject
  Subjects : List TenableObject
deriving DecidableEq

/-! ## The outside world: upstream service, wall clock, call log -/

/-- One invocation of a `TenableVMClient` method, with the arguments that reach the wire. -/
inductive Call where
  | GetUsers
  | GetUserDetails (userId : String)
  | GetUserRoles (userUUID : String)
  | UpdateUser (userId : String) (body : UserUpdateReqBody)
  | UpdateUserRoles (userUUID : String) (body : UserRoleReqBody)
  | CreateUser (newUser : NewUser)
  | GetGroups
  | GetGroupMembers (groupId : String)
  | DeleteUserGroupMembership (groupId userId : String)
  | CreateUserGroupMembership (groupId userId : String)
  | ListPermissions
  | GetPermissionDetails (uuid : String)
  | UpdatePermission (uuid : String) (body : PermissionUpdateBody)
deriving DecidableEq

/-- The calls that change upstream state (HTTP PUT, POST, DELETE). -/
def Call.isMutating : Call → Bool
  | .UpdateUser _ _ => true
  | .UpdateUserRoles _ _ => true
  | .CreateUser _ => true
  | .DeleteUserGroupMembership _ _ => true
  | .CreateUserGroupMembership _ _ => true
  | .UpdatePermission _ _ => true
  | _ => false

/-- The upstream REST service and the wall clock, over an arbitrary state `σ` of
everything outside the process. Each handler answers one endpoint and may change
the outside state; `now` reads the clock in nanoseconds. -/
structure Env (σ : Type) where
  now : σ → Int
  listUsers : σ → Except GoError (List User) × σ
  getUser : String → σ → Except GoError User × σ
  getUserRoles : String → σ → Except GoError UserRole × σ
  updateUser : String → UserUpdateReqBody → σ → Except GoError User × σ
  setUserRoles : String → UserRoleReqBody → σ → Option GoError × σ
  createUser : NewUser → σ → Except GoError User × σ
  listGroups : σ → Except GoError (List Group) × σ
  listGroupMembers : String → σ → Except GoError (List User) × σ
  addGroupMember : String → String → σ → Option GoError × σ
  removeGroupMember : String → String → σ → Option GoError × σ
  listPermissions : σ → Except GoError (List Permission) × σ
  getPermission : String → σ → Except GoError Permission × σ
  updatePermission : String → PermissionUpdateBody → σ → Option GoError × σ

/-- The outside state together with the chronological log of client calls. -/
structure World (σ : Type) where
  ext : σ
  calls : List Call

/-- The world after a client call `c` that left the outside in state `s`. -/
def World.record {σ : Type} (w : World σ) (c : Call) (s : σ) : World σ :=
  { ext := s, calls := w.calls ++ [c] }

/-- Number of mutating calls in a log. -/
def mutatingCalls (cs : List Call) : Nat := (cs.filter Call.isMutating).length

/-- Duration `time.Since(t)`. -/
def timeSince {σ : Type} (env : Env σ) (w : World σ) (t : Int) : Int :=
  timeSub (env.now w.ext) t

/-! ## Annotations of the SDK -/

/-- The annotation messages the connector produces. -/
inductive Anno where
  | RateLimitDescription
  | GrantAlreadyExists
  | GrantAlreadyRevoked
  | GrantExpandable (EntitlementIds : List String)
  | GrantImmutable
deriving DecidableEq

/-- Type `annotations.Annotations`; nil is the empty list. -/
abbrev Annotations := List Anno

/-- The result pair `(annotations.Annotations, error)`. -/
structure Ret where
  annos : Annotations
  err : Option GoError
deriving DecidableEq

/-! ## pkg/client/client_helper.go and pkg/client/client.go

Every method logs its call and asks the matching endpoint. On failure
`getResourcesFromAPI` returns nil annotations, so a failed read carries none;
a successful read carries the rate-limit annotation. -/

/-- Function `parseTagNames`. -/
def parseTagNames (objs : List TenableObject) : List TenableObject :=
  objs.map fun obj =>
    if obj.Type_ = "Tag" then { obj with Name := String.mk (replaceFirst ':' ',' obj.Name.data) }
    else obj

namespace TenableVMClient

variable {σ : Type}

/-- Method `GetUsers`. -/
def GetUsers (env : Env σ) (w : World σ) : Except GoError (List User × Annotations) × World σ :=
  match env.listUsers w.ext with
  | (.error e, s) => (.error e, w.record .GetUsers s)
  | (.ok us, s) => (.ok (us, [.RateLimitDescription]), w.record .GetUsers s)

/-- Method `GetUserDetails`. -/
def GetUserDetails (env : Env σ) (userId : String) (w : World σ) :
    Except GoError User × World σ :=
  match env.getUser userId w.ext with
  | (.error e, s) =>
    (.error ("error getting user details resource: " ++ e), w.record (.GetUserDetails userId) s)
  | (.ok u, s) => (.ok u, w.record (.GetUserDetails userId) s)

/-- Method `GetUserRoles`. -/
def GetUserRoles (env : Env σ) (userUUID : String) (w : World σ) :
    Except GoError UserRole × World σ :=
  match env.getUserRoles userUUID w.ext with
  | (.error e, s) =>
    (.error ("error getting user details resource: " ++ e), w.record (.GetUserRoles userUUID) s)
  | (.ok r, s) => (.ok r, w.record (.GetUserRoles userUUID) s)

/-- Method `UpdateUser`. -/
def UpdateUser (env : Env σ) (userId : String) (body : UserUpdateReqBody) (w : World σ) :
    Except GoError User × World σ :=
  match env.updateUser userId body w.ext with
  | (.error e, s) =>
    (.error ("error updating user role: " ++ e), w.record (.UpdateUser userId body) s)
  | (.ok u, s) => (.ok u, w.record (.UpdateUser userId body) s)

/-- Method `UpdateUserRoles`: the body is the one-element list holding `roleUUID`. -/
def UpdateUserRoles (env : Env σ) (userUUID roleUUID : String) (w : World σ) :
    Option GoError × World σ :=
  let body : UserRoleReqBody := { RolesUUIDs := [roleUUID] }
  match env.setUserRoles userUUID body w.ext with
  | (some e, s) =>
    (some ("error updating user role: " ++ e), w.record (.UpdateUserRoles userUUID body) s)
  | (none, s) => (none, w.record (.UpdateUserRoles userUUID body) s)

/-- Method `CreateUser`. -/
def CreateUser (env : Env σ) (newUser : NewUser) (w : World σ) :
    Except GoError User × World σ :=
  match env.createUser newUser w.ext with
  | (.error e, s) => (.error ("error creating user: " ++ e), w.record (.CreateUser newUser) s)
  | (.ok u, s) => (.ok u, w.record (.CreateUser newUser) s)

/-- Method `GetGroups`. -/
def GetGroups (env : Env σ) (w : World σ) : Except GoError (List Group × Annotations) × World σ :=
  match env.listGroups w.ext with
  | (.error e, s) => (.error e, w.record .GetGroups s)
  | (.ok gs, s) => (.ok (gs, [.RateLimitDescription]), w.record .GetGroups s)

/-- Method `GetGroupMembers`: returns nil annotations on success as well. -/
def GetGroupMembers (env : Env σ) (groupId : String) (w : World σ) :
    Except GoError (List User) × World σ :=
  match env.listGroupMembers groupId w.ext with
  | (.error e, s) => (.error e, w.record (.GetGroupMembers groupId) s)
  | (.ok us, s) => (.ok us, w.record (.GetGroupMembers groupId) s)

/-- Method `DeleteUserGroupMembership`. -/
def DeleteUserGroupMembership (env : Env σ) (groupId userId : String) (w : World σ) :
    Option GoError × World σ :=
  match env.removeGroupMember groupId userId w.ext with
  | (e, s) => (e, w.record (.DeleteUserGroupMembership groupId userId) s)

/-- Method `CreateUserGroupMembership`. -/
def CreateUserGroupMembership (env : Env σ) (groupId userId : String) (w : World σ) :
    Option GoError × World σ :=
  match env.addGroupMember groupId userId w.ext with
  | (e, s) => (e, w.record (.CreateUserGroupMembership groupId userId) s)

/-- Method `ListPermissions`. -/
def ListPermissions (env : Env σ) (w : World σ) :
    Except GoError (List Permission × Annotations) × World σ :=
  match env.listPermissions w.ext with
  | (.error e, s) => (.error e, w.record .ListPermissions s)
  | (.ok ps, s) => (.ok (ps, [.RateLimitDescription]), w.record .ListPermissions s)

/-- Method `GetPermissionDetails`. -/
def GetPermissionDetails (env : Env σ) (uuid : String) (w : World σ) :
    Except GoError Permission × World σ :=
  match env.getPermission uuid w.ext with
  | (r, s) => (r, w.record (.GetPermissionDetails uuid) s)

/-- The body `UpdatePermission` puts on the wire. -/
def permissionBody (updatedPermission : Permission) : PermissionUpdateBody :=
  { Name := updatedPermission.Name
    Actions := updatedPermission.Actions
    Objects := parseTagNames updatedPermission.Objects
    Subjects := updatedPermission.Subjects }

/-- Method `UpdatePermission`. -/
def UpdatePermission (env : Env σ) (updatedPermission : Permission) (w : World σ) :
    Option GoError × World σ :=
  let body := permissionBody updatedPermission
  match env.updatePermission updatedPermission.UUID.String body w.ext with
  | (e, s) => (e, w.record (.UpdatePermission updatedPermission.UUID.String body) s)

end TenableVMClient

/-! ## The SDK resource vocabulary (baton-sdk `v2`), as far as the connector fills it -/

/-- Message `v2.ResourceId`. -/
structure ResourceId where
  ResourceType : String
  Resource : String
deriving DecidableEq

/-- A profile value handed to `structpb`. -/
inductive Value where
  | str (s : String)
  | int (n : Int)
deriving DecidableEq

/-- Status of a user trait. -/
inductive UserStatus where
  | STATUS_ENABLED
  | STATUS_DISABLED
deriving DecidableEq

/-- The user trait built by `resource.NewUserResource` from its options. -/
structure UserTrait where
  Profile : List (String × Value)
  Status : UserStatus
  Email : String × Bool
  Login : String
  LastLogin : Option Int
deriving DecidableEq

/-- Message `v2.Resource`. -/
structure Resource where
  Id : ResourceId
  ParentResourceId : Option ResourceId
  DisplayName : String
  UserTrait : Option UserTrait
  RoleProfile : Option (List (String × Value)) := none
deriving DecidableEq

/-- Message `v2.Entitlement`, reduced to the resource it belongs to and its slug. -/
structure Entitlement where
  Resource : Resource
  Slug : String
deriving DecidableEq

/-- Message `v2.Grant`. -/
structure Grant where
  Entitlement : Entitlement
  Principal : Resource
  Annotations : Annotations
deriving DecidableEq

/-- The result tuple of a `List` method. -/
structure ListRet where
  resources : List Resource
  token : String
  annos : Annotations
  err : Option GoError
deriving DecidableEq

/-! ## pkg/connector -/

/-- Constant `TTL`, in minutes. -/
def TTL : Int := 5

/-- Identifier of `userResourceType`. -/
def userResourceTypeId : String := "user"

/-- Identifier of `roleResourceType`. -/
def roleResourceTypeId : String := "role"

/-- Identifier of `groupResourceType`. -/
def groupResourceTypeId : String := "group"

/-- Identifier of `permissionResourceType`. -/
def permissionResourceTypeId : String := "permission"

/-- Function `strings.Split(s, sep)` for a one-character separator. -/
def strSplit (sep : Char) : List Char → List (List Char)
  | [] => [[]]
  | c :: cs =>
    if c = sep then [] :: strSplit sep cs
    else
      match strSplit sep cs with
      | [] => [[c]]
      | p :: ps => (c :: p) :: ps

/-- Function `strings.Join(parts, sep)` for a one-character separator. -/
def strJoin (sep : Char) : List (List Char) → List Char
  | [] => []
  | [p] => p
  | p :: q :: ps => p ++ sep :: strJoin sep (q :: ps)

/-- Function `getFirstNameAndLastName`. -/
def getFirstNameAndLastName (name : String) : String × String :=
  match strSplit ' ' name.data with
  | [] => ("", "")
  | firstName :: rest =>
    (String.mk firstName, if rest.length > 0 then String.mk (strJoin ' ' rest) else "")

/-- Function `parseIntoUserResource`. `resource.NewUserResource` does not fail for an
`int` object id and a profile of strings and ints, so the result is always `ok`. -/
def parseIntoUserResource (user : User) (parentResourceID : Option ResourceId) :
    Except GoError Resource :=
  let names := getFirstNameAndLastName user.Name
  let profile : List (String × Value) :=
    [("user_id", .int user.ID), ("uuid", .str user.UUID), ("username", .str user.Username),
     ("first_name", .str names.1), ("last_name", .str names.2), ("email", .str user.Email)]
  .ok
    { Id := { ResourceType := userResourceTypeId, Resource := Itoa user.ID }
      ParentResourceId := parentResourceID
      DisplayName := user.Name
      UserTrait := some
        { Profile := profile
          Status := if user.Enabled then .STATUS_ENABLED else .STATUS_DISABLED
          Email := (user.Email, true)
          Login := user.Username
          LastLogin := if user.LastLogin > 0 then some user.LastLogin else none } }

/-- The cache fields of struct `Connector`; the mutex serialises `cacheUsers`. -/
structure Connector where
  cachedUsers : Option (GoMap User)
  usersTimestamp : Int
deriving DecidableEq

/-- Struct `RoleMapRegistry`. -/
structure RoleMapRegistry where
  Role : Role
  Users : List User
deriving DecidableEq

/-- The cache fields of struct `roleBuilder`. -/
structure roleBuilder where
  roleCache : Option (GoMap RoleMapRegistry)
  cacheLastLoad : Int
deriving DecidableEq

/-- The cache fields of struct `permissionBuilder`, with the connector it points to. -/
structure permissionBuilder where
  connector : Connector
  permissionsCache : Option (GoMap Permission)
  permissionsLastLoad : Int
  cachedGroups : Option (GoMap String)
  groupsLastLoad : Int
deriving DecidableEq

/-- Struct `userBuilder`: the connector it points to. -/
structure userBuilder where
  connector : Connector
deriving DecidableEq

variable {σ : Type}

/-- Method `Connector.cacheUsers`. -/
def Connector.cacheUsers (env : Env σ) (c : Connector) (w : World σ) :
    Ret × Connector × World σ :=
  if c.cachedUsers.isSome ∧ timeSince env w c.usersTimestamp < TTL * Minute then
    (⟨[], none⟩, c, w)
  else
    match TenableVMClient.GetUsers env w with
    | (.error e, w1) => (⟨[], some ("error creating users cache " ++ e)⟩, c, w1)
    | (.ok (users, _), w1) =>
      let usersToCache := users.foldl (fun m user => GoMap.set m user.UUID user) []
      (⟨[], none⟩, { cachedUsers := some usersToCache, usersTimestamp := env.now w1.ext }, w1)

/-- Method `permissionBuilder.loadPermissionsCache`. -/
def permissionBuilder.loadPermissionsCache (env : Env σ) (o : permissionBuilder) (w : World σ) :
    Ret × permissionBuilder × World σ :=
  if o.permissionsCache.isSome ∧ timeSince env w o.permissionsLastLoad < TTL * Minute then
    (⟨[], none⟩, o, w)
  else
    match TenableVMClient.ListPermissions env w with
    | (.error e, w1) => (⟨[], some e⟩, o, w1)
    | (.ok (permissions, _), w1) =>
      let permissionsMap :=
        permissions.foldl (fun m permission => GoMap.set m permission.UUID.String permission) []
      (⟨[], none⟩,
        { o with permissionsCache := some permissionsMap, permissionsLastLoad := env.now w1.ext },
        w1)

/-- Method `permissionBuilder.loadGroupsCache`. -/
def permissionBuilder.loadGroupsCache (env : Env σ) (o : permissionBuilder) (w : World σ) :
    Ret × permissionBuilder × World σ :=
  if o.cachedGroups.isSome ∧ timeSince env w o.groupsLastLoad < TTL * Minute then
    (⟨[], none⟩, o, w)
  else
    match TenableVMClient.GetGroups env w with
    | (.error e, w1) => (⟨[], some ("error creating users cache " ++ e)⟩, o, w1)
    | (.ok (groups, _), w1) =>
      let groupsToCache := groups.foldl (fun m group => GoMap.set m group.UUID (Itoa group.ID)) []
      (⟨[], none⟩, { o with cachedGroups := some groupsToCache, groupsLastLoad := env.now w1.ext },
        w1)

/-- The body of the inner loop of `loadRoleMapCache`: files `user` under `role`. -/
def roleMapInsert (roleMap : GoMap RoleMapRegistry) (user : User) (role : Role) :
    GoMap RoleMapRegistry :=
  let uuidKey := role.UUID.String
  match GoMap.get? roleMap uuidKey with
  | none => GoMap.set roleMap uuidKey { Role := role, Users := [user] }
  | some existing => GoMap.set roleMap uuidKey { existing with Users := existing.Users ++ [user] }

/-- The map `loadRoleMapCache` builds from a user listing. -/
def buildRoleMap (users : List User) : GoMap RoleMapRegistry :=
  users.foldl (fun m user => user.RbacRoles.foldl (fun m role => roleMapInsert m user role) m) []

/-- Method `roleBuilder.loadRoleMapCache`. -/
def roleBuilder.loadRoleMapCache (env : Env σ) (o : roleBuilder) (w : World σ) :
    Ret × roleBuilder × World σ :=
  if o.roleCache.isSome ∧ timeSince env w o.cacheLastLoad < TTL * Minute then
    (⟨[], none⟩, o, w)
  else
    match TenableVMClient.GetUsers env w with
    | (.error e, w1) => (⟨[], some e⟩, o, w1)
    | (.ok (users, _), w1) =>
      (⟨[], none⟩, { roleCache := some (buildRoleMap users), cacheLastLoad := env.now w1.ext }, w1)

/-- The loop of `userBuilder.List` over the cached users. -/
def userResources (parentResourceID : Option ResourceId) :
    List (String × User) → Except GoError (List Resource)
  | [] => .ok []
  | (_, user) :: rest =>
    match parseIntoUserResource user parentResourceID with
    | .error e => .error e
    | .ok userResource =>
      match userResources parentResourceID rest with
      | .error e => .error e
      | .ok resources => .ok (userResource :: resources)

/-- Method `userBuilder.List`. A nil `cachedUsers` ranges over nothing. -/
def userBuilder.List (env : Env σ) (o : userBuilder) (parentResourceID : Option ResourceId)
    (w : World σ) : ListRet × userBuilder × World σ :=
  match o.connector.cacheUsers env w with
  | (⟨annos, some err⟩, c, w1) => (⟨[], "", annos, some err⟩, { connector := c }, w1)
  | (⟨_, none⟩, c, w1) =>
    match userResources parentResourceID (c.cachedUsers.getD []) with
    | .error err => (⟨[], "", [], some err⟩, { connector := c }, w1)
    | .ok resources => (⟨resources, "", [], none⟩, { connector := c }, w1)

/-- Constant `subjectTypeUser`. -/
def subjectTypeUser : String := "User"

/-- Constant `subjectTypeGroup`. -/
def subjectTypeGroup : String := "UserGroup"

/-- Constant `BasicUserRole`. -/
def BasicUserRole : Int := 16

/-- Method `groupBuilder.Grant`. The scan with its early return is `any`. -/
def groupBuilder.Grant (env : Env σ) (principal : Resource) (entitlement : Entitlement)
    (w : World σ) : Ret × World σ :=
  let userId := principal.Id.Resource
  let groupId := entitlement.Resource.Id.Resource
  match TenableVMClient.GetGroupMembers env groupId w with
  | (.error err, w1) => (⟨[], some err⟩, w1)
  | (.ok members, w1) =>
    if members.any (fun member => decide (Itoa member.ID = userId)) then
      (⟨[.GrantAlreadyExists], none⟩, w1)
    else
      match TenableVMClient.CreateUserGroupMembership env groupId userId w1 with
      | (some err, w2) => (⟨[], some ("baton-tenable: failed to add user to group: " ++ err)⟩, w2)
      | (none, w2) => (⟨[], none⟩, w2)

/-- Method `groupBuilder.Revoke`. The scan that sets `isMember` is `any`. -/
def groupBuilder.Revoke (env : Env σ) (grant : TenableVM.Grant) (w : World σ) : Ret × World σ :=
  let userId := grant.Principal.Id.Resource
  let groupId := grant.Entitlement.Resource.Id.Resource
  match TenableVMClient.GetGroupMembers env groupId w with
  | (.error err, w1) => (⟨[], some err⟩, w1)
  | (.ok members, w1) =>
    let isMember := members.any (fun member => decide (Itoa member.ID = userId))
    if !isMember then (⟨[.GrantAlreadyRevoked], none⟩, w1)
    else
      match TenableVMClient.DeleteUserGroupMembership env groupId userId w1 with
      | (some err, w2) =>
        (⟨[], some ("baton-tenable: failed to remove user from group: " ++ err)⟩, w2)
      | (none, w2) => (⟨[], none⟩, w2)

/-- Method `permissionBuilder.Grant`. It reads and writes no field of the builder. -/
def permissionBuilder.Grant (env : Env σ) (principal : Resource) (entitlement : Entitlement)
    (w : World σ) : Ret × World σ :=
  if principal.Id.ResourceType ≠ userResourceTypeId then
    (⟨[], some ("can not grant to resource type " ++ principal.Id.ResourceType)⟩, w)
  else
    let permissionUUID := entitlement.Resource.Id.Resource
    match TenableVMClient.GetPermissionDetails env permissionUUID w with
    | (.error err, w1) => (⟨[], some ("failed to get permission details " ++ err)⟩, w1)
    | (.ok permission, w1) =>
      match TenableVMClient.GetUserDetails env principal.Id.Resource w1 with
      | (.error err, w2) =>
        (⟨[], some ("error while performing grant, failed to get user details " ++ err)⟩, w2)
      | (.ok user, w2) =>
        if permission.Subjects.any (fun subject => decide (subject.UUID.String = user.UUID)) then
          (⟨[.GrantAlreadyExists], none⟩, w2)
        else
          match Parse user.UUID with
          | .error err => (⟨[], some ("error while parsing user uuid " ++ err)⟩, w2)
          | .ok uuid =>
            let tenableSubject : TenableObject :=
              { Type_ := subjectTypeUser, Name := user.Name, UUID := uuid }
            let permission := { permission with Subjects := permission.Subjects ++ [tenableSubject] }
            match TenableVMClient.UpdatePermission env permission w2 with
            | (some err, w3) => (⟨[], some ("failed to update permission " ++ err)⟩, w3)
            | (none, w3) => (⟨[], none⟩, w3)

/-- Method `permissionBuilder.Revoke`. `slices.DeleteFunc` keeps the elements the
predicate rejects, in order. -/
def permissionBuilder.Revoke (env : Env σ) (grant : TenableVM.Grant) (w : World σ) : Ret × World σ :=
  let principal := grant.Principal
  if principal.Id.ResourceType ≠ userResourceTypeId then
    (⟨[], some ("can not revoke grant for resource type " ++ principal.Id.ResourceType)⟩, w)
  else
    let permissionUUID := grant.Entitlement.Resource.Id.Resource
    match TenableVMClient.GetPermissionDetails env permissionUUID w with
    | (.error err, w1) => (⟨[], some ("failed to get permission details " ++ err)⟩, w1)
    | (.ok permission, w1) =>
      match TenableVMClient.GetUserDetails env principal.Id.Resource w1 with
      | (.error err, w2) =>
        (⟨[], some ("error while revoking grant, failed to get user details " ++ err)⟩, w2)
      | (.ok user, w2) =>
        let isGranted :=
          permission.Subjects.any (fun subject => decide (subject.UUID.String = user.UUID))
        if !isGranted then (⟨[.GrantAlreadyRevoked], none⟩, w2)
        else
          match Parse user.UUID with
          | .error err => (⟨[], some ("error while parsing user uuid " ++ err)⟩, w2)
          | .ok uuid =>
            let permission :=
              { permission with
                Subjects := permission.Subjects.filter (fun obj => !decide (obj.UUID = uuid)) }
            match TenableVMClient.UpdatePermission env permission w2 with
            | (some err, w3) => (⟨[], some ("failed to update permission " ++ err)⟩, w3)
            | (none, w3) => (⟨[], none⟩, w3)

/-- Method `roleBuilder.Grant`. It reads and writes no field of the builder. -/
def roleBuilder.Grant (env : Env σ) (principal : Resource) (entitlement : Entitlement)
    (w : World σ) : Ret × World σ :=
  let userId := principal.Id.Resource
  let roleId := entitlement.Resource.Id.Resource
  match TenableVMClient.GetUserDetails env userId w with
  | (.error err, w1) => (⟨[], some err⟩, w1)
  | (.ok user, w1) =>
    match TenableVMClient.GetUserRoles env user.UUID w1 with
    | (.error err, w2) => (⟨[], some err⟩, w2)
    | (.ok userRoles, w2) =>
      if userRoles.RolesUUID.contains roleId then (⟨[.GrantAlreadyExists], none⟩, w2)
      else
        match TenableVMClient.UpdateUserRoles env user.UUID roleId w2 with
        | (some err, w3) => (⟨[], some err⟩, w3)
        | (none, w3) => (⟨[], none⟩, w3)

/-- Method `roleBuilder.Revoke`. It reads and writes no field of the builder. -/
def roleBuilder.Revoke (env : Env σ) (grant : TenableVM.Grant) (w : World σ) : Ret × World σ :=
  let userId := grant.Principal.Id.Resource
  let roleId := grant.Entitlement.Resource.Id.Resource
  match TenableVMClient.GetUserDetails env userId w with
  | (.error err, w1) => (⟨[], some err⟩, w1)
  | (.ok user, w1) =>
    match TenableVMClient.GetUserRoles env user.UUID w1 with
    | (.error err, w2) => (⟨[], some err⟩, w2)
    | (.ok userRoles, w2) =>
      if !userRoles.RolesUUID.contains roleId then (⟨[.GrantAlreadyRevoked], none⟩, w2)
      else
        let updateUser : UserUpdateReqBody :=
          { Name := "", Permissions := BasicUserRole, Email := "", Enabled := false }
        match TenableVMClient.UpdateUser env userId updateUser w2 with
        | (.error err, w3) => (⟨[], some err⟩, w3)
        | (.ok _, w3) => (⟨[], none⟩, w3)

/-! ## A reference upstream

A Tenable service whose state reflects every successful mutation and changes
through nothing else. Any call may fail: `faults` lists, for the coming calls
in order, whether the call fails (a failed call changes nothing else). It gives
the idempotency statements their upstream and the other statements their
concrete instances. -/

/-- State of the reference upstream. -/
structure Tenable where
  clock : Int
  users : List User
  groups : List Group
  members : GoMap (List User)
  permissions : List Permission
  roles : GoMap (List String)
  faults : List Bool
deriving DecidableEq

namespace Tenable

/-- Whether the coming call fails. -/
def failing (s : Tenable) : Bool := s.faults.headD false

/-- The state once the coming call has been answered, apart from its effect on the data. -/
def served (s : Tenable) : Tenable := { s with faults := s.faults.tail }

/-- The user with the given decimal id. -/
def findUser (s : Tenable) (userId : String) : Option User :=
  s.users.find? (fun u => decide (Itoa u.ID = userId))

/-- The permission with the given canonical UUID. -/
def findPermission (s : Tenable) (uuid : String) : Option Permission :=
  s.permissions.find? (fun p => decide (p.UUID.String = uuid))

/-- Endpoint `GET /users`. -/
def listUsers (s : Tenable) : Except GoError (List User) × Tenable :=
  if s.failing then (.error "service unavailable", s.served) else (.ok s.users, s.served)

/-- Endpoint `GET /users/{id}`. -/
def getUser (userId : String) (s : Tenable) : Except GoError User × Tenable :=
  if s.failing then (.error "service unavailable", s.served)
  else
    match s.findUser userId with
    | some u => (.ok u, s.served)
    | none => (.error "not found", s.served)

/-- Endpoint `GET /access-control/v1/users/{uuid}/roles`. -/
def getUserRoles (userUUID : String) (s : Tenable) : Except GoError UserRole × Tenable :=
  if s.failing then (.error "service unavailable", s.served)
  else
    match GoMap.get? s.roles userUUID with
    | some rs => (.ok { ContainerUUID := "", UserUUID := userUUID, RolesUUID := rs }, s.served)
    | none => (.error "not found", s.served)

/-- Endpoint `PUT /users/{id}`: sets the fields present in the body. -/
def updateUser (userId : String) (body : UserUpdateReqBody) (s : Tenable) :
    Except GoError User × Tenable :=
  if s.failing then (.error "service unavailable", s.served)
  else
    match s.findUser userId with
    | some u =>
      let u1 : User :=
        { u with
          Name := if body.Name = "" then u.Name else body.Name
          Permissions := if body.Permissions = 0 then u.Permissions else body.Permissions
          Email := if body.Email = "" then u.Email else body.Email }
      (.ok u1,
        { s.served with
          users := s.users.map (fun x => if Itoa x.ID = userId then u1 else x) })
    | none => (.error "not found", s.served)

/-- Endpoint `PUT /access-control/v1/users/{uuid}/roles`: replaces the role set. -/
def setUserRoles (userUUID : String) (body : UserRoleReqBody) (s : Tenable) :
    Option GoError × Tenable :=
  if s.failing then (some "service unavailable", s.served)
  else
    match GoMap.get? s.roles userUUID with
    | some _ => (none, { s.served with roles := GoMap.set s.roles userUUID body.RolesUUIDs })
    | none => (some "not found", s.served)

/-- Endpoint `POST /users`. -/
def createUser (newUser : NewUser) (s : Tenable) : Except GoError User × Tenable :=
  if s.failing then (.error "service unavailable", s.served)
  else
    let u : User :=
      { ID := s.users.length + 1, UUID := "", Username := newUser.Username,
        Email := newUser.Email, Name := newUser.Name, LastLogin := 0, Enabled := true,
        Permissions := newUser.Permissions, ContainerUUID := "", RbacRoles := [], Roles := [],
        GroupUUIDs := [] }
    (.ok u, { s.served with users := s.users ++ [u] })

/-- Endpoint `GET /groups`. -/
def listGroups (s : Tenable) : Except GoError (List Group) × Tenable :=
  if s.failing then (.error "service unavailable", s.served) else (.ok s.groups, s.served)

/-- Endpoint `GET /groups/{id}/users`. -/
def listGroupMembers (groupId : String) (s : Tenable) : Except GoError (List User) × Tenable :=
  if s.failing then (.error "service unavailable", s.served)
  else
    match GoMap.get? s.members groupId with
    | some ms => (.ok ms, s.served)
    | none => (.error "not found", s.served)

/-- Endpoint `POST /groups/{id}/users/{id}`: adds the user unless already a member. -/
def addGroupMember (groupId userId : String) (s : Tenable) : Option GoError × Tenable :=
  if s.failing then (some "service unavailable", s.served)
  else
    match GoMap.get? s.members groupId, s.findUser userId with
    | some ms, some u =>
      if ms.any (fun m => decide (Itoa m.ID = userId)) then (none, s.served)
      else (none, { s.served with members := GoMap.set s.members groupId (ms ++ [u]) })
    | _, _ => (some "not found", s.served)

/-- Endpoint `DELETE /groups/{id}/users/{id}`: removes every entry of the user. -/
def removeGroupMember (groupId userId : String) (s : Tenable) : Option GoError × Tenable :=
  if s.failing then (some "service unavailable", s.served)
  else
    match GoMap.get? s.members groupId with
    | some ms =>
      (none,
        { s.served with
          members :=
            GoMap.set s.members groupId (ms.filter (fun m => !decide (Itoa m.ID = userId))) })
    | none => (some "not found", s.served)

/-- Endpoint `GET /api/v3/access-control/permissions`. -/
def listPermissions (s : Tenable) : Except GoError (List Permission) × Tenable :=
  if s.failing then (.error "service unavailable", s.served) else (.ok s.permissions, s.served)

/-- Endpoint `GET /api/v3/access-control/permissions/{uuid}`. -/
def getPermission (uuid : String) (s : Tenable) : Except GoError Permission × Tenable :=
  if s.failing then (.error "service unavailable", s.served)
  else
    match s.findPermission uuid with
    | some p => (.ok p, s.served)
    | none => (.error "not found", s.served)

/-- Endpoint `PUT /api/v3/access-control/permissions/{uuid}`: a full replacement of
name, actions, objects and subjects. -/
def updatePermission (uuid : String) (body : PermissionUpdateBody) (s : Tenable) :
    Option GoError × Tenable :=
  if s.failing then (some "service unavailable", s.served)
  else
    match s.findPermission uuid with
    | some _ =>
      (none,
        { s.served with
          permissions := s.permissions.map (fun p =>
            if p.UUID.String = uuid then
              { p with Name := body.Name, Actions := body.Actions, Objects := body.Objects,
                       Subjects := body.Subjects }
            else p) })
    | none => (some "not found", s.served)

end Tenable

/-- The reference upstream as an environment. -/
def tenable : Env Tenable where
  now := fun s => s.clock
  listUsers := Tenable.listUsers
  getUser := Tenable.getUser
  getUserRoles := Tenable.getUserRoles
  updateUser := Tenable.updateUser
  setUserRoles := Tenable.setUserRoles
  createUser := Tenable.createUser
  listGroups := Tenable.listGroups
  listGroupMembers := Tenable.listGroupMembers
  addGroupMember := Tenable.addGroupMember
  removeGroupMember := Tenable.removeGroupMember
  listPermissions := Tenable.listPermissions
  getPermission := Tenable.getPermission
  updatePermission := Tenable.updatePermission

/-! ## Sample data -/

/-- The UUID whose last byte is `n` and whose other bytes are zero. -/
def uuidOf (n : Fin 256) : UUID := ⟨[0, 0, 0, 0, 0, 0, 0, 0, 0, 0, 0, 0, 0, 0, 0, n], rfl⟩

/-- A user with the given id, UUID text and name. -/
def mkUser (id : Int) (uuid name : String) : User :=
  { ID := id, UUID := uuid, Username := name, Email := name, Name := name, LastLogin := 0,
    Enabled := true, Permissions := 16, ContainerUUID := "", RbacRoles := [], Roles := [],
    GroupUUIDs := [] }

/-- User 101. -/
def alice : User := mkUser 101 "00000000-0000-0000-0000-000000000065" "Alice A"

/-- User 202. -/
def bob : User := mkUser 202 "00000000-0000-0000-0000-0000000000ca" "Bob"

/-- User 303, whose UUID the upstream spells in upper case. -/
def carol : User := mkUser 303 "00000000-0000-0000-0000-0000000000CC" "Carol"

/-- Group 7. -/
def admins : Group :=
  { ID := 7, UUID := "g-7", Name := "admins", Permissions := 0, UsersCount := 2,
    ContainerUUID := "" }

/-- A permission on a tag, held by Alice. -/
def scanPermission : Permission :=
  { UUID := uuidOf 1, Name := "scan", Actions := ["CanScan"],
    Objects := [{ Type_ := "Tag", UUID := uuidOf 9, Name := "env:prod" }],
    Subjects := [{ Type_ := "User", UUID := uuidOf 101, Name := "Alice A" }],
    CreatedAt := 0, CreatedBy := "", UpdatedAt := 0, UpdatedBy := "" }

/-- An upstream with three users, group 7 holding users 101 and 202, and one permission. -/
def demo : Tenable :=
  { clock := 0, users := [alice, bob, carol], groups := [admins],
    members := [("7", [alice, bob])], permissions := [scanPermission],
    roles := [(alice.UUID, ["r1"]), (bob.UUID, []), (carol.UUID, [])], faults := [] }

/-- The resource of a user, group, role or permission with the given id. -/
def resourceOf (resourceType id : String) : Resource :=
  { Id := { ResourceType := resourceType, Resource := id }, ParentResourceId := none,
    DisplayName := "", UserTrait := none }

/-- The entitlement `slug` on a resource. -/
def entitlementOf (resourceType id slug : String) : Entitlement :=
  { Resource := resourceOf resourceType id, Slug := slug }

/-- The grant of an entitlement to a user. -/
def grantOf (resourceType id slug userId : String) : TenableVM.Grant :=
  { Entitlement := entitlementOf resourceType id slug, Principal := resourceOf "user" userId,
    Annotations := [] }

/-- A permission builder that has loaded nothing yet. -/
def emptyPermissionBuilder : permissionBuilder :=
  { connector := { cachedUsers := none, usersTimestamp := 0 }, permissionsCache := none,
    permissionsLastLoad := 0, cachedGroups := none, groupsLastLoad := 0 }

/-- A permission builder holding empty snapshots loaded at time 0. -/
def loadedPermissionBuilder : permissionBuilder :=
  { connector := { cachedUsers := some [], usersTimestamp := 0 }, permissionsCache := some [],
    permissionsLastLoad := 0, cachedGroups := some [], groupsLastLoad := 0 }

/-- A user builder that has loaded nothing yet. -/
def freshUserBuilder : userBuilder := { connector := { cachedUsers := none, usersTimestamp := 0 } }

/-- The reference upstream five minutes later, with its next call failing. -/
def demoDown5 : Tenable := { demo with clock := 5 * Minute, faults := [true] }

/-- The reference upstream six minutes later, with its next call failing. -/
def demoDown6 : Tenable := { demo with clock := 6 * Minute, faults := [true] }

/-- First read of the user list: a successful load at time 0. -/
def firstRead : ListRet × userBuilder × World Tenable :=
  freshUserBuilder.List tenable none ⟨demo, []⟩

/-- Second read, five minutes later: the refresh it attempts fails. -/
def failedRead : ListRet × userBuilder × World Tenable :=
  firstRead.2.1.List tenable none ⟨demoDown5, []⟩

/-- Third read, six minutes after the load, the upstream still failing: no successful
refresh has happened since the load. -/
def laterRead : ListRet × userBuilder × World Tenable :=
  failedRead.2.1.List tenable none ⟨demoDown6, []⟩

/-- The subject entry of Carol, under the UUID her upper-case UUID text parses to. -/
def carolSubject : TenableObject := { Type_ := "User", UUID := uuidOf 204, Name := "Carol" }

/-- A permission held by Carol alone. -/
def carolPermission : Permission :=
  { UUID := uuidOf 2, Name := "report", Actions := ["CanView"], Objects := [],
    Subjects := [carolSubject], CreatedAt := 0, CreatedBy := "", UpdatedAt := 0, UpdatedBy := "" }

/-- The reference upstream with Carol's permission next to the scan permission. -/
def demoCarol : Tenable := { demo with permissions := [scanPermission, carolPermission] }

/-- A permission nobody holds yet. -/
def auditPermission : Permission :=
  { UUID := uuidOf 3, Name := "audit", Actions := ["CanView"], Objects := [],
    Subjects := [], CreatedAt := 0, CreatedBy := "", UpdatedAt := 0, UpdatedBy := "" }

/-- The reference upstream with the audit permission only. -/
def demoAudit : Tenable := { demo with permissions := [auditPermission] }

/-- Granting the audit permission to Carol. -/
def carolFirstGrant : Ret × World Tenable :=
  permissionBuilder.Grant tenable (resourceOf "user" "303")
    (entitlementOf "permission" (uuidOf 3).String "assigned") ⟨demoAudit, []⟩

/-- Granting it to her again, right after, on the upstream the first grant left. -/
def carolSecondGrant : Ret × World Tenable :=
  permissionBuilder.Grant tenable (resourceOf "user" "303")
    (entitlementOf "permission" (uuidOf 3).String "assigned") ⟨carolFirstGrant.2.ext, []⟩

/-- Revoking Carol's permission, which she holds. -/
def carolFirstRevoke : Ret × World Tenable :=
  permissionBuilder.Revoke tenable (grantOf "permission" (uuidOf 2).String "assigned" "303")
    ⟨demoCarol, []⟩

/-! ## Concurrent callers

`Grant` shares no memory with other callers: all it shares is the upstream, which it
reaches through client calls only. Two concurrent `Grant`s are therefore modelled as
two callers that each run from one upstream call to the next in one step, with the
steps of the two interleaved in any order. -/

/-- Where a caller of `groupBuilder.Grant` stands between two upstream calls. -/
inductive GroupGrantPhase where
  | start
  | fetched (members : List User)
  | done (ret : Ret)
deriving DecidableEq

/-- One step of `groupBuilder.Grant`: the code up to and including the next upstream call. -/
def groupBuilder.GrantStep (env : Env σ) (principal : Resource) (entitlement : Entitlement) :
    GroupGrantPhase → World σ → GroupGrantPhase × World σ
  | .start, w =>
    match TenableVMClient.GetGroupMembers env entitlement.Resource.Id.Resource w with
    | (.error err, w1) => (.done ⟨[], some err⟩, w1)
    | (.ok members, w1) => (.fetched members, w1)
  | .fetched members, w =>
    if members.any (fun member => decide (Itoa member.ID = principal.Id.Resource)) then
      (.done ⟨[.GrantAlreadyExists], none⟩, w)
    else
      match TenableVMClient.CreateUserGroupMembership env entitlement.Resource.Id.Resource
          principal.Id.Resource w with
      | (some err, w2) =>
        (.done ⟨[], some ("baton-tenable: failed to add user to group: " ++ err)⟩, w2)
      | (none, w2) => (.done ⟨[], none⟩, w2)
  | .done ret, w => (.done ret, w)

/-- Where a caller of `permissionBuilder.Grant` stands between two upstream calls. -/
inductive PermissionGrantPhase where
  | start
  | gotPermission (permission : Permission)
  | gotUser (permission : Permission) (user : User)
  | done (ret : Ret)
deriving DecidableEq

/-- One step of `permissionBuilder.Grant`: the code up to and including the next
upstream call. -/
def permissionBuilder.GrantStep (env : Env σ) (principal : Resource)
    (entitlement : Entitlement) : PermissionGrantPhase → World σ → PermissionGrantPhase × World σ
  | .start, w =>
    if principal.Id.ResourceType ≠ userResourceTypeId then
      (.done ⟨[], some ("can not grant to resource type " ++ principal.Id.ResourceType)⟩, w)
    else
      match TenableVMClient.GetPermissionDetails env entitlement.Resource.Id.Resource w with
      | (.error err, w1) => (.done ⟨[], some ("failed to get permission details " ++ err)⟩, w1)
      | (.ok permission, w1) => (.gotPermission permission, w1)
  | .gotPermission permission, w =>
    match TenableVMClient.GetUserDetails env principal.Id.Resource w with
    | (.error err, w2) =>
      (.done ⟨[], some ("error while performing grant, failed to get user details " ++ err)⟩, w2)
    | (.ok user, w2) => (.gotUser permission user, w2)
  | .gotUser permission user, w =>
    if permission.Subjects.any (fun subject => decide (subject.UUID.String = user.UUID)) then
      (.done ⟨[.GrantAlreadyExists], none⟩, w)
    else
      match Parse user.UUID with
      | .error err => (.done ⟨[], some ("error while parsing user uuid " ++ err)⟩, w)
      | .ok uuid =>
        let tenableSubject : TenableObject :=
          { Type_ := subjectTypeUser, Name := user.Name, UUID := uuid }
        let permission := { permission with Subjects := permission.Subjects ++ [tenableSubject] }
        match TenableVMClient.UpdatePermission env permission w with
        | (some err, w3) => (.done ⟨[], some ("failed to update permission " ++ err)⟩, w3)
        | (none, w3) => (.done ⟨[], none⟩, w3)
  | .done ret, w => (.done ret, w)

/-- Runs two callers under a schedule: `true` lets the first caller take its next
step, `false` the second. -/
def interleave {A B : Type} (stepA : A → World σ → A × World σ)
    (stepB : B → World σ → B × World σ) : List Bool → A × B × World σ → A × B × World σ
  | [], st => st
  | true :: rest, (a, b, w) => interleave stepA stepB rest ((stepA a w).1, b, (stepA a w).2)
  | false :: rest, (a, b, w) => interleave stepA stepB rest (a, (stepB b w).1, (stepB b w).2)

/-- Two callers adding user 303 to group 7, both reading before either writes. -/
def racingGroupGrants : GroupGrantPhase × GroupGrantPhase × World Tenable :=
  interleave
    (groupBuilder.GrantStep tenable (resourceOf "user" "303") (entitlementOf "group" "7" "member"))
    (groupBuilder.GrantStep tenable (resourceOf "user" "303") (entitlementOf "group" "7" "member"))
    [true, false, true, false] (.start, .start, ⟨demo, []⟩)

/-- Two callers granting the scan permission to Bob, both reading before either writes. -/
def racingPermissionGrants : PermissionGrantPhase × PermissionGrantPhase × World Tenable :=
  interleave
    (permissionBuilder.GrantStep tenable (resourceOf "user" "202")
      (entitlementOf "permission" (uuidOf 1).String "assigned"))
    (permissionBuilder.GrantStep tenable (resourceOf "user" "202")
      (entitlementOf "permission" (uuidOf 1).String "assigned"))
    [true, false, true, false, true, false] (.start, .start, ⟨demo, []⟩)

/-- Mutating calls a caller of `groupBuilder.Grant` may still issue. -/
def GroupGrantPhase.pending : GroupGrantPhase → Nat
  | .done _ => 0
  | _ => 1

/-- Mutating calls a caller of `permissionBuilder.Grant` may still issue. -/
def PermissionGrantPhase.pending : PermissionGrantPhase → Nat
  | .done _ => 0
  | _ => 1

/-- What a caller of `permissionBuilder.Grant` holds is well formed: the subjects it
read have pairwise distinct UUIDs and the UUID text of the user it read is canonical. -/
def PermissionGrantPhase.WellFormed : PermissionGrantPhase → Prop
  | .gotPermission permission => (permission.Subjects.map (fun subject => subject.UUID)).Nodup
  | .gotUser permission user =>
    (permission.Subjects.map (fun subject => subject.UUID)).Nodup ∧
      ∃ v : UUID, v.String = user.UUID
  | _ => True

/-- An upstream that always answers with the scan permission and with Bob, and accepts
every update. -/
def fixedUpstream : Env Unit where
  now := fun _ => 0
  listUsers := fun s => (.ok [bob], s)
  getUser := fun _ s => (.ok bob, s)
  getUserRoles := fun _ s => (.error "not found", s)
  updateUser := fun _ _ s => (.error "not found", s)
  setUserRoles := fun _ _ s => (some "not found", s)
  createUser := fun _ s => (.error "not found", s)
  listGroups := fun s => (.ok [admins], s)
  listGroupMembers := fun _ s => (.ok [alice], s)
  addGroupMember := fun _ _ s => (none, s)
  removeGroupMember := fun _ _ s => (none, s)
  listPermissions := fun s => (.ok [scanPermission], s)
  getPermission := fun _ s => (.ok scanPermission, s)
  updatePermission := fun _ _ s => (none, s)

/-- How many entries of group `groupId` belong to the user with decimal id `userId`. -/
def Tenable.memberEntries (s : Tenable) (groupId userId : String) : Nat :=
  ((GoMap.get? s.members groupId).getD []).countP (fun m => decide (Itoa m.ID = userId))

/-- How many subjects of the permission with canonical UUID `uuid` carry the UUID `u`. -/
def Tenable.subjectEntries (s : Tenable) (uuid : String) (u : UUID) : Nat :=
  match s.findPermission uuid with
  | some p => p.Subjects.countP (fun subject => decide (subject.UUID = u))
  | none => 0

/-! ## Role projection: listing and reference definition -/

/-- Function `parseIntoRoleResource`. `resource.NewRoleResource` does not fail for a
string object id and a profile of strings, so the result is always `ok`. -/
def parseIntoRoleResource (role : Role) (parentResourceID : Option ResourceId) :
    Except GoError Resource :=
  let stringUUID := role.UUID.String
  .ok
    { Id := { ResourceType := roleResourceTypeId, Resource := stringUUID }
      ParentResourceId := parentResourceID
      DisplayName := role.Name
      UserTrait := none
      RoleProfile := some [("uuid", .str stringUUID), ("name", .str role.Name)] }

/-- The loop of `roleBuilder.List` over the role cache. -/
def roleResources (parentResourceID : Option ResourceId) :
    List (String × RoleMapRegistry) → Except GoError (List Resource)
  | [] => .ok []
  | (_, roleRegistry) :: rest =>
    match parseIntoRoleResource roleRegistry.Role parentResourceID with
    | .error e => .error e
    | .ok newRoleResource =>
      match roleResources parentResourceID rest with
      | .error e => .error e
      | .ok resources => .ok (newRoleResource :: resources)

/-- Method `roleBuilder.List`. -/
def roleBuilder.List (env : Env σ) (rb : roleBuilder) (parentResourceID : Option ResourceId)
    (w : World σ) : ListRet × roleBuilder × World σ :=
  match rb.loadRoleMapCache env w with
  | (⟨annos, some err⟩, rb1, w1) => (⟨[], "", annos, some err⟩, rb1, w1)
  | (⟨_, none⟩, rb1, w1) =>
    match roleResources parentResourceID (rb1.roleCache.getD []) with
    | .error err => (⟨[], "", [], some err⟩, rb1, w1)
    | .ok resources => (⟨resources, "", [], none⟩, rb1, w1)

/-- The scan of the spec: every user in listing order, and for each user every
embedded role descriptor in order. -/
def roleOccurrences (users : List User) : List (User × Role) :=
  users.flatMap (fun user => user.RbacRoles.map (fun role => (user, role)))

/-- The role projection as the spec words it: under role UUID `r`, the first
descriptor with UUID `r` met in the scan, and the users of all occurrences of `r`, one
per occurrence, in scan order; nothing when no occurrence has UUID `r`. -/
def roleProjection (users : List User) (r : UUID) : Option RoleMapRegistry :=
  match (roleOccurrences users).filter (fun occ => decide (occ.2.UUID = r)) with
  | [] => none
  | (user, role) :: rest => some { Role := role, Users := user :: rest.map Prod.fst }

/-- A copy of a user holding the given role descriptors. -/
def withRoles (user : User) (roles : List Role) : User := { user with RbacRoles := roles }

/-- Role "admin" under UUID 1. -/
def adminRole : Role := { UUID := uuidOf 1, Name := "admin" }

/-- The same role UUID under another name. -/
def adminRenamed : Role := { UUID := uuidOf 1, Name := "administrator" }

/-- Role "scanner" under UUID 2. -/
def scannerRole : Role := { UUID := uuidOf 2, Name := "scanner" }

/-- A listing: Alice is admin and scanner, Bob holds nothing, Carol is admin under the
other name. -/
def roleListing : List User :=
  [withRoles alice [adminRole, scannerRole], bob, withRoles carol [adminRenamed]]

/-- A role builder whose snapshot, loaded long ago, still holds the scanner role. -/
def staleRoleBuilder : roleBuilder :=
  { roleCache := some [((uuidOf 2).String, { Role := scannerRole, Users := [alice] })],
    cacheLastLoad := -(5 * Minute) }

/-- The reference upstream whose users hold the admin role only. -/
def demoAdmins : Tenable :=
  { demo with users := [withRoles alice [adminRole], bob, withRoles carol [adminRenamed]] }

/-! ## Credential generation (pkg/connector/helper.go)

The random generator `crypto.GenerateRandomPassword` of the SDK and the character
tables of Go's `unicode` package are outside the repository: the generator is an
arbitrary oracle over a state of its own, the tables are parameters. -/

/-- The predicates `unicode.IsUpper`, `unicode.IsLower` and `unicode.IsDigit`. -/
structure Unicode where
  IsUpper : Char → Bool
  IsLower : Char → Bool
  IsDigit : Char → Bool

/-- The tables of package `unicode` on ASCII characters: they agree with Go on every
ASCII character and leave the others unclassified. For examples in ASCII. -/
def unicodeASCII : Unicode where
  IsUpper := fun c => decide (65 ≤ c.toNat ∧ c.toNat ≤ 90)
  IsLower := fun c => decide (97 ≤ c.toNat ∧ c.toNat ≤ 122)
  IsDigit := fun c => decide (48 ≤ c.toNat ∧ c.toNat ≤ 57)

/-- Constant `symbols`. -/
def symbols : String := "!\"#$%&\x27()*+,-./:;<=>?@[\\]^_\x60\x7b|\x7d~"

/-- The four flags of `isPasswordValid`. -/
structure PasswordFlags where
  hasUpper : Bool
  hasLower : Bool
  hasDigit : Bool
  hasSpecial : Bool
deriving DecidableEq

/-- The `switch` of `isPasswordValid` on one character: the first case that applies
sets its flag. -/
def classify (uni : Unicode) (flags : PasswordFlags) (c : Char) : PasswordFlags :=
  if uni.IsUpper c then { flags with hasUpper := true }
  else if uni.IsLower c then { flags with hasLower := true }
  else if uni.IsDigit c then { flags with hasDigit := true }
  else if symbols.data.contains c then { flags with hasSpecial := true }
  else flags

/-- Function `isPasswordValid`. -/
def isPasswordValid (uni : Unicode) (password : String) : Bool :=
  let flags := password.data.foldl (classify uni) ⟨false, false, false, false⟩
  flags.hasUpper && flags.hasLower && flags.hasDigit && flags.hasSpecial

/-- Message `v2.CredentialOptions_RandomPassword`. -/
structure RandomPassword where
  Length : Int
deriving DecidableEq

/-- Message `v2.CredentialOptions`, as `GetRandomPassword()` sees it: `none` for a nil
message and for every other credential option. -/
structure CredentialOptions where
  RandomPassword : Option RandomPassword
deriving DecidableEq

/-- The generator `crypto.GenerateRandomPassword` over its own state `γ`: asked for a
length, it answers a password or an error. -/
abbrev Generator (γ : Type) := Int → γ → Except GoError String × γ

/-- The generator state together with the chronological log of its calls: the length
requested and the answer given. -/
structure GenWorld (γ : Type) where
  st : γ
  log : List (Int × Except GoError String)

/-- Constant `maxAttempts`. -/
def maxAttempts : Nat := 20

/-- The loop of `generateCredentials` with `attempts` iterations left. -/
def generateAttempts {γ : Type} (uni : Unicode) (gen : Generator γ) (length : Int) :
    Nat → GenWorld γ → Except GoError String × GenWorld γ
  | 0, g => (.error "failed to generate a valid password after 20 attempts", g)
  | attempts + 1, g =>
    match gen (min 12 length) g.st with
    | (.error err, s) => (.error err, ⟨s, g.log ++ [(min 12 length, .error err)]⟩)
    | (.ok password, s) =>
      if isPasswordValid uni password then
        (.ok password, ⟨s, g.log ++ [(min 12 length, .ok password)]⟩)
      else
        generateAttempts uni gen length attempts ⟨s, g.log ++ [(min 12 length, .ok password)]⟩

/-- Function `generateCredentials`. -/
def generateCredentials {γ : Type} (uni : Unicode) (gen : Generator γ)
    (credentialOptions : CredentialOptions) (g : GenWorld γ) :
    Except GoError String × GenWorld γ :=
  match credentialOptions.RandomPassword with
  | none => (.error "unsupported credential option", g)
  | some randomPassword => generateAttempts uni gen randomPassword.Length maxAttempts g

/-- A generator that hands out the passwords of a list in turn, whatever the length
asked, and fails when the list is used up. -/
def scripted : Generator (List String)
  | _, [] => (.error "generator failed", [])
  | _, password :: rest => (.ok password, rest)

/-! ## Grants of a permission (pkg/connector/permissions.go, helper.go) -/

/-- Constant `assignedEntitlement`. -/
def assignedEntitlement : String := "assigned"

/-- Function `getUserResourceId`. A nil map has no key. -/
def getUserResourceId (uuid : String) (cachedUsers : Option (GoMap User)) :
    Except GoError ResourceId :=
  match GoMap.get? (cachedUsers.getD []) uuid with
  | none => .error ("user not found, unknown UUID: " ++ uuid)
  | some user => .ok { ResourceType := userResourceTypeId, Resource := Itoa user.ID }

/-- Function `getGroupResourceId`. A nil map has no key. -/
def getGroupResourceId (uuid : String) (cachedGroups : Option (GoMap String)) :
    Except GoError ResourceId :=
  match GoMap.get? (cachedGroups.getD []) uuid with
  | none => .error ("group not found, unknown UUID: " ++ uuid)
  | some groupID => .ok { ResourceType := groupResourceTypeId, Resource := groupID }

/-- Function `grant.NewGrant` of the SDK for a principal given by its resource id. -/
def NewGrant (resource : Resource) (entitlementName : String) (principal : ResourceId)
    (annos : Annotations) : TenableVM.Grant :=
  { Entitlement := { Resource := resource, Slug := entitlementName }
    Principal :=
      { Id := principal, ParentResourceId := none, DisplayName := "", UserTrait := none }
    Annotations := annos }

/-- The result tuple of a `Grants` method. -/
structure GrantsRet where
  grants : List TenableVM.Grant
  token : String
  annos : Annotations
  err : Option GoError
deriving DecidableEq

/-- The loop of `permissionBuilder.Grants` over the subjects, `grants` being the
grants collected so far. A failed lookup returns from `Grants` with the error. -/
def grantsLoop (resource : Resource) (cachedUsers : Option (GoMap User))
    (cachedGroups : Option (GoMap String)) :
    List TenableObject → List TenableVM.Grant → Except GoError (List TenableVM.Grant)
  | [], grants => .ok grants
  | subject :: rest, grants =>
    if subject.Type_ = subjectTypeUser then
      match getUserResourceId subject.UUID.String cachedUsers with
      | .error err => .error err
      | .ok userResourceID =>
        grantsLoop resource cachedUsers cachedGroups rest
          (grants ++ [NewGrant resource assignedEntitlement userResourceID []])
    else if subject.Type_ = subjectTypeGroup then
      match getGroupResourceId subject.UUID.String cachedGroups with
      | .error err => .error err
      | .ok groupResourceID =>
        grantsLoop resource cachedUsers cachedGroups rest
          (grants ++ [NewGrant resource assignedEntitlement groupResourceID
            [.GrantExpandable ["group:" ++ groupResourceID.Resource ++ ":member"],
              .GrantImmutable]])
    else grantsLoop resource cachedUsers cachedGroups rest grants

/-- Method `permissionBuilder.Grants`. The error of a missing permission wraps the nil
`err` of the load before it, which `fmt.Errorf` prints as `%!w(<nil>)`. -/
def permissionBuilder.Grants (env : Env σ) (o : permissionBuilder) (resource : Resource)
    (w : World σ) : GrantsRet × permissionBuilder × World σ :=
  let permissionUUID := resource.Id.Resource
  match o.loadPermissionsCache env w with
  | (⟨annos, some err⟩, o1, w1) =>
    (⟨[], "", annos, some ("failed to load permissions cache: " ++ err)⟩, o1, w1)
  | (⟨_, none⟩, o1, w1) =>
    match GoMap.get? (o1.permissionsCache.getD []) permissionUUID with
    | none => (⟨[], "", [], some "failed to load permission, not found: %!w(<nil>)"⟩, o1, w1)
    | some permission =>
      match o1.connector.cacheUsers env w1 with
      | (⟨annos, some err⟩, c2, w2) =>
        (⟨[], "", annos, some ("failed to cache users: " ++ err)⟩, { o1 with connector := c2 }, w2)
      | (⟨_, none⟩, c2, w2) =>
        match permissionBuilder.loadGroupsCache env { o1 with connector := c2 } w2 with
        | (⟨annos, some err⟩, o3, w3) =>
          (⟨[], "", annos, some ("failed to cache groups: " ++ err)⟩, o3, w3)
        | (⟨_, none⟩, o3, w3) =>
          match grantsLoop resource o3.connector.cachedUsers o3.cachedGroups
              permission.Subjects [] with
          | .error err => (⟨[], "", [], some err⟩, o3, w3)
          | .ok grants => (⟨grants, "", [], none⟩, o3, w3)

/-- The grants of Carol's permission, read by a builder that has loaded nothing yet. -/
def carolGrants : GrantsRet × permissionBuilder × World Tenable :=
  emptyPermissionBuilder.Grants tenable (resourceOf "permission" (uuidOf 2).String)
    ⟨demoCarol, []⟩

/-- The grants of the scan permission, read by a builder that has loaded nothing yet. -/
def scanGrants : GrantsRet × permissionBuilder × World Tenable :=
  emptyPermissionBuilder.Grants tenable (resourceOf "permission" (uuidOf 1).String)
    ⟨demoCarol, []⟩

deriving instance DecidableEq for World

/-! ## Account provisioning (pkg/connector/users.go) -/

/-- Message `v2.AccountInfo`, as `GetProfile().AsMap()` sees it; a nil message or
profile gives the empty map. -/
structure AccountInfo where
  Profile : GoMap Value
deriving DecidableEq

/-- Message `v2.PlaintextData`; `Bytes` holds the bytes of the string it is made from. -/
structure PlaintextData where
  Name : String
  Bytes : String
deriving DecidableEq

/-- The result tuple of `CreateAccount`: the resource of the success result if any,
the plaintext secrets, the annotations and the error. -/
structure CreateAccountRet where
  resource : Option Resource
  plaintexts : List PlaintextData
  annos : Annotations
  err : Option GoError
deriving DecidableEq

/-- Method `userBuilder.CreateAccount`. It reads and writes no field of the builder.
The type assertion `.(string)` succeeds on a present string value only. -/
def userBuilder.CreateAccount {γ : Type} (env : Env σ) (uni : Unicode) (gen : Generator γ)
    (accountInfo : AccountInfo) (credentialOptions : CredentialOptions) (w : World σ)
    (g : GenWorld γ) : CreateAccountRet × World σ × GenWorld γ :=
  let profile := accountInfo.Profile
  match GoMap.get? profile "email" with
  | some (.str email) =>
    match GoMap.get? profile "name" with
    | some (.str name) =>
      match generateCredentials uni gen credentialOptions g with
      | (.error err, g1) => (⟨none, [], [], some err⟩, w, g1)
      | (.ok generatedPassword, g1) =>
        let userToCreate : NewUser :=
          { Username := email, Password := generatedPassword, Permissions := BasicUserRole,
            Email := email, Name := name }
        match TenableVMClient.CreateUser env userToCreate w with
        | (.error err, w1) => (⟨none, [], [], some ("failed to create user: " ++ err)⟩, w1, g1)
        | (.ok createdUser, w1) =>
          match parseIntoUserResource createdUser none with
          | .error err => (⟨none, [], [], some ("failed to build resource: " ++ err)⟩, w1, g1)
          | .ok userResource =>
            (⟨some userResource, [{ Name := "password", Bytes := userToCreate.Password }], [],
              none⟩, w1, g1)
    | _ => (⟨none, [], [], some "missing or invalid \x27name\x27 in profile"⟩, w, g)
  | _ => (⟨none, [], [], some "missing or invalid \x27email\x27 in profile"⟩, w, g)

/-- A profile with both required fields. -/
def daveProfile : AccountInfo :=
  { Profile := [("email", .str "dave@example.com"), ("name", .str "Dave D")] }

/-- A profile whose email is not a string. -/
def badProfile : AccountInfo := { Profile := [("email", .int 7), ("name", .str "Dave D")] }

/-- A permission held by Alice and by Carol. -/
def sharedPermission : Permission :=
  { UUID := uuidOf 4, Name := "export", Actions := ["CanUse"], Objects := [],
    Subjects := [{ Type_ := "User", UUID := uuidOf 101, Name := "Alice A" }, carolSubject],
    CreatedAt := 0, CreatedBy := "", UpdatedAt := 0, UpdatedBy := "" }

/-- The reference upstream with the shared permission only. -/
def demoShared : Tenable := { demo with permissions := [sharedPermission] }

/-- A scalar JSON value of a request body. -/
inductive JSONValue where
  | str (s : String)
  | num (n : Int)
  | bool (b : Bool)
deriving DecidableEq

/-- The members `encoding/json` writes for a `client.UserUpdateReqBody`, as
`uhttp.WithJSONBody` sends it: every field is tagged `omitempty`, so a field holding
its zero value is left out. -/
def UserUpdateReqBody.wireFields (body : UserUpdateReqBody) : List (String × JSONValue) :=
  (if body.Name = "" then [] else [("name", .str body.Name)]) ++
  (if body.Permissions = 0 then [] else [("permissions", .num body.Permissions)]) ++
  (if body.Email = "" then [] else [("email", .str body.Email)]) ++
  (if body.Enabled = false then [] else [("enabled", .bool body.Enabled)])

/-! ## The dispatch of `Grants`, as the specification words it -/

/-- Written from the specification, not from the code: the grant a subject stands for.
A "User" subject gives the grant of the user resource whose id is the decimal id of
the user cached under the subject's UUID, without annotation; a "UserGroup" subject
gives the grant of the group resource with the group id `g` cached under the subject's
UUID, marked expandable through "group:g:member" and immutable; any other subject, and
any subject the cache does not know, gives none. -/
def dispatchedGrant (resource : Resource) (cachedUsers : GoMap User)
    (cachedGroups : GoMap String) (subject : TenableObject) : Option TenableVM.Grant :=
  if subject.Type_ = "User" then
    (GoMap.get? cachedUsers subject.UUID.String).map fun user =>
      { Entitlement := { Resource := resource, Slug := "assigned" }
        Principal :=
          { Id := { ResourceType := "user", Resource := Itoa user.ID }, ParentResourceId := none,
            DisplayName := "", UserTrait := none }
        Annotations := [] }
  else if subject.Type_ = "UserGroup" then
    (GoMap.get? cachedGroups subject.UUID.String).map fun g =>
      { Entitlement := { Resource := resource, Slug := "assigned" }
        Principal :=
          { Id := { ResourceType := "group", Resource := g }, ParentResourceId := none,
            DisplayName := "", UserTrait := none }
        Annotations := [.GrantExpandable ["group:" ++ g ++ ":member"], .GrantImmutable] }
  else none

/-- Group 8, whose UUID the upstream spells canonically. -/
def auditors : Group :=
  { ID := 8, UUID := "00000000-0000-0000-0000-000000000032", Name := "auditors",
    Permissions := 0, UsersCount := 0, ContainerUUID := "" }

/-- A permission held by Alice, by group 8, by a subject of another type and by Bob. -/
def mixedPermission : Permission :=
  { UUID := uuidOf 5, Name := "mixed", Actions := ["CanView"], Objects := [],
    Subjects :=
      [{ Type_ := "User", UUID := uuidOf 101, Name := "Alice A" },
        { Type_ := "UserGroup", UUID := uuidOf 50, Name := "auditors" },
        { Type_ := "AllUsers", UUID := uuidOf 60, Name := "everyone" },
        { Type_ := "User", UUID := uuidOf 202, Name := "Bob" }],
    CreatedAt := 0, CreatedBy := "", UpdatedAt := 0, UpdatedBy := "" }

/-- The reference upstream with groups 7 and 8 and the mixed permission only. -/
def demoMixed : Tenable :=
  { demo with groups := [admins, auditors], permissions := [mixedPermission] }

/-- The grants of the mixed permission, read by a builder that has loaded nothing yet. -/
def mixedGrants : GrantsRet × permissionBuilder × World Tenable :=
  emptyPermissionBuilder.Grants tenable (resourceOf "permission" (uuidOf 5).String)
    ⟨demoMixed, []⟩

/-- Number of flags of `isPasswordValid` that are set. -/
def PasswordFlags.count (flags : PasswordFlags) : Nat :=
  (if flags.hasUpper then 1 else 0) + (if flags.hasLower then 1 else 0) +
    (if flags.hasDigit then 1 else 0) + (if flags.hasSpecial then 1 else 0)

/-- A generator that never fails and answers a string of the length asked, made of
the letter a; it has no state. -/
def filler : Generator Unit :=
  fun length st => (.ok (String.mk (List.replicate length.toNat 'a')), st)

/-! ## Grant and Revoke with their receivers, and the builders of one process

The six methods below are the methods `Grant` and `Revoke` of groups.go, roles.go and
permissions.go once more, this time with the receiver passed in and handed back the
way the loaders are: the builder a method returns is the builder it leaves behind. -/

/-- Struct `groupBuilder`: its one field is `client`, which is the upstream `Env` here,
so no field is left. -/
structure groupBuilder where
deriving DecidableEq

/-- Method `groupBuilder.Grant` with its receiver `g`. -/
def groupBuilder.GrantMethod (env : Env σ) (g : groupBuilder) (principal : Resource)
    (entitlement : Entitlement) (w : World σ) : Ret × groupBuilder × World σ :=
  let userId := principal.Id.Resource
  let groupId := entitlement.Resource.Id.Resource
  match TenableVMClient.GetGroupMembers env groupId w with
  | (.error err, w1) => (⟨[], some err⟩, g, w1)
  | (.ok members, w1) =>
    if members.any (fun member => decide (Itoa member.ID = userId)) then
      (⟨[.GrantAlreadyExists], none⟩, g, w1)
    else
      match TenableVMClient.CreateUserGroupMembership env groupId userId w1 with
      | (some err, w2) =>
        (⟨[], some ("baton-tenable: failed to add user to group: " ++ err)⟩, g, w2)
      | (none, w2) => (⟨[], none⟩, g, w2)

/-- Method `groupBuilder.Revoke` with its receiver `g`. -/
def groupBuilder.RevokeMethod (env : Env σ) (g : groupBuilder) (grant : TenableVM.Grant)
    (w : World σ) : Ret × groupBuilder × World σ :=
  let userId := grant.Principal.Id.Resource
  let groupId := grant.Entitlement.Resource.Id.Resource
  match TenableVMClient.GetGroupMembers env groupId w with
  | (.error err, w1) => (⟨[], some err⟩, g, w1)
  | (.ok members, w1) =>
    let isMember := members.any (fun member => decide (Itoa member.ID = userId))
    if !isMember then (⟨[.GrantAlreadyRevoked], none⟩, g, w1)
    else
      match TenableVMClient.DeleteUserGroupMembership env groupId userId w1 with
      | (some err, w2) =>
        (⟨[], some ("baton-tenable: failed to remove user from group: " ++ err)⟩, g, w2)
      | (none, w2) => (⟨[], none⟩, g, w2)

/-- Method `roleBuilder.Grant` with its receiver `rb`. -/
def roleBuilder.GrantMethod (env : Env σ) (rb : roleBuilder) (principal : Resource)
    (entitlement : Entitlement) (w : World σ) : Ret × roleBuilder × World σ :=
  let userId := principal.Id.Resource
  let roleId := entitlement.Resource.Id.Resource
  match TenableVMClient.GetUserDetails env userId w with
  | (.error err, w1) => (⟨[], some err⟩, rb, w1)
  | (.ok user, w1) =>
    match TenableVMClient.GetUserRoles env user.UUID w1 with
    | (.error err, w2) => (⟨[], some err⟩, rb, w2)
    | (.ok userRoles, w2) =>
      if userRoles.RolesUUID.contains roleId then (⟨[.GrantAlreadyExists], none⟩, rb, w2)
      else
        match TenableVMClient.UpdateUserRoles env user.UUID roleId w2 with
        | (some err, w3) => (⟨[], some err⟩, rb, w3)
        | (none, w3) => (⟨[], none⟩, rb, w3)

/-- Method `roleBuilder.Revoke` with its receiver `rb`. -/
def roleBuilder.RevokeMethod (env : Env σ) (rb : roleBuilder) (grant : TenableVM.Grant)
    (w : World σ) : Ret × roleBuilder × World σ :=
  let userId := grant.Principal.Id.Resource
  let roleId := grant.Entitlement.Resource.Id.Resource
  match TenableVMClient.GetUserDetails env userId w with
  | (.error err, w1) => (⟨[], some err⟩, rb, w1)
  | (.ok user, w1) =>
    match TenableVMClient.GetUserRoles env user.UUID w1 with
    | (.error err, w2) => (⟨[], some err⟩, rb, w2)
    | (.ok userRoles, w2) =>
      if !userRoles.RolesUUID.contains roleId then (⟨[.GrantAlreadyRevoked], none⟩, rb, w2)
      else
        let updateUser : UserUpdateReqBody :=
          { Name := "", Permissions := BasicUserRole, Email := "", Enabled := false }
        match TenableVMClient.UpdateUser env userId updateUser w2 with
        | (.error err, w3) => (⟨[], some err⟩, rb, w3)
        | (.ok _, w3) => (⟨[], none⟩, rb, w3)

/-- Method `permissionBuilder.Grant` with its receiver `o`. The permission it appends
to is the one just fetched, not an entry of `o.permissionsCache`. -/
def permissionBuilder.GrantMethod (env : Env σ) (o : permissionBuilder) (principal : Resource)
    (entitlement : Entitlement) (w : World σ) : Ret × permissionBuilder × World σ :=
  if principal.Id.ResourceType ≠ userResourceTypeId then
    (⟨[], some ("can not grant to resource type " ++ principal.Id.ResourceType)⟩, o, w)
  else
    let permissionUUID := entitlement.Resource.Id.Resource
    match TenableVMClient.GetPermissionDetails env permissionUUID w with
    | (.error err, w1) => (⟨[], some ("failed to get permission details " ++ err)⟩, o, w1)
    | (.ok permission, w1) =>
      match TenableVMClient.GetUserDetails env principal.Id.Resource w1 with
      | (.error err, w2) =>
        (⟨[], some ("error while performing grant, failed to get user details " ++ err)⟩, o, w2)
      | (.ok user, w2) =>
        if permission.Subjects.any (fun subject => decide (subject.UUID.String = user.UUID)) then
          (⟨[.GrantAlreadyExists], none⟩, o, w2)
        else
          match Parse user.UUID with
          | .error err => (⟨[], some ("error while parsing user uuid " ++ err)⟩, o, w2)
          | .ok uuid =>
            let tenableSubject : TenableObject :=
              { Type_ := subjectTypeUser, Name := user.Name, UUID := uuid }
            let permission := { permission with Subjects := permission.Subjects ++ [tenableSubject] }
            match TenableVMClient.UpdatePermission env permission w2 with
            | (some err, w3) => (⟨[], some ("failed to update permission " ++ err)⟩, o, w3)
            | (none, w3) => (⟨[], none⟩, o, w3)

/-- Method `permissionBuilder.Revoke` with its receiver `o`. The permission it filters
is the one just fetched, not an entry of `o.permissionsCache`. -/
def permissionBuilder.RevokeMethod (env : Env σ) (o : permissionBuilder)
    (grant : TenableVM.Grant) (w : World σ) : Ret × permissionBuilder × World σ :=
  let principal := grant.Principal
  if principal.Id.ResourceType ≠ userResourceTypeId then
    (⟨[], some ("can not revoke grant for resource type " ++ principal.Id.ResourceType)⟩, o, w)
  else
    let permissionUUID := grant.Entitlement.Resource.Id.Resource
    match TenableVMClient.GetPermissionDetails env permissionUUID w with
    | (.error err, w1) => (⟨[], some ("failed to get permission details " ++ err)⟩, o, w1)
    | (.ok permission, w1) =>
      match TenableVMClient.GetUserDetails env principal.Id.Resource w1 with
      | (.error err, w2) =>
        (⟨[], some ("error while revoking grant, failed to get user details " ++ err)⟩, o, w2)
      | (.ok user, w2) =>
        let isGranted :=
          permission.Subjects.any (fun subject => decide (subject.UUID.String = user.UUID))
        if !isGranted then (⟨[.GrantAlreadyRevoked], none⟩, o, w2)
        else
          match Parse user.UUID with
          | .error err => (⟨[], some ("error while parsing user uuid " ++ err)⟩, o, w2)
          | .ok uuid =>
            let permission :=
              { permission with
                Subjects := permission.Subjects.filter (fun obj => !decide (obj.UUID = uuid)) }
            match TenableVMClient.UpdatePermission env permission w2 with
            | (some err, w3) => (⟨[], some ("failed to update permission " ++ err)⟩, o, w3)
            | (none, w3) => (⟨[], none⟩, o, w3)

/-- The builders of the process, which the host calls for its whole lifetime: the
group builder, the role builder with its role projection, and the permission builder
with its permission and group-id snapshots and the connector, which holds the user
snapshot. -/
structure Builders where
  groups : groupBuilder
  roles : roleBuilder
  permissions : permissionBuilder
deriving DecidableEq

/-- A call of `Grant` or `Revoke` on one of the three builders. -/
inductive Provisioning where
  | groupGrant (principal : Resource) (entitlement : Entitlement)
  | groupRevoke (grant : TenableVM.Grant)
  | roleGrant (principal : Resource) (entitlement : Entitlement)
  | roleRevoke (grant : TenableVM.Grant)
  | permissionGrant (principal : Resource) (entitlement : Entitlement)
  | permissionRevoke (grant : TenableVM.Grant)
deriving DecidableEq

/-- One provisioning call of the host: the method runs on its receiver, and the
builder the method leaves takes the place of the receiver. -/
def Builders.provision (env : Env σ) (b : Builders) :
    Provisioning → World σ → Ret × Builders × World σ
  | .groupGrant principal entitlement, w =>
    ((b.groups.GrantMethod env principal entitlement w).1,
      { b with groups := (b.groups.GrantMethod env principal entitlement w).2.1 },
      (b.groups.GrantMethod env principal entitlement w).2.2)
  | .groupRevoke grant, w =>
    ((b.groups.RevokeMethod env grant w).1,
      { b with groups := (b.groups.RevokeMethod env grant w).2.1 },
      (b.groups.RevokeMethod env grant w).2.2)
  | .roleGrant principal entitlement, w =>
    ((b.roles.GrantMethod env principal entitlement w).1,
      { b with roles := (b.roles.GrantMethod env principal entitlement w).2.1 },
      (b.roles.GrantMethod env principal entitlement w).2.2)
  | .roleRevoke grant, w =>
    ((b.roles.RevokeMethod env grant w).1,
      { b with roles := (b.roles.RevokeMethod env grant w).2.1 },
      (b.roles.RevokeMethod env grant w).2.2)
  | .permissionGrant principal entitlement, w =>
    ((b.permissions.GrantMethod env principal entitlement w).1,
      { b with permissions := (b.permissions.GrantMethod env principal entitlement w).2.1 },
      (b.permissions.GrantMethod env principal entitlement w).2.2)
  | .permissionRevoke grant, w =>
    ((b.permissions.RevokeMethod env grant w).1,
      { b with permissions := (b.permissions.RevokeMethod env grant w).2.1 },
      (b.permissions.RevokeMethod env grant w).2.2)

/-- Builders whose four caches are loaded from the reference upstream at time 0. -/
def loadedBuilders : Builders :=
  { groups := {}
    roles := { roleCache := some (buildRoleMap demo.users), cacheLastLoad := 0 }
    permissions :=
      { connector :=
          { cachedUsers := some (demo.users.foldl (fun m user => GoMap.set m user.UUID user) []),
            usersTimestamp := 0 }
        permissionsCache := some [((uuidOf 1).String, scanPermission)]
        permissionsLastLoad := 0
        cachedGroups := some [("g-7", "7")]
        groupsLastLoad := 0 } }

/-- Builders that have loaded nothing yet. -/
def emptyBuilders : Builders :=
  { groups := {}, roles := { roleCache := none, cacheLastLoad := 0 },
    permissions := emptyPermissionBuilder }

/-- The calls `after` extend the calls `before` by at least one call, none of them
changing the upstream: what was decided was decided from upstream reads. -/
def readsOnly (before after : List Call) : Prop :=
  ∃ added, after = before ++ added ∧ added ≠ [] ∧ ∀ c ∈ added, c.isMutating = false

/-- User 404, whose UUID text the upstream garbles: it has the length and the hyphens
of a UUID but letters that are no hexadecimal digits. -/
def dave : User := mkUser 404 "zzzzzzzz-0000-0000-0000-000000000000" "Dave"

/-- The reference upstream with Dave as a fourth user. -/
def demoDave : Tenable := { demo with users := [alice, bob, carol, dave] }

/-! ## Theorems -/

section Caches

variable {σ : Type}

/-- The saturation of `time.Since` does not affect the comparison with the TTL. -/
theorem timeSub_lt_ttl (t u : Int) : timeSub t u < TTL * Minute ↔ t - u < 5 * Minute := by
  unfold timeSub TTL Minute maxDuration minDuration
  split_ifs <;> constructor <;> intro h <;> omega

/-- The guard of every loader, in terms of the clock. -/
theorem guard_iff (env : Env σ) (w : World σ) (snapshot : Bool) (lastLoad : Int) :
    (snapshot = true ∧ timeSince env w lastLoad < TTL * Minute) ↔
      (snapshot = true ∧ env.now w.ext - lastLoad < 5 * Minute) := by
  rw [timeSince, timeSub_lt_ttl]

/-- Negation of the guard: no snapshot, or the TTL has elapsed. -/
theorem not_guard (env : Env σ) (w : World σ) (snapshot : Option α) (lastLoad : Int)
    (h : snapshot = none ∨ 5 * Minute ≤ env.now w.ext - lastLoad) :
    ¬ (snapshot.isSome = true ∧ timeSince env w lastLoad < TTL * Minute) := by
  rw [guard_iff]
  rintro ⟨h1, h2⟩
  rcases h with h | h
  · simp [h] at h1
  · omega

theorem cacheUsers_fresh (env : Env σ) (w : World σ) (c : Connector)
    (h1 : c.cachedUsers.isSome = true) (h2 : env.now w.ext - c.usersTimestamp < 5 * Minute) :
    c.cacheUsers env w = (⟨[], none⟩, c, w) := by
  unfold Connector.cacheUsers
  rw [if_pos ((guard_iff env w _ _).2 ⟨h1, h2⟩)]

theorem cacheUsers_fail (env : Env σ) (w : World σ) (c : Connector)
    (h : c.cachedUsers = none ∨ 5 * Minute ≤ env.now w.ext - c.usersTimestamp)
    (e : GoError) (s : σ) (hr : env.listUsers w.ext = (.error e, s)) :
    c.cacheUsers env w =
      (⟨[], some ("error creating users cache " ++ e)⟩, c, w.record .GetUsers s) := by
  unfold Connector.cacheUsers
  rw [if_neg (not_guard env w _ _ h)]
  simp [TenableVMClient.GetUsers, hr]

theorem cacheUsers_ok (env : Env σ) (w : World σ) (c : Connector)
    (h : c.cachedUsers = none ∨ 5 * Minute ≤ env.now w.ext - c.usersTimestamp)
    (users : List User) (s : σ) (hr : env.listUsers w.ext = (.ok users, s)) :
    c.cacheUsers env w =
      (⟨[], none⟩,
        { cachedUsers := some (users.foldl (fun m user => GoMap.set m user.UUID user) []),
          usersTimestamp := env.now s },
        w.record .GetUsers s) := by
  unfold Connector.cacheUsers
  rw [if_neg (not_guard env w _ _ h)]
  simp [TenableVMClient.GetUsers, hr, World.record]

theorem loadPermissionsCache_fresh (env : Env σ) (w : World σ) (o : permissionBuilder)
    (h1 : o.permissionsCache.isSome = true)
    (h2 : env.now w.ext - o.permissionsLastLoad < 5 * Minute) :
    o.loadPermissionsCache env w = (⟨[], none⟩, o, w) := by
  unfold permissionBuilder.loadPermissionsCache
  rw [if_pos ((guard_iff env w _ _).2 ⟨h1, h2⟩)]

theorem loadPermissionsCache_fail (env : Env σ) (w : World σ) (o : permissionBuilder)
    (h : o.permissionsCache = none ∨ 5 * Minute ≤ env.now w.ext - o.permissionsLastLoad)
    (e : GoError) (s : σ) (hr : env.listPermissions w.ext = (.error e, s)) :
    o.loadPermissionsCache env w = (⟨[], some e⟩, o, w.record .ListPermissions s) := by
  unfold permissionBuilder.loadPermissionsCache
  rw [if_neg (not_guard env w _ _ h)]
  simp [TenableVMClient.ListPermissions, hr]

theorem loadPermissionsCache_ok (env : Env σ) (w : World σ) (o : permissionBuilder)
    (h : o.permissionsCache = none ∨ 5 * Minute ≤ env.now w.ext - o.permissionsLastLoad)
    (permissions : List Permission) (s : σ)
    (hr : env.listPermissions w.ext = (.ok permissions, s)) :
    o.loadPermissionsCache env w =
      (⟨[], none⟩,
        { o with
          permissionsCache := some
            (permissions.foldl (fun m permission => GoMap.set m permission.UUID.String permission) [])
          permissionsLastLoad := env.now s },
        w.record .ListPermissions s) := by
  unfold permissionBuilder.loadPermissionsCache
  rw [if_neg (not_guard env w _ _ h)]
  simp [TenableVMClient.ListPermissions, hr, World.record]

theorem loadGroupsCache_fresh (env : Env σ) (w : World σ) (o : permissionBuilder)
    (h1 : o.cachedGroups.isSome = true) (h2 : env.now w.ext - o.groupsLastLoad < 5 * Minute) :
    o.loadGroupsCache env w = (⟨[], none⟩, o, w) := by
  unfold permissionBuilder.loadGroupsCache
  rw [if_pos ((guard_iff env w _ _).2 ⟨h1, h2⟩)]

theorem loadGroupsCache_fail (env : Env σ) (w : World σ) (o : permissionBuilder)
    (h : o.cachedGroups = none ∨ 5 * Minute ≤ env.now w.ext - o.groupsLastLoad)
    (e : GoError) (s : σ) (hr : env.listGroups w.ext = (.error e, s)) :
    o.loadGroupsCache env w =
      (⟨[], some ("error creating users cache " ++ e)⟩, o, w.record .GetGroups s) := by
  unfold permissionBuilder.loadGroupsCache
  rw [if_neg (not_guard env w _ _ h)]
  simp [TenableVMClient.GetGroups, hr]

theorem loadGroupsCache_ok (env : Env σ) (w : World σ) (o : permissionBuilder)
    (h : o.cachedGroups = none ∨ 5 * Minute ≤ env.now w.ext - o.groupsLastLoad)
    (groups : List Group) (s : σ) (hr : env.listGroups w.ext = (.ok groups, s)) :
    o.loadGroupsCache env w =
      (⟨[], none⟩,
        { o with
          cachedGroups := some
            (groups.foldl (fun m group => GoMap.set m group.UUID (Itoa group.ID)) [])
          groupsLastLoad := env.now s },
        w.record .GetGroups s) := by
  unfold permissionBuilder.loadGroupsCache
  rw [if_neg (not_guard env w _ _ h)]
  simp [TenableVMClient.GetGroups, hr, World.record]

theorem loadRoleMapCache_fresh (env : Env σ) (w : World σ) (o : roleBuilder)
    (h1 : o.roleCache.isSome = true) (h2 : env.now w.ext - o.cacheLastLoad < 5 * Minute) :
    o.loadRoleMapCache env w = (⟨[], none⟩, o, w) := by
  unfold roleBuilder.loadRoleMapCache
  rw [if_pos ((guard_iff env w _ _).2 ⟨h1, h2⟩)]

theorem loadRoleMapCache_fail (env : Env σ) (w : World σ) (o : roleBuilder)
    (h : o.roleCache = none ∨ 5 * Minute ≤ env.now w.ext - o.cacheLastLoad)
    (e : GoError) (s : σ) (hr : env.listUsers w.ext = (.error e, s)) :
    o.loadRoleMapCache env w = (⟨[], some e⟩, o, w.record .GetUsers s) := by
  unfold roleBuilder.loadRoleMapCache
  rw [if_neg (not_guard env w _ _ h)]
  simp [TenableVMClient.GetUsers, hr]

theorem loadRoleMapCache_ok (env : Env σ) (w : World σ) (o : roleBuilder)
    (h : o.roleCache = none ∨ 5 * Minute ≤ env.now w.ext - o.cacheLastLoad)
    (users : List User) (s : σ) (hr : env.listUsers w.ext = (.ok users, s)) :
    o.loadRoleMapCache env w =
      (⟨[], none⟩, { roleCache := some (buildRoleMap users), cacheLastLoad := env.now s },
        w.record .GetUsers s) := by
  unfold roleBuilder.loadRoleMapCache
  rw [if_neg (not_guard env w _ _ h)]
  simp [TenableVMClient.GetUsers, hr, World.record]

end Caches

section CacheClaims

variable {σ : Type}

/-- Lookup after an assignment. -/
theorem GoMap.get?_set {V : Type} (m : GoMap V) (k k' : String) (v : V) :
    GoMap.get? (GoMap.set m k v) k' = if k = k' then some v else GoMap.get? m k' := by
  induction m with
  | nil => simp [GoMap.set, GoMap.get?]
  | cons kv rest ih =>
    obtain ⟨k0, v0⟩ := kv
    by_cases h0 : k0 = k
    · subst h0
      by_cases h1 : k0 = k' <;> simp [GoMap.set, GoMap.get?, h1]
    · by_cases h1 : k0 = k'
      · subst h1
        have : ¬ k = k0 := fun h => h0 h.symm
        simp [GoMap.set, GoMap.get?, h0, this]
      · simp [GoMap.set, GoMap.get?, h0, h1, ih]

/-- A map filled by a loop of assignments holds, under each key, the last element
of the listing with that key, and nothing the listing does not give. -/
theorem GoMap.get?_foldl_set {α V : Type} (key : α → String) (val : α → V) (xs : List α)
    (m0 : GoMap V) (k : String) :
    GoMap.get? (xs.foldl (fun m x => GoMap.set m (key x) (val x)) m0) k =
      match xs.reverse.find? (fun x => decide (key x = k)) with
      | some x => some (val x)
      | none => GoMap.get? m0 k := by
  induction xs generalizing m0 with
  | nil => simp
  | cons x xs ih =>
    rw [List.foldl_cons, ih, List.reverse_cons, List.find?_append]
    cases h : List.find? (fun x => decide (key x = k)) xs.reverse with
    | some y => simp
    | none =>
      by_cases hk : key x = k <;> simp [GoMap.get?_set, hk]

/-- C1 (TTL correctness). For each of the four loaders: when a snapshot exists and
now - lastLoadTime is below 5 minutes the loader returns at once, with no upstream
call and the cache fields untouched; when there is no snapshot or 5 minutes have
elapsed it issues exactly one upstream listing call; and the snapshot stored for an
empty listing counts as existing, so a read within the TTL after it makes no call. -/
theorem cache_ttl_gate (env : Env σ) (w : World σ) (c : Connector) (o : permissionBuilder)
    (rb : roleBuilder) :
    ((c.cachedUsers.isSome = true ∧ env.now w.ext - c.usersTimestamp < 5 * Minute →
        c.cacheUsers env w = (⟨[], none⟩, c, w)) ∧
      (c.cachedUsers = none ∨ 5 * Minute ≤ env.now w.ext - c.usersTimestamp →
        (c.cacheUsers env w).2.2.calls = w.calls ++ [Call.GetUsers] ∧
        ∀ s w2, env.listUsers w.ext = (.ok [], s) → env.now w2.ext - env.now s < 5 * Minute →
          (c.cacheUsers env w).2.1.cacheUsers env w2 =
            (⟨[], none⟩, (c.cacheUsers env w).2.1, w2))) ∧
    ((o.permissionsCache.isSome = true ∧ env.now w.ext - o.permissionsLastLoad < 5 * Minute →
        o.loadPermissionsCache env w = (⟨[], none⟩, o, w)) ∧
      (o.permissionsCache = none ∨ 5 * Minute ≤ env.now w.ext - o.permissionsLastLoad →
        (o.loadPermissionsCache env w).2.2.calls = w.calls ++ [Call.ListPermissions] ∧
        ∀ s w2, env.listPermissions w.ext = (.ok [], s) →
          env.now w2.ext - env.now s < 5 * Minute →
          (o.loadPermissionsCache env w).2.1.loadPermissionsCache env w2 =
            (⟨[], none⟩, (o.loadPermissionsCache env w).2.1, w2))) ∧
    ((o.cachedGroups.isSome = true ∧ env.now w.ext - o.groupsLastLoad < 5 * Minute →
        o.loadGroupsCache env w = (⟨[], none⟩, o, w)) ∧
      (o.cachedGroups = none ∨ 5 * Minute ≤ env.now w.ext - o.groupsLastLoad →
        (o.loadGroupsCache env w).2.2.calls = w.calls ++ [Call.GetGroups] ∧
        ∀ s w2, env.listGroups w.ext = (.ok [], s) → env.now w2.ext - env.now s < 5 * Minute →
          (o.loadGroupsCache env w).2.1.loadGroupsCache env w2 =
            (⟨[], none⟩, (o.loadGroupsCache env w).2.1, w2))) ∧
    ((rb.roleCache.isSome = true ∧ env.now w.ext - rb.cacheLastLoad < 5 * Minute →
        rb.loadRoleMapCache env w = (⟨[], none⟩, rb, w)) ∧
      (rb.roleCache = none ∨ 5 * Minute ≤ env.now w.ext - rb.cacheLastLoad →
        (rb.loadRoleMapCache env w).2.2.calls = w.calls ++ [Call.GetUsers] ∧
        ∀ s w2, env.listUsers w.ext = (.ok [], s) → env.now w2.ext - env.now s < 5 * Minute →
          (rb.loadRoleMapCache env w).2.1.loadRoleMapCache env w2 =
            (⟨[], none⟩, (rb.loadRoleMapCache env w).2.1, w2))) := by
  refine ⟨⟨fun h => cacheUsers_fresh env w c h.1 h.2, fun h => ⟨?_, ?_⟩⟩,
    ⟨fun h => loadPermissionsCache_fresh env w o h.1 h.2, fun h => ⟨?_, ?_⟩⟩,
    ⟨fun h => loadGroupsCache_fresh env w o h.1 h.2, fun h => ⟨?_, ?_⟩⟩,
    ⟨fun h => loadRoleMapCache_fresh env w rb h.1 h.2, fun h => ⟨?_, ?_⟩⟩⟩
  · rcases hr : env.listUsers w.ext with ⟨r, s⟩
    cases r with
    | error e => rw [cacheUsers_fail env w c h e s hr]; rfl
    | ok us => rw [cacheUsers_ok env w c h us s hr]; rfl
  · intro s w2 hr h2
    rw [cacheUsers_ok env w c h [] s hr]
    exact cacheUsers_fresh env w2 _ rfl h2
  · rcases hr : env.listPermissions w.ext with ⟨r, s⟩
    cases r with
    | error e => rw [loadPermissionsCache_fail env w o h e s hr]; rfl
    | ok ps => rw [loadPermissionsCache_ok env w o h ps s hr]; rfl
  · intro s w2 hr h2
    rw [loadPermissionsCache_ok env w o h [] s hr]
    exact loadPermissionsCache_fresh env w2 _ rfl h2
  · rcases hr : env.listGroups w.ext with ⟨r, s⟩
    cases r with
    | error e => rw [loadGroupsCache_fail env w o h e s hr]; rfl
    | ok gs => rw [loadGroupsCache_ok env w o h gs s hr]; rfl
  · intro s w2 hr h2
    rw [loadGroupsCache_ok env w o h [] s hr]
    exact loadGroupsCache_fresh env w2 _ rfl h2
  · rcases hr : env.listUsers w.ext with ⟨r, s⟩
    cases r with
    | error e => rw [loadRoleMapCache_fail env w rb h e s hr]; rfl
    | ok us => rw [loadRoleMapCache_ok env w rb h us s hr]; rfl
  · intro s w2 hr h2
    rw [loadRoleMapCache_ok env w rb h [] s hr]
    exact loadRoleMapCache_fresh env w2 _ rfl h2

end CacheClaims

section CacheClaims2

variable {σ : Type}

/-- C1 at concrete inputs: an empty user snapshot loaded at time 0 is served at time 0
without a call, and a first read issues the one listing call. -/
theorem cache_ttl_gate_witness :
    ((some ([] : GoMap User)).isSome = true ∧ tenable.now demo - 0 < 5 * Minute) ∧
    Connector.cacheUsers tenable ⟨some [], 0⟩ ⟨demo, []⟩ =
      (⟨[], none⟩, ⟨some [], 0⟩, ⟨demo, []⟩) ∧
    (Connector.cacheUsers tenable ⟨none, 0⟩ ⟨demo, []⟩).2.2.calls = [] ++ [Call.GetUsers] :=
  ⟨⟨rfl, by decide⟩,
    (cache_ttl_gate tenable ⟨demo, []⟩ ⟨some [], 0⟩ emptyPermissionBuilder ⟨none, 0⟩).1.1
      ⟨rfl, by decide⟩,
    ((cache_ttl_gate tenable ⟨demo, []⟩ ⟨none, 0⟩ emptyPermissionBuilder ⟨none, 0⟩).1.2
      (Or.inl rfl)).1⟩

/-- C2 (refresh outcome). For each of the four loaders, once the guard lets the
refresh through: if the upstream listing fails, the loader returns a non-nil error and
the builder is exactly what it was before the call (same snapshot, same lastLoadTime);
if it succeeds, the loader returns no error, the snapshot is the map built from the
new listing alone (under each key the last listed element with that key, and no other
key) and lastLoadTime is the clock reading after the call. -/
theorem cache_refresh_outcome (env : Env σ) (w : World σ) (c : Connector)
    (o : permissionBuilder) (rb : roleBuilder) :
    ((c.cachedUsers = none ∨ 5 * Minute ≤ env.now w.ext - c.usersTimestamp) →
      (∀ e s, env.listUsers w.ext = (.error e, s) →
        (c.cacheUsers env w).1.err ≠ none ∧ (c.cacheUsers env w).2.1 = c) ∧
      (∀ users s, env.listUsers w.ext = (.ok users, s) →
        (c.cacheUsers env w).1.err = none ∧
        (c.cacheUsers env w).2.1.cachedUsers =
          some (users.foldl (fun m user => GoMap.set m user.UUID user) []) ∧
        (∀ k, GoMap.get? (users.foldl (fun m user => GoMap.set m user.UUID user) []) k =
          users.reverse.find? (fun user => decide (user.UUID = k))) ∧
        (c.cacheUsers env w).2.1.usersTimestamp = env.now s)) ∧
    ((o.permissionsCache = none ∨ 5 * Minute ≤ env.now w.ext - o.permissionsLastLoad) →
      (∀ e s, env.listPermissions w.ext = (.error e, s) →
        (o.loadPermissionsCache env w).1.err ≠ none ∧ (o.loadPermissionsCache env w).2.1 = o) ∧
      (∀ permissions s, env.listPermissions w.ext = (.ok permissions, s) →
        (o.loadPermissionsCache env w).1.err = none ∧
        (o.loadPermissionsCache env w).2.1.permissionsCache =
          some (permissions.foldl (fun m p => GoMap.set m p.UUID.String p) []) ∧
        (∀ k, GoMap.get? (permissions.foldl (fun m p => GoMap.set m p.UUID.String p) []) k =
          permissions.reverse.find? (fun p => decide (p.UUID.String = k))) ∧
        (o.loadPermissionsCache env w).2.1.permissionsLastLoad = env.now s)) ∧
    ((o.cachedGroups = none ∨ 5 * Minute ≤ env.now w.ext - o.groupsLastLoad) →
      (∀ e s, env.listGroups w.ext = (.error e, s) →
        (o.loadGroupsCache env w).1.err ≠ none ∧ (o.loadGroupsCache env w).2.1 = o) ∧
      (∀ groups s, env.listGroups w.ext = (.ok groups, s) →
        (o.loadGroupsCache env w).1.err = none ∧
        (o.loadGroupsCache env w).2.1.cachedGroups =
          some (groups.foldl (fun m g => GoMap.set m g.UUID (Itoa g.ID)) []) ∧
        (∀ k, GoMap.get? (groups.foldl (fun m g => GoMap.set m g.UUID (Itoa g.ID)) []) k =
          (groups.reverse.find? (fun g => decide (g.UUID = k))).map (fun g => Itoa g.ID)) ∧
        (o.loadGroupsCache env w).2.1.groupsLastLoad = env.now s)) ∧
    ((rb.roleCache = none ∨ 5 * Minute ≤ env.now w.ext - rb.cacheLastLoad) →
      (∀ e s, env.listUsers w.ext = (.error e, s) →
        (rb.loadRoleMapCache env w).1.err ≠ none ∧ (rb.loadRoleMapCache env w).2.1 = rb) ∧
      (∀ users s, env.listUsers w.ext = (.ok users, s) →
        (rb.loadRoleMapCache env w).1.err = none ∧
        (rb.loadRoleMapCache env w).2.1.roleCache = some (buildRoleMap users) ∧
        (rb.loadRoleMapCache env w).2.1.cacheLastLoad = env.now s)) := by
  refine ⟨fun h => ⟨fun e s hr => ?_, fun us s hr => ?_⟩,
    fun h => ⟨fun e s hr => ?_, fun ps s hr => ?_⟩,
    fun h => ⟨fun e s hr => ?_, fun gs s hr => ?_⟩,
    fun h => ⟨fun e s hr => ?_, fun us s hr => ?_⟩⟩
  · rw [cacheUsers_fail env w c h e s hr]; simp
  · rw [cacheUsers_ok env w c h us s hr]
    refine ⟨rfl, rfl, fun k => ?_, rfl⟩
    rw [GoMap.get?_foldl_set (fun u : User => u.UUID) (fun u => u) us [] k]
    cases List.find? (fun x : User => decide (x.UUID = k)) us.reverse <;> simp [GoMap.get?]
  · rw [loadPermissionsCache_fail env w o h e s hr]; simp
  · rw [loadPermissionsCache_ok env w o h ps s hr]
    refine ⟨rfl, rfl, fun k => ?_, rfl⟩
    rw [GoMap.get?_foldl_set (fun p : Permission => p.UUID.String) (fun p => p) ps [] k]
    cases List.find? (fun x : Permission => decide (x.UUID.String = k)) ps.reverse <;>
      simp [GoMap.get?]
  · rw [loadGroupsCache_fail env w o h e s hr]; simp
  · rw [loadGroupsCache_ok env w o h gs s hr]
    refine ⟨rfl, rfl, fun k => ?_, rfl⟩
    rw [GoMap.get?_foldl_set (fun g : Group => g.UUID) (fun g => Itoa g.ID) gs [] k]
    cases List.find? (fun x : Group => decide (x.UUID = k)) gs.reverse <;> simp [GoMap.get?]
  · rw [loadRoleMapCache_fail env w rb h e s hr]; simp
  · rw [loadRoleMapCache_ok env w rb h us s hr]
    exact ⟨rfl, rfl, rfl⟩

/-- C2 at concrete inputs: with the upstream failing, a stale user cache holding Alice
stays as it was and the error is returned; with the upstream answering, the cache is
rebuilt from the listing. -/
theorem cache_refresh_outcome_witness :
    ((Connector.cacheUsers tenable ⟨some [(alice.UUID, alice)], -(5 * Minute)⟩
        ⟨{ demo with faults := [true] }, []⟩).1.err ≠ none ∧
      (Connector.cacheUsers tenable ⟨some [(alice.UUID, alice)], -(5 * Minute)⟩
        ⟨{ demo with faults := [true] }, []⟩).2.1 =
        ⟨some [(alice.UUID, alice)], -(5 * Minute)⟩) ∧
    (Connector.cacheUsers tenable ⟨some [(alice.UUID, alice)], -(5 * Minute)⟩
        ⟨demo, []⟩).2.1.cachedUsers =
      some ([alice, bob, carol].foldl (fun m user => GoMap.set m user.UUID user) []) :=
  ⟨((cache_refresh_outcome tenable ⟨{ demo with faults := [true] }, []⟩
      ⟨some [(alice.UUID, alice)], -(5 * Minute)⟩ emptyPermissionBuilder ⟨none, 0⟩).1
      (Or.inr (by decide))).1 "service unavailable" { demo with faults := [] } rfl,
    (((cache_refresh_outcome tenable ⟨demo, []⟩
      ⟨some [(alice.UUID, alice)], -(5 * Minute)⟩ emptyPermissionBuilder ⟨none, 0⟩).1
      (Or.inr (by decide))).2 [alice, bob, carol] demo rfl).2.1⟩

end CacheClaims2

section UserList

variable {σ : Type}

/-- The user resource carries the decimal id of the user. -/
theorem parseIntoUserResource_ok (user : User) (parent : Option ResourceId) :
    ∃ r, parseIntoUserResource user parent = .ok r ∧
      r.Id = ⟨userResourceTypeId, Itoa user.ID⟩ :=
  ⟨_, rfl, rfl⟩

/-- The loop of `List` yields one resource per cached user, in map order. -/
theorem userResources_ok (parent : Option ResourceId) (m : GoMap User) :
    ∃ rs, userResources parent m = .ok rs ∧
      rs.map (fun r => r.Id) = m.map (fun kv => ⟨userResourceTypeId, Itoa kv.2.ID⟩) := by
  induction m with
  | nil => exact ⟨[], rfl, rfl⟩
  | cons kv rest ih =>
    obtain ⟨k, user⟩ := kv
    obtain ⟨rs, h1, h2⟩ := ih
    obtain ⟨r, h3, h4⟩ := parseIntoUserResource_ok user parent
    refine ⟨r :: rs, ?_, ?_⟩
    · simp [userResources, h1, h3]
    · simp [h2, h4]

/-- A `List` whose `cacheUsers` fails returns the error and nothing else. -/
theorem userList_of_fail (env : Env σ) (o : userBuilder) (parent : Option ResourceId)
    (w : World σ)
    (h : o.connector.cachedUsers = none ∨ 5 * Minute ≤ env.now w.ext - o.connector.usersTimestamp)
    (e : GoError) (s : σ) (hr : env.listUsers w.ext = (.error e, s)) :
    o.List env parent w =
      (⟨[], "", [], some ("error creating users cache " ++ e)⟩, o, w.record .GetUsers s) := by
  unfold userBuilder.List
  rw [cacheUsers_fail env w o.connector h e s hr]

/-- C3, as the code has it. After a load (snapshot `m`), a `List` whose refresh attempt
fails returns the error and no resource and leaves snapshot and lastLoadTime as they
were. A later `List` on that builder serves the prior snapshot, one resource per
cached user and without any upstream call, when its TTL check passes; when the TTL has
elapsed it attempts the refresh again and, if that fails too, again returns the error
and no resource and keeps the prior snapshot stored. -/
theorem userList_after_failed_refresh (env : Env σ) (o : userBuilder) (m : GoMap User)
    (parent : Option ResourceId) (w1 w2 : World σ)
    (hsnap : o.connector.cachedUsers = some m)
    (hstale : 5 * Minute ≤ env.now w1.ext - o.connector.usersTimestamp)
    (e1 : GoError) (s1 : σ) (hfail : env.listUsers w1.ext = (.error e1, s1)) :
    ((o.List env parent w1).1.err ≠ none ∧ (o.List env parent w1).1.resources = [] ∧
      (o.List env parent w1).2.1 = o) ∧
    (env.now w2.ext - o.connector.usersTimestamp < 5 * Minute →
      ((o.List env parent w1).2.1.List env parent w2).1.err = none ∧
      ((o.List env parent w1).2.1.List env parent w2).1.resources.map (fun r => r.Id) =
        m.map (fun kv => ⟨userResourceTypeId, Itoa kv.2.ID⟩) ∧
      ((o.List env parent w1).2.1.List env parent w2).2.1 = o ∧
      ((o.List env parent w1).2.1.List env parent w2).2.2 = w2) ∧
    (5 * Minute ≤ env.now w2.ext - o.connector.usersTimestamp →
      ∀ e2 s2, env.listUsers w2.ext = (.error e2, s2) →
        ((o.List env parent w1).2.1.List env parent w2).1.err ≠ none ∧
        ((o.List env parent w1).2.1.List env parent w2).1.resources = [] ∧
        ((o.List env parent w1).2.1.List env parent w2).2.1 = o) := by
  have h1 := userList_of_fail env o parent w1 (Or.inr hstale) e1 s1 hfail
  rw [h1]
  refine ⟨⟨by simp, rfl, rfl⟩, fun hfresh => ?_, fun hst e2 s2 hr => ?_⟩
  · obtain ⟨rs, hrs, hids⟩ := userResources_ok parent m
    have hc := cacheUsers_fresh env w2 o.connector (by simp [hsnap]) hfresh
    have hl : o.List env parent w2 = (⟨rs, "", [], none⟩, o, w2) := by
      unfold userBuilder.List
      rw [hc]
      simp [hsnap, hrs]
    show (o.List env parent w2).1.err = none ∧ _
    rw [hl]
    exact ⟨rfl, hids, rfl, rfl⟩
  · show (o.List env parent w2).1.err ≠ none ∧ _
    rw [userList_of_fail env o parent w2 (Or.inr hst) e2 s2 hr]
    exact ⟨by simp, rfl, rfl⟩

/-- C3 at concrete inputs: the builder loaded at time 0 from the reference upstream,
a failed refresh five minutes later, and a read at the same instant. -/
theorem userList_after_failed_refresh_witness :
    (firstRead.2.1.connector.cachedUsers =
        some [(alice.UUID, alice), (bob.UUID, bob), (carol.UUID, carol)] ∧
      5 * Minute ≤ tenable.now demoDown5 - firstRead.2.1.connector.usersTimestamp ∧
      tenable.listUsers demoDown5 = (.error "service unavailable", { demo with clock := 5 * Minute })) ∧
    (failedRead.1.err ≠ none ∧ failedRead.1.resources = [] ∧ failedRead.2.1 = firstRead.2.1) :=
  ⟨⟨by decide, by decide, by decide⟩,
    (userList_after_failed_refresh tenable firstRead.2.1
      [(alice.UUID, alice), (bob.UUID, bob), (carol.UUID, carol)] none ⟨demoDown5, []⟩
      ⟨demoDown5, []⟩ (by decide) (by decide) "service unavailable"
      { demo with clock := 5 * Minute } (by decide)).1⟩

/-- C3 as stated fails: after a successful load of three users and a failed refresh,
the next read, made before any successful refresh, returns an error and no resource
at all, not the three resources of the prior snapshot, although that snapshot is
still stored. -/
theorem userList_serves_no_stale_snapshot :
    firstRead.1.err = none ∧
    firstRead.1.resources.map (fun r => r.Id.Resource) = ["101", "202", "303"] ∧
    failedRead.1.err ≠ none ∧
    laterRead.2.1.connector.cachedUsers = firstRead.2.1.connector.cachedUsers ∧
    laterRead.2.2.calls = [Call.GetUsers] ∧
    laterRead.1.err ≠ none ∧
    laterRead.1.resources = [] ∧
    laterRead.1.resources ≠ firstRead.1.resources := by
  decide

end UserList

section GroupMembership

variable {σ : Type}

/-- Method `groupBuilder.Grant` when the member list cannot be fetched. -/
theorem groupGrant_of_fetch_error (env : Env σ) (principal : Resource)
    (entitlement : Entitlement) (w : World σ) (e : GoError) (s : σ)
    (hr : env.listGroupMembers entitlement.Resource.Id.Resource w.ext = (.error e, s)) :
    groupBuilder.Grant env principal entitlement w =
      (⟨[], some e⟩, w.record (.GetGroupMembers entitlement.Resource.Id.Resource) s) := by
  simp [groupBuilder.Grant, TenableVMClient.GetGroupMembers, hr]

/-- Method `groupBuilder.Grant` when the principal is among the fetched members. -/
theorem groupGrant_of_member (env : Env σ) (principal : Resource) (entitlement : Entitlement)
    (w : World σ) (members : List User) (s : σ)
    (hr : env.listGroupMembers entitlement.Resource.Id.Resource w.ext = (.ok members, s))
    (hm : ∃ member ∈ members, Itoa member.ID = principal.Id.Resource) :
    groupBuilder.Grant env principal entitlement w =
      (⟨[.GrantAlreadyExists], none⟩,
        w.record (.GetGroupMembers entitlement.Resource.Id.Resource) s) := by
  have hany : members.any (fun member => decide (Itoa member.ID = principal.Id.Resource)) = true := by
    simpa [List.any_eq_true] using hm
  simp [groupBuilder.Grant, TenableVMClient.GetGroupMembers, hr, hany]

/-- Method `groupBuilder.Grant` when the principal is not among the fetched members. -/
theorem groupGrant_of_not_member (env : Env σ) (principal : Resource)
    (entitlement : Entitlement) (w : World σ) (members : List User) (s : σ)
    (hr : env.listGroupMembers entitlement.Resource.Id.Resource w.ext = (.ok members, s))
    (hm : ¬ ∃ member ∈ members, Itoa member.ID = principal.Id.Resource) :
    groupBuilder.Grant env principal entitlement w =
      match env.addGroupMember entitlement.Resource.Id.Resource principal.Id.Resource s with
      | (some err, s2) =>
        (⟨[], some ("baton-tenable: failed to add user to group: " ++ err)⟩,
          ⟨s2, w.calls ++ [.GetGroupMembers entitlement.Resource.Id.Resource,
            .CreateUserGroupMembership entitlement.Resource.Id.Resource principal.Id.Resource]⟩)
      | (none, s2) =>
        (⟨[], none⟩,
          ⟨s2, w.calls ++ [.GetGroupMembers entitlement.Resource.Id.Resource,
            .CreateUserGroupMembership entitlement.Resource.Id.Resource principal.Id.Resource]⟩) := by
  have hany : members.any (fun member => decide (Itoa member.ID = principal.Id.Resource)) = false := by
    rw [Bool.eq_false_iff]
    intro h
    exact hm (by simpa [List.any_eq_true] using h)
  rcases h2 : env.addGroupMember entitlement.Resource.Id.Resource principal.Id.Resource s
    with ⟨e, s2⟩
  cases e <;>
    simp [groupBuilder.Grant, TenableVMClient.GetGroupMembers, hr, hany,
      TenableVMClient.CreateUserGroupMembership, World.record, h2]

/-- C7 (group Grant). With the live member list fetched: if some member's decimal id
equals the principal id, Grant returns GrantAlreadyExists with a nil error and the
only call is the read; otherwise the calls are the read followed by exactly one
add-membership call for (groupId, principal id), and Grant returns no error and no
annotation when that call succeeds. That call is made on the upstream as the read
left it: the upstream after Grant is the one the add-membership endpoint leaves, and
the error of Grant is the error of that endpoint, wrapped. -/
theorem groupGrant_decision (env : Env σ) (principal : Resource) (entitlement : Entitlement)
    (w : World σ) (members : List User) (s : σ)
    (hr : env.listGroupMembers entitlement.Resource.Id.Resource w.ext = (.ok members, s)) :
    ((∃ member ∈ members, Itoa member.ID = principal.Id.Resource) →
      (groupBuilder.Grant env principal entitlement w).1 = ⟨[.GrantAlreadyExists], none⟩ ∧
      (groupBuilder.Grant env principal entitlement w).2.calls =
        w.calls ++ [.GetGroupMembers entitlement.Resource.Id.Resource] ∧
      (groupBuilder.Grant env principal entitlement w).2.ext = s) ∧
    ((¬ ∃ member ∈ members, Itoa member.ID = principal.Id.Resource) →
      (groupBuilder.Grant env principal entitlement w).2.calls =
        w.calls ++ [.GetGroupMembers entitlement.Resource.Id.Resource,
          .CreateUserGroupMembership entitlement.Resource.Id.Resource principal.Id.Resource] ∧
      (∀ s2, env.addGroupMember entitlement.Resource.Id.Resource principal.Id.Resource s =
          (none, s2) →
        (groupBuilder.Grant env principal entitlement w).1 = ⟨[], none⟩) ∧
      (groupBuilder.Grant env principal entitlement w).2.ext =
        (env.addGroupMember entitlement.Resource.Id.Resource principal.Id.Resource s).2 ∧
      (groupBuilder.Grant env principal entitlement w).1.err =
        (env.addGroupMember entitlement.Resource.Id.Resource principal.Id.Resource s).1.map
          (fun err => "baton-tenable: failed to add user to group: " ++ err) ∧
      (groupBuilder.Grant env principal entitlement w).1.annos = []) := by
  refine ⟨fun hm => ?_, fun hm => ?_⟩
  · rw [groupGrant_of_member env principal entitlement w members s hr hm]
    simp [World.record]
  · rw [groupGrant_of_not_member env principal entitlement w members s hr hm]
    rcases h2 : env.addGroupMember entitlement.Resource.Id.Resource principal.Id.Resource s
      with ⟨e, s2⟩
    cases e <;> simp

/-- C7 on the member list [101, 202]: principal 101 is reported as already existing
with no add call; principal 303 gets exactly one add call and no error, and the
upstream ends with 303 among the members of group 7. -/
theorem groupGrant_decision_witness :
    tenable.listGroupMembers "7" demo = (.ok [alice, bob], demo) ∧
    [alice, bob].map (fun m => m.ID) = [101, 202] ∧
    ((groupBuilder.Grant tenable (resourceOf "user" "101") (entitlementOf "group" "7" "member")
        ⟨demo, []⟩).1 = ⟨[.GrantAlreadyExists], none⟩ ∧
      (groupBuilder.Grant tenable (resourceOf "user" "101") (entitlementOf "group" "7" "member")
        ⟨demo, []⟩).2.calls = [] ++ [.GetGroupMembers "7"] ∧
      (groupBuilder.Grant tenable (resourceOf "user" "101") (entitlementOf "group" "7" "member")
        ⟨demo, []⟩).2.ext = demo) ∧
    ((groupBuilder.Grant tenable (resourceOf "user" "303") (entitlementOf "group" "7" "member")
        ⟨demo, []⟩).2.calls =
        [] ++ [.GetGroupMembers "7", .CreateUserGroupMembership "7" "303"] ∧
      (groupBuilder.Grant tenable (resourceOf "user" "303") (entitlementOf "group" "7" "member")
        ⟨demo, []⟩).1 = ⟨[], none⟩) ∧
    ((groupBuilder.Grant tenable (resourceOf "user" "303") (entitlementOf "group" "7" "member")
        ⟨demo, []⟩).2.ext = (tenable.addGroupMember "7" "303" demo).2 ∧
      (groupBuilder.Grant tenable (resourceOf "user" "303") (entitlementOf "group" "7" "member")
        ⟨demo, []⟩).1.err =
        (tenable.addGroupMember "7" "303" demo).1.map
          (fun err => "baton-tenable: failed to add user to group: " ++ err) ∧
      (groupBuilder.Grant tenable (resourceOf "user" "303") (entitlementOf "group" "7" "member")
        ⟨demo, []⟩).1.annos = []) ∧
    (groupBuilder.Grant tenable (resourceOf "user" "303") (entitlementOf "group" "7" "member")
      ⟨demo, []⟩).2.ext = { demo with members := [("7", [alice, bob, carol])] } :=
  ⟨by decide, by decide,
    (groupGrant_decision tenable (resourceOf "user" "101") (entitlementOf "group" "7" "member")
      ⟨demo, []⟩ [alice, bob] demo (by decide)).1 ⟨alice, by decide, by decide⟩,
    ⟨((groupGrant_decision tenable (resourceOf "user" "303") (entitlementOf "group" "7" "member")
        ⟨demo, []⟩ [alice, bob] demo (by decide)).2 (by decide)).1,
      ((groupGrant_decision tenable (resourceOf "user" "303")
        (entitlementOf "group" "7" "member") ⟨demo, []⟩ [alice, bob] demo (by decide)).2
        (by decide)).2.1 { demo with members := [("7", [alice, bob, carol])] } (by decide)⟩,
    ((groupGrant_decision tenable (resourceOf "user" "303") (entitlementOf "group" "7" "member")
      ⟨demo, []⟩ [alice, bob] demo (by decide)).2 (by decide)).2.2,
    by decide⟩

/-- C8 (group Revoke). If fetching the member list fails, the error is returned and
the read is the only call. With the list fetched: if no member's decimal id equals the
principal id, Revoke returns GrantAlreadyRevoked with a nil error and the only call is
the read; otherwise the calls are the read followed by exactly one remove-membership
call for (groupId, principal id). That call is made on the upstream as the read left
it: the upstream after Revoke is the one the remove-membership endpoint leaves, and
the error of Revoke is the error of that endpoint, wrapped. -/
theorem groupRevoke_decision (env : Env σ) (grant : TenableVM.Grant) (w : World σ) :
    (∀ e s, env.listGroupMembers grant.Entitlement.Resource.Id.Resource w.ext = (.error e, s) →
      groupBuilder.Revoke env grant w =
        (⟨[], some e⟩, ⟨s, w.calls ++ [.GetGroupMembers grant.Entitlement.Resource.Id.Resource]⟩)) ∧
    (∀ members s,
      env.listGroupMembers grant.Entitlement.Resource.Id.Resource w.ext = (.ok members, s) →
      ((¬ ∃ member ∈ members, Itoa member.ID = grant.Principal.Id.Resource) →
        groupBuilder.Revoke env grant w =
          (⟨[.GrantAlreadyRevoked], none⟩,
            ⟨s, w.calls ++ [.GetGroupMembers grant.Entitlement.Resource.Id.Resource]⟩)) ∧
      ((∃ member ∈ members, Itoa member.ID = grant.Principal.Id.Resource) →
        (groupBuilder.Revoke env grant w).2.calls =
          w.calls ++ [.GetGroupMembers grant.Entitlement.Resource.Id.Resource,
            .DeleteUserGroupMembership grant.Entitlement.Resource.Id.Resource
              grant.Principal.Id.Resource] ∧
        (∀ s2, env.removeGroupMember grant.Entitlement.Resource.Id.Resource
            grant.Principal.Id.Resource s = (none, s2) →
          (groupBuilder.Revoke env grant w).1 = ⟨[], none⟩) ∧
        (groupBuilder.Revoke env grant w).2.ext =
          (env.removeGroupMember grant.Entitlement.Resource.Id.Resource
            grant.Principal.Id.Resource s).2 ∧
        (groupBuilder.Revoke env grant w).1.err =
          (env.removeGroupMember grant.Entitlement.Resource.Id.Resource
            grant.Principal.Id.Resource s).1.map
            (fun err => "baton-tenable: failed to remove user from group: " ++ err) ∧
        (groupBuilder.Revoke env grant w).1.annos = [])) := by
  refine ⟨fun e s hr => ?_, fun members s hr => ⟨fun hm => ?_, fun hm => ?_⟩⟩
  · simp [groupBuilder.Revoke, TenableVMClient.GetGroupMembers, hr, World.record]
  · have hany : members.any
        (fun member => decide (Itoa member.ID = grant.Principal.Id.Resource)) = false := by
      rw [Bool.eq_false_iff]
      intro h
      exact hm (by simpa [List.any_eq_true] using h)
    simp [groupBuilder.Revoke, TenableVMClient.GetGroupMembers, hr, hany, World.record]
  · have hany : members.any
        (fun member => decide (Itoa member.ID = grant.Principal.Id.Resource)) = true := by
      simpa [List.any_eq_true] using hm
    rcases h2 : env.removeGroupMember grant.Entitlement.Resource.Id.Resource
      grant.Principal.Id.Resource s with ⟨e, s2⟩
    cases e <;>
      simp [groupBuilder.Revoke, TenableVMClient.GetGroupMembers, hr, hany,
        TenableVMClient.DeleteUserGroupMembership, World.record, h2]

/-- C8 on the member list [101, 202]: revoking user 303 is reported as already
revoked with no remove call; revoking user 101 issues exactly one remove call, after
which the upstream has 202 as the only member of group 7. -/
theorem groupRevoke_decision_witness :
    tenable.listGroupMembers "7" demo = (.ok [alice, bob], demo) ∧
    groupBuilder.Revoke tenable (grantOf "group" "7" "member" "303") ⟨demo, []⟩ =
      (⟨[.GrantAlreadyRevoked], none⟩, ⟨demo, [] ++ [.GetGroupMembers "7"]⟩) ∧
    (groupBuilder.Revoke tenable (grantOf "group" "7" "member" "101") ⟨demo, []⟩).2.calls =
      [] ++ [.GetGroupMembers "7", .DeleteUserGroupMembership "7" "101"] ∧
    ((groupBuilder.Revoke tenable (grantOf "group" "7" "member" "101") ⟨demo, []⟩).2.ext =
        (tenable.removeGroupMember "7" "101" demo).2 ∧
      (groupBuilder.Revoke tenable (grantOf "group" "7" "member" "101") ⟨demo, []⟩).1.err =
        (tenable.removeGroupMember "7" "101" demo).1.map
          (fun err => "baton-tenable: failed to remove user from group: " ++ err) ∧
      (groupBuilder.Revoke tenable (grantOf "group" "7" "member" "101") ⟨demo, []⟩).1.annos
        = []) ∧
    (groupBuilder.Revoke tenable (grantOf "group" "7" "member" "101") ⟨demo, []⟩).2.ext =
      { demo with members := [("7", [bob])] } ∧
    (groupBuilder.Revoke tenable (grantOf "group" "7" "member" "101") ⟨demo, []⟩).1 =
      ⟨[], none⟩ :=
  ⟨by decide,
    ((groupRevoke_decision tenable (grantOf "group" "7" "member" "303") ⟨demo, []⟩).2
      [alice, bob] demo (by decide)).1 (by decide),
    (((groupRevoke_decision tenable (grantOf "group" "7" "member" "101") ⟨demo, []⟩).2
      [alice, bob] demo (by decide)).2 ⟨alice, by decide, by decide⟩).1,
    (((groupRevoke_decision tenable (grantOf "group" "7" "member" "101") ⟨demo, []⟩).2
      [alice, bob] demo (by decide)).2 ⟨alice, by decide, by decide⟩).2.2,
    by decide, by decide⟩

end GroupMembership

section TagNames

variable {σ : Type}

/-- A string without the old character is left alone. -/
theorem replaceFirst_of_not_mem (old new : Char) (cs : List Char) (h : old ∉ cs) :
    replaceFirst old new cs = cs := by
  induction cs with
  | nil => rfl
  | cons c cs ih =>
    have hc : c ≠ old := fun e => h (by simp [e])
    have ht : old ∉ cs := fun e => h (by simp [e])
    simp [replaceFirst, hc, ih ht]

/-- Only the first occurrence is replaced: what follows it is kept as it is. -/
theorem replaceFirst_split (old new : Char) (pre post : List Char) (h : old ∉ pre) :
    replaceFirst old new (pre ++ old :: post) = pre ++ new :: post := by
  induction pre with
  | nil => simp [replaceFirst]
  | cons c cs ih =>
    have hc : c ≠ old := fun e => h (by simp [e])
    have ht : old ∉ cs := fun e => h (by simp [e])
    simp [replaceFirst, hc, ih ht]

/-- C10 (tag-name transform). `parseTagNames` returns a list of the same length and
order; Type and UUID of every object are unchanged; an object whose Type is not
exactly "Tag" is returned unchanged; an object whose Type is "Tag" keeps a colon-free
name, and a name `pre:post` with no colon in `pre` becomes `pre,post`, later colons in
`post` included as they are. `UpdatePermission` sends the object list through it. -/
theorem parseTagNames_spec (objs : List TenableObject) :
    (parseTagNames objs).length = objs.length ∧
    (∀ (i : Nat) (obj : TenableObject), objs[i]? = some obj →
      ∃ out, (parseTagNames objs)[i]? = some out ∧
        out.Type_ = obj.Type_ ∧ out.UUID = obj.UUID ∧
        (obj.Type_ ≠ "Tag" → out = obj) ∧
        (obj.Type_ = "Tag" →
          (':' ∉ obj.Name.data → out.Name = obj.Name) ∧
          (∀ pre post, obj.Name.data = pre ++ ':' :: post → ':' ∉ pre →
            out.Name.data = pre ++ ',' :: post))) ∧
    (∀ (env : Env σ) (p : Permission) (w : World σ),
      (TenableVMClient.UpdatePermission env p w).2.calls =
        w.calls ++ [Call.UpdatePermission p.UUID.String
          { Name := p.Name, Actions := p.Actions, Objects := parseTagNames p.Objects,
            Subjects := p.Subjects }]) := by
  refine ⟨by simp [parseTagNames], fun i obj hi => ?_, fun env p w => ?_⟩
  · by_cases ht : obj.Type_ = "Tag"
    · refine ⟨{ obj with Name := String.mk (replaceFirst ':' ',' obj.Name.data) }, ?_, rfl, rfl,
        fun h => absurd ht h, fun _ => ⟨fun hn => ?_, fun pre post hsplit hpre => ?_⟩⟩
      · simp [parseTagNames, hi, ht]
      · simp [replaceFirst_of_not_mem _ _ _ hn]
      · simp [hsplit, replaceFirst_split _ _ _ _ hpre]
    · refine ⟨obj, ?_, rfl, rfl, fun _ => rfl, fun h => absurd h ht⟩
      simp [parseTagNames, hi, ht]
  · simp [TenableVMClient.UpdatePermission, TenableVMClient.permissionBody, World.record]

/-- C10 on the object {Type: "Tag", Name: "env:prod"}: the name sent is "env,prod". -/
theorem parseTagNames_spec_witness :
    ([({ Type_ := "Tag", UUID := uuidOf 9, Name := "env:prod" } : TenableObject)])[0]? =
      some { Type_ := "Tag", UUID := uuidOf 9, Name := "env:prod" } ∧
    ∃ out,
      (parseTagNames [{ Type_ := "Tag", UUID := uuidOf 9, Name := "env:prod" }])[0]? = some out ∧
      out.Type_ = "Tag" ∧ out.UUID = uuidOf 9 ∧ out.Name.data = "env".data ++ ',' :: "prod".data :=
  ⟨rfl,
    match (@parseTagNames_spec Unit
        [{ Type_ := "Tag", UUID := uuidOf 9, Name := "env:prod" }]).2.1 0
        { Type_ := "Tag", UUID := uuidOf 9, Name := "env:prod" } rfl with
    | ⟨out, h1, h2, h3, _, h5⟩ =>
      ⟨out, h1, h2, h3, (h5 rfl).2 "env".data "prod".data rfl (by decide)⟩⟩

end TagNames

section UUIDs

set_option maxRecDepth 100000 in
/-- Reading back the two hex digits of a byte gives the byte. -/
theorem xtob_encodeByte : ∀ b : Fin 256,
    xtob (hexdigit (b.val / 16)) (hexdigit (b.val % 16)) = some b := by
  decide

set_option maxRecDepth 100000 in
/-- Hex digits are ASCII. -/
theorem hexdigit_ascii : ∀ b : Fin 256,
    (hexdigit (b.val / 16)).toNat < 128 ∧ (hexdigit (b.val % 16)).toNat < 128 := by
  decide

/-- `Parse` reads back what `String` renders. -/
theorem Parse_String (u : UUID) : Parse u.String = .ok u := by
  obtain ⟨bs, hlen⟩ := u
  match bs, hlen with
  | [b0, b1, b2, b3, b4, b5, b6, b7, b8, b9, b10, b11, b12, b13, b14, b15], _ =>
    have a0 := hexdigit_ascii b0
    have a1 := hexdigit_ascii b1
    have a2 := hexdigit_ascii b2
    have a3 := hexdigit_ascii b3
    have a4 := hexdigit_ascii b4
    have a5 := hexdigit_ascii b5
    have a6 := hexdigit_ascii b6
    have a7 := hexdigit_ascii b7
    have a8 := hexdigit_ascii b8
    have a9 := hexdigit_ascii b9
    have a10 := hexdigit_ascii b10
    have a11 := hexdigit_ascii b11
    have a12 := hexdigit_ascii b12
    have a13 := hexdigit_ascii b13
    have a14 := hexdigit_ascii b14
    have a15 := hexdigit_ascii b15
    simp [UUID.String, encodeHexBytes, encodeByte, Parse, parseHyphenated, xtobAt,
      xtob_encodeByte, mkUUID, a0, a1, a2, a3, a4, a5, a6, a7, a8, a9, a10, a11, a12, a13, a14,
      a15]

/-- Two UUIDs with the same rendering are the same. -/
theorem UUID.String_injective (u v : UUID) (h : u.String = v.String) : u = v := by
  have hu := Parse_String u
  rw [h, Parse_String v] at hu
  exact (Except.ok.inj hu).symm

end UUIDs

section PermissionGrant

variable {σ : Type}

/-- `permissionBuilder.Grant` when a subject renders to the user's UUID text. -/
theorem permissionGrant_of_subject (env : Env σ) (principal : Resource)
    (entitlement : Entitlement) (w : World σ) (permission : Permission) (s1 : σ) (user : User)
    (s2 : σ) (hty : principal.Id.ResourceType = userResourceTypeId)
    (hp : env.getPermission entitlement.Resource.Id.Resource w.ext = (.ok permission, s1))
    (hu : env.getUser principal.Id.Resource s1 = (.ok user, s2))
    (hs : permission.Subjects.any (fun subject => decide (subject.UUID.String = user.UUID)) = true) :
    permissionBuilder.Grant env principal entitlement w =
      (⟨[.GrantAlreadyExists], none⟩,
        ⟨s2, w.calls ++ [.GetPermissionDetails entitlement.Resource.Id.Resource,
          .GetUserDetails principal.Id.Resource]⟩) := by
  simp [permissionBuilder.Grant, hty, TenableVMClient.GetPermissionDetails, hp,
    TenableVMClient.GetUserDetails, World.record, hu, hs]

/-- `permissionBuilder.Grant` when no subject renders to the user's UUID text and that
text parses: one update carrying the fetched subjects followed by the new one. -/
theorem permissionGrant_of_no_subject (env : Env σ) (principal : Resource)
    (entitlement : Entitlement) (w : World σ) (permission : Permission) (s1 : σ) (user : User)
    (s2 : σ) (uuid : UUID) (hty : principal.Id.ResourceType = userResourceTypeId)
    (hp : env.getPermission entitlement.Resource.Id.Resource w.ext = (.ok permission, s1))
    (hu : env.getUser principal.Id.Resource s1 = (.ok user, s2))
    (hs : permission.Subjects.any (fun subject => decide (subject.UUID.String = user.UUID)) = false)
    (hparse : Parse user.UUID = .ok uuid) :
    (permissionBuilder.Grant env principal entitlement w).2.calls =
      w.calls ++ [.GetPermissionDetails entitlement.Resource.Id.Resource,
        .GetUserDetails principal.Id.Resource,
        .UpdatePermission permission.UUID.String
          { Name := permission.Name, Actions := permission.Actions,
            Objects := parseTagNames permission.Objects,
            Subjects := permission.Subjects ++
              [{ Type_ := subjectTypeUser, Name := user.Name, UUID := uuid }] }] ∧
    (permissionBuilder.Grant env principal entitlement w).1.annos = [] := by
  rcases hup : env.updatePermission permission.UUID.String
      { Name := permission.Name, Actions := permission.Actions,
        Objects := parseTagNames permission.Objects,
        Subjects := permission.Subjects ++
          [{ Type_ := subjectTypeUser, Name := user.Name, UUID := uuid }] } s2 with ⟨e, s3⟩
  cases e <;>
    simp [permissionBuilder.Grant, hty, TenableVMClient.GetPermissionDetails, hp,
      TenableVMClient.GetUserDetails, World.record, hu, hs, hparse,
      TenableVMClient.UpdatePermission, TenableVMClient.permissionBody, hup]

/-- `permissionBuilder.Grant` when the user's UUID text does not parse: no update. -/
theorem permissionGrant_of_bad_uuid (env : Env σ) (principal : Resource)
    (entitlement : Entitlement) (w : World σ) (permission : Permission) (s1 : σ) (user : User)
    (s2 : σ) (err : GoError) (hty : principal.Id.ResourceType = userResourceTypeId)
    (hp : env.getPermission entitlement.Resource.Id.Resource w.ext = (.ok permission, s1))
    (hu : env.getUser principal.Id.Resource s1 = (.ok user, s2))
    (hs : permission.Subjects.any (fun subject => decide (subject.UUID.String = user.UUID)) = false)
    (hparse : Parse user.UUID = .error err) :
    permissionBuilder.Grant env principal entitlement w =
      (⟨[], some ("error while parsing user uuid " ++ err)⟩,
        ⟨s2, w.calls ++ [.GetPermissionDetails entitlement.Resource.Id.Resource,
          .GetUserDetails principal.Id.Resource]⟩) := by
  simp [permissionBuilder.Grant, hty, TenableVMClient.GetPermissionDetails, hp,
    TenableVMClient.GetUserDetails, World.record, hu, hs, hparse]

/-- For a user whose UUID text is the rendering of `u`, the scan of `Grant` finds a
subject exactly when some subject has UUID `u`. -/
theorem subject_scan_iff (subjects : List TenableObject) (u : UUID) :
    subjects.any (fun subject => decide (subject.UUID.String = u.String)) = true ↔
      ∃ subject ∈ subjects, subject.UUID = u := by
  simp only [List.any_eq_true, decide_eq_true_eq]
  constructor
  · rintro ⟨x, hx, h⟩
    exact ⟨x, hx, UUID.String_injective _ _ h⟩
  · rintro ⟨x, hx, h⟩
    exact ⟨x, hx, by rw [h]⟩

/-- No duplicate subjects for canonical UUID texts. For every fetched permission whose
subjects have pairwise distinct UUIDs and every fetched user whose UUID text is the
canonical rendering of a UUID `u` (what `String` prints), every subject list that
Grant pushes upstream has pairwise distinct UUIDs; and whenever `u` is already the
UUID of a subject, Grant reports GrantAlreadyExists and its only calls are the two
reads. -/
theorem permissionGrant_no_duplicate_subjects (env : Env σ) (principal : Resource)
    (entitlement : Entitlement) (w : World σ) (permission : Permission) (s1 : σ) (user : User)
    (s2 : σ) (u : UUID) (hty : principal.Id.ResourceType = userResourceTypeId)
    (hp : env.getPermission entitlement.Resource.Id.Resource w.ext = (.ok permission, s1))
    (hu : env.getUser principal.Id.Resource s1 = (.ok user, s2))
    (hcanon : u.String = user.UUID)
    (hnodup : (permission.Subjects.map (fun subject => subject.UUID)).Nodup) :
    (∃ issued, (permissionBuilder.Grant env principal entitlement w).2.calls = w.calls ++ issued ∧
      ∀ uuid body, Call.UpdatePermission uuid body ∈ issued →
        (body.Subjects.map (fun subject => subject.UUID)).Nodup) ∧
    ((∃ subject ∈ permission.Subjects, subject.UUID = u) →
      (permissionBuilder.Grant env principal entitlement w).1 = ⟨[.GrantAlreadyExists], none⟩ ∧
      (permissionBuilder.Grant env principal entitlement w).2.calls =
        w.calls ++ [.GetPermissionDetails entitlement.Resource.Id.Resource,
          .GetUserDetails principal.Id.Resource]) := by
  have hparse : Parse user.UUID = .ok u := by rw [← hcanon]; exact Parse_String u
  have hscan := subject_scan_iff permission.Subjects u
  rw [hcanon] at hscan
  by_cases hex : ∃ subject ∈ permission.Subjects, subject.UUID = u
  · have hg := permissionGrant_of_subject env principal entitlement w permission s1 user s2 hty
      hp hu (hscan.2 hex)
    rw [hg]
    exact ⟨⟨_, rfl, by simp⟩, fun _ => ⟨rfl, rfl⟩⟩
  · have hs : permission.Subjects.any
        (fun subject => decide (subject.UUID.String = user.UUID)) = false := by
      rw [Bool.eq_false_iff]
      exact fun h => hex (hscan.1 h)
    have hg := permissionGrant_of_no_subject env principal entitlement w permission s1 user s2 u
      hty hp hu hs hparse
    refine ⟨⟨_, hg.1, ?_⟩, fun h => absurd h hex⟩
    intro uuid body hmem
    simp only [List.mem_cons, List.mem_singleton, reduceCtorEq, false_or, Call.UpdatePermission.injEq,
      List.not_mem_nil, or_false] at hmem
    obtain ⟨_, rfl⟩ := hmem
    simp only [List.map_append, List.map_cons, List.map_nil]
    rw [List.nodup_append]
    refine ⟨hnodup, List.nodup_singleton _, ?_⟩
    intro a ha hb
    simp only [List.mem_singleton] at hb
    subst hb
    simp only [List.mem_map] at ha
    obtain ⟨x, hx, hxa⟩ := ha
    exact hex ⟨x, hx, hxa⟩

/-- Granting the scan permission (held by Alice) to Bob, whose UUID text is
canonical, pushes the two distinct subjects. -/
theorem permissionGrant_no_duplicate_subjects_witness :
    (uuidOf 202).String = bob.UUID ∧
    (scanPermission.Subjects.map (fun subject => subject.UUID)).Nodup ∧
    ∃ issued,
      (permissionBuilder.Grant tenable (resourceOf "user" "202")
        (entitlementOf "permission" (uuidOf 1).String "assigned") ⟨demo, []⟩).2.calls =
        [] ++ issued ∧
      ∀ uuid body, Call.UpdatePermission uuid body ∈ issued →
        (body.Subjects.map (fun subject => subject.UUID)).Nodup :=
  ⟨by decide, by decide,
    (permissionGrant_no_duplicate_subjects tenable (resourceOf "user" "202")
      (entitlementOf "permission" (uuidOf 1).String "assigned") ⟨demo, []⟩ scanPermission demo
      bob demo (uuidOf 202) rfl (by decide) (by decide) (by decide) (by decide)).1⟩

/-- C9 at its failing input: a UUID text that parses without being canonical. Carol's
UUID is spelled in upper case; it parses to the UUID of the one subject of her
permission, whose subjects are pairwise distinct, yet Grant does not report
GrantAlreadyExists and pushes a subject list holding that UUID twice. -/
theorem permissionGrant_duplicates_uppercase_uuid :
    tenable.getPermission (uuidOf 2).String demoCarol = (.ok carolPermission, demoCarol) ∧
    tenable.getUser "303" demoCarol = (.ok carol, demoCarol) ∧
    (carolPermission.Subjects.map (fun subject => subject.UUID)).Nodup ∧
    Parse carol.UUID = .ok (uuidOf 204) ∧
    (∃ subject ∈ carolPermission.Subjects, subject.UUID = uuidOf 204) ∧
    (permissionBuilder.Grant tenable (resourceOf "user" "303")
      (entitlementOf "permission" (uuidOf 2).String "assigned") ⟨demoCarol, []⟩).1 =
      ⟨[], none⟩ ∧
    (permissionBuilder.Grant tenable (resourceOf "user" "303")
      (entitlementOf "permission" (uuidOf 2).String "assigned") ⟨demoCarol, []⟩).2.calls =
      [.GetPermissionDetails (uuidOf 2).String, .GetUserDetails "303",
        .UpdatePermission (uuidOf 2).String
          { Name := "report", Actions := ["CanView"], Objects := [],
            Subjects := [carolSubject, carolSubject] }] ∧
    ¬ ([carolSubject, carolSubject].map (fun subject => subject.UUID)).Nodup := by
  decide

end PermissionGrant

section Idempotency

/-- C4 at its failing input. Against the reference upstream, the audit permission is
granted twice in a row to Carol, whose UUID the upstream spells in upper case. Both
calls succeed as new grants and both issue an update: the second does not report
GrantAlreadyExists, and the upstream ends with her subject entry twice. -/
theorem permissionGrant_twice_uppercase_uuid :
    carolFirstGrant.1 = ⟨[], none⟩ ∧
    mutatingCalls carolFirstGrant.2.calls = 1 ∧
    (carolFirstGrant.2.ext.findPermission (uuidOf 3).String).map (fun p => p.Subjects) =
      some [carolSubject] ∧
    carolSecondGrant.1 = ⟨[], none⟩ ∧
    carolSecondGrant.1.annos ≠ [.GrantAlreadyExists] ∧
    mutatingCalls carolSecondGrant.2.calls = 1 ∧
    (carolSecondGrant.2.ext.findPermission (uuidOf 3).String).map (fun p => p.Subjects) =
      some [carolSubject, carolSubject] := by
  decide

/-- C5 at its failing input. Against the reference upstream, Carol (UUID spelled in
upper case) holds a permission: her UUID is the UUID of its one subject. The first
Revoke of that grant reports GrantAlreadyRevoked and issues no mutating call, and the
subject stays. -/
theorem permissionRevoke_uppercase_uuid :
    tenable.getPermission (uuidOf 2).String demoCarol = (.ok carolPermission, demoCarol) ∧
    Parse carol.UUID = .ok (uuidOf 204) ∧
    (∃ subject ∈ carolPermission.Subjects, subject.UUID = uuidOf 204) ∧
    carolFirstRevoke.1 = ⟨[.GrantAlreadyRevoked], none⟩ ∧
    mutatingCalls carolFirstRevoke.2.calls = 0 ∧
    carolFirstRevoke.2.calls =
      [.GetPermissionDetails (uuidOf 2).String, .GetUserDetails "303"] ∧
    (carolFirstRevoke.2.ext.findPermission (uuidOf 2).String).map (fun p => p.Subjects) =
      some [carolSubject] := by
  decide

end Idempotency

section Concurrency

variable {σ : Type}

/-- C6 as stated fails: `Grant` takes no lock. Two callers add user 303 to group 7 and
two callers grant the scan permission to Bob; in each pair both callers read before
either writes, both see the principal absent, and both issue the mutating call. -/
theorem concurrent_grants_both_mutate :
    racingGroupGrants.1 = .done ⟨[], none⟩ ∧
    racingGroupGrants.2.1 = .done ⟨[], none⟩ ∧
    racingGroupGrants.2.2.calls =
      [.GetGroupMembers "7", .GetGroupMembers "7", .CreateUserGroupMembership "7" "303",
        .CreateUserGroupMembership "7" "303"] ∧
    mutatingCalls racingGroupGrants.2.2.calls = 2 ∧
    racingPermissionGrants.1 = .done ⟨[], none⟩ ∧
    racingPermissionGrants.2.1 = .done ⟨[], none⟩ ∧
    mutatingCalls racingPermissionGrants.2.2.calls = 2 := by
  decide

end Concurrency

section Interleavings

variable {σ : Type}

/-- Counting mutating calls after one more call. -/
theorem mutatingCalls_append_singleton (cs : List Call) (c : Call) :
    mutatingCalls (cs ++ [c]) = mutatingCalls cs + (if c.isMutating then 1 else 0) := by
  unfold mutatingCalls
  rw [List.filter_append, List.length_append]
  by_cases h : c.isMutating <;> simp [List.filter, h]

/-- A property kept by every step of either caller holds after any schedule. -/
theorem interleave_induction {A B : Type} (stepA : A → World σ → A × World σ)
    (stepB : B → World σ → B × World σ) (I : A → B → World σ → Prop)
    (hA : ∀ a b w, I a b w → I (stepA a w).1 b (stepA a w).2)
    (hB : ∀ a b w, I a b w → I a (stepB b w).1 (stepB b w).2) :
    ∀ (schedule : List Bool) (a : A) (b : B) (w : World σ), I a b w →
      I (interleave stepA stepB schedule (a, b, w)).1
        (interleave stepA stepB schedule (a, b, w)).2.1
        (interleave stepA stepB schedule (a, b, w)).2.2 := by
  intro schedule
  induction schedule with
  | nil => intro a b w h; exact h
  | cons turn rest ih =>
    intro a b w h
    cases turn with
    | true => exact ih _ _ _ (hA a b w h)
    | false => exact ih _ _ _ (hB a b w h)

/-- A step of `groupBuilder.Grant` issues a mutating call only by using up its one
pending call. -/
theorem groupGrantStep_pending (env : Env σ) (principal : Resource) (entitlement : Entitlement)
    (p : GroupGrantPhase) (w : World σ) :
    mutatingCalls (groupBuilder.GrantStep env principal entitlement p w).2.calls +
        (groupBuilder.GrantStep env principal entitlement p w).1.pending ≤
      mutatingCalls w.calls + p.pending := by
  cases p with
  | start =>
    rcases h : env.listGroupMembers entitlement.Resource.Id.Resource w.ext with ⟨r, s⟩
    cases r <;>
      simp [groupBuilder.GrantStep, TenableVMClient.GetGroupMembers, h, World.record,
        mutatingCalls_append_singleton, Call.isMutating, GroupGrantPhase.pending]
  | fetched members =>
    rcases h : env.addGroupMember entitlement.Resource.Id.Resource principal.Id.Resource w.ext
      with ⟨e, s⟩
    by_cases hm : members.any (fun member => decide (Itoa member.ID = principal.Id.Resource)) = true
    · simp [groupBuilder.GrantStep, hm, GroupGrantPhase.pending]
    · cases e <;>
        simp [groupBuilder.GrantStep, hm, TenableVMClient.CreateUserGroupMembership, h,
          World.record, mutatingCalls_append_singleton, Call.isMutating,
          GroupGrantPhase.pending]
  | done ret => simp [groupBuilder.GrantStep]

/-- A step of `permissionBuilder.Grant` issues a mutating call only by using up its one
pending call. -/
theorem permissionGrantStep_pending (env : Env σ) (principal : Resource)
    (entitlement : Entitlement) (p : PermissionGrantPhase) (w : World σ) :
    mutatingCalls (permissionBuilder.GrantStep env principal entitlement p w).2.calls +
        (permissionBuilder.GrantStep env principal entitlement p w).1.pending ≤
      mutatingCalls w.calls + p.pending := by
  cases p with
  | start =>
    rcases h : env.getPermission entitlement.Resource.Id.Resource w.ext with ⟨r, s⟩
    by_cases hty : principal.Id.ResourceType = userResourceTypeId
    · cases r <;>
        simp [permissionBuilder.GrantStep, hty, TenableVMClient.GetPermissionDetails, h,
          World.record, mutatingCalls_append_singleton, Call.isMutating,
          PermissionGrantPhase.pending]
    · simp [permissionBuilder.GrantStep, hty, PermissionGrantPhase.pending]
  | gotPermission permission =>
    rcases h : env.getUser principal.Id.Resource w.ext with ⟨r, s⟩
    cases r <;>
      simp [permissionBuilder.GrantStep, TenableVMClient.GetUserDetails, h, World.record,
        mutatingCalls_append_singleton, Call.isMutating, PermissionGrantPhase.pending]
  | gotUser permission user =>
    by_cases hs : permission.Subjects.any
        (fun subject => decide (subject.UUID.String = user.UUID)) = true
    · simp [permissionBuilder.GrantStep, hs, PermissionGrantPhase.pending]
    · cases hparse : Parse user.UUID with
      | error err => simp [permissionBuilder.GrantStep, hs, hparse, PermissionGrantPhase.pending]
      | ok uuid =>
        rcases h : env.updatePermission permission.UUID.String
            (TenableVMClient.permissionBody
              { permission with
                Subjects := permission.Subjects ++
                  [{ Type_ := subjectTypeUser, Name := user.Name, UUID := uuid }] }) w.ext
          with ⟨e, s⟩
        cases e <;>
          simp [permissionBuilder.GrantStep, hs, hparse, TenableVMClient.UpdatePermission, h,
            World.record, mutatingCalls_append_singleton, Call.isMutating,
            PermissionGrantPhase.pending]
  | done ret => simp [permissionBuilder.GrantStep]

/-- Run to its end without interruption, the stepwise `groupBuilder.Grant` is `Grant`. -/
theorem groupGrantStep_run (env : Env σ) (principal : Resource) (entitlement : Entitlement)
    (w : World σ) :
    groupBuilder.GrantStep env principal entitlement
        (groupBuilder.GrantStep env principal entitlement .start w).1
        (groupBuilder.GrantStep env principal entitlement .start w).2 =
      (.done (groupBuilder.Grant env principal entitlement w).1,
        (groupBuilder.Grant env principal entitlement w).2) := by
  rcases h : env.listGroupMembers entitlement.Resource.Id.Resource w.ext with ⟨r, s⟩
  cases r with
  | error e =>
    simp [groupBuilder.GrantStep, groupBuilder.Grant, TenableVMClient.GetGroupMembers, h]
  | ok members =>
    rcases h2 : env.addGroupMember entitlement.Resource.Id.Resource principal.Id.Resource s
      with ⟨e, s2⟩
    by_cases hm : members.any (fun member => decide (Itoa member.ID = principal.Id.Resource)) = true
    · simp [groupBuilder.GrantStep, groupBuilder.Grant, TenableVMClient.GetGroupMembers, h, hm]
    · cases e <;>
        simp [groupBuilder.GrantStep, groupBuilder.Grant, TenableVMClient.GetGroupMembers, h, hm,
          TenableVMClient.CreateUserGroupMembership, World.record, h2]

/-- Run to its end without interruption, the stepwise `permissionBuilder.Grant` is `Grant`. -/
theorem permissionGrantStep_run (env : Env σ) (principal : Resource)
    (entitlement : Entitlement) (w : World σ) :
    permissionBuilder.GrantStep env principal entitlement
        (permissionBuilder.GrantStep env principal entitlement
          (permissionBuilder.GrantStep env principal entitlement .start w).1
          (permissionBuilder.GrantStep env principal entitlement .start w).2).1
        (permissionBuilder.GrantStep env principal entitlement
          (permissionBuilder.GrantStep env principal entitlement .start w).1
          (permissionBuilder.GrantStep env principal entitlement .start w).2).2 =
      (.done (permissionBuilder.Grant env principal entitlement w).1,
        (permissionBuilder.Grant env principal entitlement w).2) := by
  by_cases hty : principal.Id.ResourceType = userResourceTypeId
  · rcases h : env.getPermission entitlement.Resource.Id.Resource w.ext with ⟨r, s⟩
    cases r with
    | error e =>
      simp [permissionBuilder.GrantStep, permissionBuilder.Grant, hty,
        TenableVMClient.GetPermissionDetails, h]
    | ok permission =>
      rcases h2 : env.getUser principal.Id.Resource s with ⟨r2, s2⟩
      cases r2 with
      | error e =>
        simp [permissionBuilder.GrantStep, permissionBuilder.Grant, hty,
          TenableVMClient.GetPermissionDetails, h, TenableVMClient.GetUserDetails, World.record,
          h2]
      | ok user =>
        by_cases hs : permission.Subjects.any
            (fun subject => decide (subject.UUID.String = user.UUID)) = true
        · simp [permissionBuilder.GrantStep, permissionBuilder.Grant, hty,
            TenableVMClient.GetPermissionDetails, h, TenableVMClient.GetUserDetails,
            World.record, h2, hs]
        · cases hparse : Parse user.UUID with
          | error err =>
            simp [permissionBuilder.GrantStep, permissionBuilder.Grant, hty,
              TenableVMClient.GetPermissionDetails, h, TenableVMClient.GetUserDetails,
              World.record, h2, hs, hparse]
          | ok uuid =>
            rcases h3 : env.updatePermission permission.UUID.String
                (TenableVMClient.permissionBody
                  { permission with
                    Subjects := permission.Subjects ++
                      [{ Type_ := subjectTypeUser, Name := user.Name, UUID := uuid }] }) s2
              with ⟨e, s3⟩
            cases e <;>
              simp [permissionBuilder.GrantStep, permissionBuilder.Grant, hty,
                TenableVMClient.GetPermissionDetails, h, TenableVMClient.GetUserDetails,
                World.record, h2, hs, hparse, TenableVMClient.UpdatePermission, h3]
  · simp [permissionBuilder.GrantStep, permissionBuilder.Grant, hty]

end Interleavings

section ConcurrentGrants

variable {σ : Type}

/-- A step of `permissionBuilder.Grant` keeps what the caller holds well formed and
only ever pushes a subject list with pairwise distinct UUIDs, when the upstream
answers with such lists and with canonical user UUIDs. -/
theorem permissionGrantStep_wellFormed (env : Env σ) (principal : Resource)
    (entitlement : Entitlement)
    (hP : ∀ g s p s1, env.getPermission g s = (.ok p, s1) →
      (p.Subjects.map (fun subject => subject.UUID)).Nodup)
    (hU : ∀ id s u s1, env.getUser id s = (.ok u, s1) → ∃ v : UUID, v.String = u.UUID)
    (p : PermissionGrantPhase) (w : World σ) (hp : p.WellFormed)
    (hw : ∀ uuid body, Call.UpdatePermission uuid body ∈ w.calls →
      (body.Subjects.map (fun subject => subject.UUID)).Nodup) :
    (permissionBuilder.GrantStep env principal entitlement p w).1.WellFormed ∧
    ∀ uuid body,
      Call.UpdatePermission uuid body ∈
        (permissionBuilder.GrantStep env principal entitlement p w).2.calls →
      (body.Subjects.map (fun subject => subject.UUID)).Nodup := by
  cases p with
  | start =>
    by_cases hty : principal.Id.ResourceType = userResourceTypeId
    · rcases h : env.getPermission entitlement.Resource.Id.Resource w.ext with ⟨r, s⟩
      cases r with
      | error e =>
        simp only [permissionBuilder.GrantStep, hty, ne_eq, not_true_eq_false, if_false,
          TenableVMClient.GetPermissionDetails, h, World.record]
        refine ⟨trivial, fun uuid body hm => ?_⟩
        simp only [List.mem_append, List.mem_singleton, reduceCtorEq, or_false] at hm
        exact hw uuid body hm
      | ok permission =>
        simp only [permissionBuilder.GrantStep, hty, ne_eq, not_true_eq_false, if_false,
          TenableVMClient.GetPermissionDetails, h, World.record]
        refine ⟨hP _ _ _ _ h, fun uuid body hm => ?_⟩
        simp only [List.mem_append, List.mem_singleton, reduceCtorEq, or_false] at hm
        exact hw uuid body hm
    · simp only [permissionBuilder.GrantStep, hty, ne_eq, not_false_eq_true, if_true]
      exact ⟨trivial, hw⟩
  | gotPermission permission =>
    rcases h : env.getUser principal.Id.Resource w.ext with ⟨r, s⟩
    cases r with
    | error e =>
      simp only [permissionBuilder.GrantStep, TenableVMClient.GetUserDetails, h, World.record]
      refine ⟨trivial, fun uuid body hm => ?_⟩
      simp only [List.mem_append, List.mem_singleton, reduceCtorEq, or_false] at hm
      exact hw uuid body hm
    | ok user =>
      simp only [permissionBuilder.GrantStep, TenableVMClient.GetUserDetails, h, World.record]
      refine ⟨⟨hp, hU _ _ _ _ h⟩, fun uuid body hm => ?_⟩
      simp only [List.mem_append, List.mem_singleton, reduceCtorEq, or_false] at hm
      exact hw uuid body hm
  | gotUser permission user =>
    obtain ⟨hnodup, v, hv⟩ := hp
    by_cases hs : permission.Subjects.any
        (fun subject => decide (subject.UUID.String = user.UUID)) = true
    · simp only [permissionBuilder.GrantStep, hs, if_true]
      exact ⟨trivial, hw⟩
    · have hparse : Parse user.UUID = .ok v := by rw [← hv]; exact Parse_String v
      rcases h : env.updatePermission permission.UUID.String
          (TenableVMClient.permissionBody
            { permission with
              Subjects := permission.Subjects ++
                [{ Type_ := subjectTypeUser, Name := user.Name, UUID := v }] }) w.ext
        with ⟨e, s⟩
      have hfresh : v ∉ permission.Subjects.map (fun subject => subject.UUID) := by
        intro hmem
        simp only [List.mem_map] at hmem
        obtain ⟨x, hx, hxv⟩ := hmem
        apply hs
        simp only [List.any_eq_true, decide_eq_true_eq]
        exact ⟨x, hx, by rw [hxv, hv]⟩
      have hnew : ((permission.Subjects ++
          [({ Type_ := subjectTypeUser, Name := user.Name, UUID := v } : TenableObject)]).map
            (fun subject => subject.UUID)).Nodup := by
        simp only [List.map_append, List.map_cons, List.map_nil]
        rw [List.nodup_append]
        refine ⟨hnodup, List.nodup_singleton _, ?_⟩
        intro a ha hb
        simp only [List.mem_singleton] at hb
        subst hb
        exact hfresh ha
      cases e with
      | none =>
        simp only [permissionBuilder.GrantStep, hs, hparse, TenableVMClient.UpdatePermission, h,
          World.record]
        refine ⟨trivial, fun uuid body hm => ?_⟩
        simp only [Bool.false_eq_true, if_false, List.mem_append, List.mem_singleton,
          Call.UpdatePermission.injEq] at hm
        rcases hm with hm | ⟨_, rfl⟩
        · exact hw uuid body hm
        · exact hnew
      | some err =>
        simp only [permissionBuilder.GrantStep, hs, hparse, TenableVMClient.UpdatePermission, h,
          World.record]
        refine ⟨trivial, fun uuid body hm => ?_⟩
        simp only [Bool.false_eq_true, if_false, List.mem_append, List.mem_singleton,
          Call.UpdatePermission.injEq] at hm
        rcases hm with hm | ⟨_, rfl⟩
        · exact hw uuid body hm
        · exact hnew
  | done ret =>
    simp only [permissionBuilder.GrantStep]
    exact ⟨trivial, hw⟩

/-- C6, as the code has it. Two callers granting the same pair concurrently, their
upstream calls interleaved in any order: each caller issues at most one mutating call,
so at most two are issued in all, for the group and for the permission builder alike;
every subject list pushed by either caller has pairwise distinct UUIDs when the
upstream answers with such lists and with canonical user UUIDs; and when the second
caller starts after the first has finished, the run is two `Grant`s in a row. -/
theorem concurrent_grants (env : Env σ) (principal : Resource) (entitlement : Entitlement)
    (w : World σ) (schedule : List Bool) :
    mutatingCalls
        (interleave (groupBuilder.GrantStep env principal entitlement)
          (groupBuilder.GrantStep env principal entitlement) schedule
          (.start, .start, w)).2.2.calls ≤ mutatingCalls w.calls + 2 ∧
    mutatingCalls
        (interleave (permissionBuilder.GrantStep env principal entitlement)
          (permissionBuilder.GrantStep env principal entitlement) schedule
          (.start, .start, w)).2.2.calls ≤ mutatingCalls w.calls + 2 ∧
    ((∀ g s p s1, env.getPermission g s = (.ok p, s1) →
        (p.Subjects.map (fun subject => subject.UUID)).Nodup) →
      (∀ id s u s1, env.getUser id s = (.ok u, s1) → ∃ v : UUID, v.String = u.UUID) →
      (∀ uuid body, Call.UpdatePermission uuid body ∈ w.calls →
        (body.Subjects.map (fun subject => subject.UUID)).Nodup) →
      ∀ uuid body,
        Call.UpdatePermission uuid body ∈
          (interleave (permissionBuilder.GrantStep env principal entitlement)
            (permissionBuilder.GrantStep env principal entitlement) schedule
            (.start, .start, w)).2.2.calls →
        (body.Subjects.map (fun subject => subject.UUID)).Nodup) ∧
    interleave (groupBuilder.GrantStep env principal entitlement)
        (groupBuilder.GrantStep env principal entitlement) [true, true, false, false]
        (.start, .start, w) =
      (.done (groupBuilder.Grant env principal entitlement w).1,
        .done (groupBuilder.Grant env principal entitlement
          (groupBuilder.Grant env principal entitlement w).2).1,
        (groupBuilder.Grant env principal entitlement
          (groupBuilder.Grant env principal entitlement w).2).2) ∧
    interleave (permissionBuilder.GrantStep env principal entitlement)
        (permissionBuilder.GrantStep env principal entitlement)
        [true, true, true, false, false, false] (.start, .start, w) =
      (.done (permissionBuilder.Grant env principal entitlement w).1,
        .done (permissionBuilder.Grant env principal entitlement
          (permissionBuilder.Grant env principal entitlement w).2).1,
        (permissionBuilder.Grant env principal entitlement
          (permissionBuilder.Grant env principal entitlement w).2).2) := by
  refine ⟨?_, ?_, fun hP hU hw => ?_, ?_, ?_⟩
  · have h := interleave_induction (groupBuilder.GrantStep env principal entitlement)
      (groupBuilder.GrantStep env principal entitlement)
      (fun a b x => mutatingCalls x.calls + a.pending + b.pending ≤ mutatingCalls w.calls + 2)
      (fun a b x hI => by
        have := groupGrantStep_pending env principal entitlement a x
        omega)
      (fun a b x hI => by
        have := groupGrantStep_pending env principal entitlement b x
        omega)
      schedule .start .start w (by simp [GroupGrantPhase.pending])
    omega
  · have h := interleave_induction (permissionBuilder.GrantStep env principal entitlement)
      (permissionBuilder.GrantStep env principal entitlement)
      (fun a b x => mutatingCalls x.calls + a.pending + b.pending ≤ mutatingCalls w.calls + 2)
      (fun a b x hI => by
        have := permissionGrantStep_pending env principal entitlement a x
        omega)
      (fun a b x hI => by
        have := permissionGrantStep_pending env principal entitlement b x
        omega)
      schedule .start .start w (by simp [PermissionGrantPhase.pending])
    omega
  · have h := interleave_induction (permissionBuilder.GrantStep env principal entitlement)
      (permissionBuilder.GrantStep env principal entitlement)
      (fun a b x => a.WellFormed ∧ b.WellFormed ∧
        ∀ uuid body, Call.UpdatePermission uuid body ∈ x.calls →
          (body.Subjects.map (fun subject => subject.UUID)).Nodup)
      (fun a b x hI =>
        have hs := permissionGrantStep_wellFormed env principal entitlement hP hU a x hI.1 hI.2.2
        ⟨hs.1, hI.2.1, hs.2⟩)
      (fun a b x hI =>
        have hs := permissionGrantStep_wellFormed env principal entitlement hP hU b x hI.2.1
          hI.2.2
        ⟨hI.1, hs.1, hs.2⟩)
      schedule .start .start w ⟨trivial, trivial, hw⟩
    exact h.2.2
  · simp only [interleave]
    rw [groupGrantStep_run, groupGrantStep_run]
  · simp only [interleave]
    rw [permissionGrantStep_run, permissionGrantStep_run]

/-- C6 at concrete inputs: against an upstream that always answers with the scan
permission (one subject) and with Bob (canonical UUID), the two racing callers push
only duplicate-free subject lists, and issue two mutating calls. -/
theorem concurrent_grants_witness :
    mutatingCalls
        (interleave
          (permissionBuilder.GrantStep fixedUpstream (resourceOf "user" "202")
            (entitlementOf "permission" (uuidOf 1).String "assigned"))
          (permissionBuilder.GrantStep fixedUpstream (resourceOf "user" "202")
            (entitlementOf "permission" (uuidOf 1).String "assigned"))
          [true, false, true, false, true, false] (.start, .start, ⟨(), []⟩)).2.2.calls ≤
      mutatingCalls [] + 2 ∧
    ∀ uuid body,
      Call.UpdatePermission uuid body ∈
        (interleave
          (permissionBuilder.GrantStep fixedUpstream (resourceOf "user" "202")
            (entitlementOf "permission" (uuidOf 1).String "assigned"))
          (permissionBuilder.GrantStep fixedUpstream (resourceOf "user" "202")
            (entitlementOf "permission" (uuidOf 1).String "assigned"))
          [true, false, true, false, true, false] (.start, .start, ⟨(), []⟩)).2.2.calls →
      (body.Subjects.map (fun subject => subject.UUID)).Nodup :=
  ⟨(concurrent_grants fixedUpstream (resourceOf "user" "202")
      (entitlementOf "permission" (uuidOf 1).String "assigned") ⟨(), []⟩
      [true, false, true, false, true, false]).2.1,
    (concurrent_grants fixedUpstream (resourceOf "user" "202")
      (entitlementOf "permission" (uuidOf 1).String "assigned") ⟨(), []⟩
      [true, false, true, false, true, false]).2.2.1
      (fun g s p s1 h => by
        have hp : p = scanPermission := by
          simp only [fixedUpstream, Prod.mk.injEq, Except.ok.injEq] at h
          exact h.1.symm
        subst hp
        decide)
      (fun id s u s1 h => by
        have hu : u = bob := by
          simp only [fixedUpstream, Prod.mk.injEq, Except.ok.injEq] at h
          exact h.1.symm
        subst hu
        exact ⟨uuidOf 202, by decide⟩)
      (fun uuid body h => by simp at h)⟩

end ConcurrentGrants

section ReferenceUpstream

/-- The user found under a decimal id has that id. -/
theorem Tenable.findUser_id (s : Tenable) (userId : String) (u : User)
    (h : s.findUser userId = some u) : Itoa u.ID = userId := by
  have := List.find?_some h
  simpa using this

/-- What a successful member listing of the reference upstream tells. -/
theorem Tenable.listGroupMembers_inv {s s1 : Tenable} {g : String} {ms : List User}
    (h : Tenable.listGroupMembers g s = (.ok ms, s1)) :
    GoMap.get? s.members g = some ms ∧ s1 = s.served := by
  unfold Tenable.listGroupMembers at h
  split at h
  · simp at h
  · split at h
    · rename_i ms0 hm
      simp only [Prod.mk.injEq, Except.ok.injEq] at h
      exact ⟨by rw [hm, h.1], h.2.symm⟩
    · simp at h

/-- What a successful add-membership of the reference upstream leaves behind: the user
is a member, once if he was not one before. -/
theorem Tenable.addGroupMember_inv {s s2 : Tenable} {g u : String}
    (h : Tenable.addGroupMember g u s = (none, s2)) :
    ∃ ms ms2, GoMap.get? s.members g = some ms ∧ GoMap.get? s2.members g = some ms2 ∧
      (∃ member ∈ ms2, Itoa member.ID = u) ∧
      ms2.countP (fun m => decide (Itoa m.ID = u)) =
        max 1 (ms.countP (fun m => decide (Itoa m.ID = u))) := by
  unfold Tenable.addGroupMember at h
  split at h
  · simp at h
  · split at h
    · rename_i ms usr hm hu
      have hid := Tenable.findUser_id _ _ _ hu
      by_cases hany : ms.any (fun m => decide (Itoa m.ID = u)) = true
      · rw [if_pos hany] at h
        simp only [Prod.mk.injEq, true_and] at h
        subst h
        have hex : ∃ member ∈ ms, Itoa member.ID = u := by
          simpa [List.any_eq_true] using hany
        refine ⟨ms, ms, hm, hm, hex, ?_⟩
        have hpos : 0 < ms.countP (fun m => decide (Itoa m.ID = u)) := by
          rw [List.countP_pos_iff]
          obtain ⟨x, hx, hxu⟩ := hex
          exact ⟨x, hx, by simpa using hxu⟩
        omega
      · rw [if_neg hany] at h
        simp only [Prod.mk.injEq, true_and] at h
        subst h
        refine ⟨ms, ms ++ [usr], hm, by simp [GoMap.get?_set], ⟨usr, by simp, hid⟩, ?_⟩
        have hzero : ms.countP (fun m => decide (Itoa m.ID = u)) = 0 := by
          rw [List.countP_eq_zero]
          intro a ha hh
          apply hany
          simp only [List.any_eq_true]
          exact ⟨a, ha, hh⟩
        simp [List.countP_append, hzero, hid]
    · simp at h

/-- Group Grant twice in a row against the reference upstream, both calls completing
without error: the second reports GrantAlreadyExists and issues no mutating call, the
first issues at most one, and the user ends with one member entry if he had none and
with the entries he had otherwise. -/
theorem groupGrant_twice (s : Tenable) (principal : Resource) (entitlement : Entitlement)
    (h1 : (groupBuilder.Grant tenable principal entitlement ⟨s, []⟩).1.err = none)
    (h2 : (groupBuilder.Grant tenable principal entitlement
      ⟨(groupBuilder.Grant tenable principal entitlement ⟨s, []⟩).2.ext, []⟩).1.err = none) :
    (groupBuilder.Grant tenable principal entitlement
      ⟨(groupBuilder.Grant tenable principal entitlement ⟨s, []⟩).2.ext, []⟩).1 =
      ⟨[.GrantAlreadyExists], none⟩ ∧
    mutatingCalls (groupBuilder.Grant tenable principal entitlement
      ⟨(groupBuilder.Grant tenable principal entitlement ⟨s, []⟩).2.ext, []⟩).2.calls = 0 ∧
    mutatingCalls (groupBuilder.Grant tenable principal entitlement ⟨s, []⟩).2.calls ≤ 1 ∧
    (groupBuilder.Grant tenable principal entitlement
      ⟨(groupBuilder.Grant tenable principal entitlement ⟨s, []⟩).2.ext, []⟩).2.ext.memberEntries
        entitlement.Resource.Id.Resource principal.Id.Resource =
      max 1 (s.memberEntries entitlement.Resource.Id.Resource principal.Id.Resource) := by
  -- the state after the first call has the user among the members
  have key : ∃ ms ms1, GoMap.get? s.members entitlement.Resource.Id.Resource = some ms ∧
      GoMap.get? (groupBuilder.Grant tenable principal entitlement ⟨s, []⟩).2.ext.members
        entitlement.Resource.Id.Resource = some ms1 ∧
      (∃ member ∈ ms1, Itoa member.ID = principal.Id.Resource) ∧
      ms1.countP (fun m => decide (Itoa m.ID = principal.Id.Resource)) =
        max 1 (ms.countP (fun m => decide (Itoa m.ID = principal.Id.Resource))) ∧
      mutatingCalls (groupBuilder.Grant tenable principal entitlement ⟨s, []⟩).2.calls ≤ 1 := by
    rcases hl : tenable.listGroupMembers entitlement.Resource.Id.Resource s with ⟨r, s1⟩
    cases r with
    | error e =>
      rw [groupGrant_of_fetch_error tenable principal entitlement ⟨s, []⟩ e s1 hl] at h1
      simp at h1
    | ok ms =>
      obtain ⟨hm, rfl⟩ := Tenable.listGroupMembers_inv hl
      by_cases hex : ∃ member ∈ ms, Itoa member.ID = principal.Id.Resource
      · rw [groupGrant_of_member tenable principal entitlement ⟨s, []⟩ ms s.served hl hex]
        refine ⟨ms, ms, hm, hm, hex, ?_, by simp [mutatingCalls, World.record, Call.isMutating]⟩
        have hpos : 0 < ms.countP (fun m => decide (Itoa m.ID = principal.Id.Resource)) := by
          rw [List.countP_pos_iff]
          obtain ⟨x, hx, hxu⟩ := hex
          exact ⟨x, hx, by simpa using hxu⟩
        omega
      · have e1 := groupGrant_of_not_member tenable principal entitlement ⟨s, []⟩ ms s.served
          hl hex
        rcases ha : tenable.addGroupMember entitlement.Resource.Id.Resource
          principal.Id.Resource s.served with ⟨e, s2⟩
        rw [ha] at e1
        cases e with
        | some err => rw [e1] at h1; simp at h1
        | none =>
          rw [e1]
          obtain ⟨ms0, ms2, hm0, hm2, hex2, hcount⟩ := Tenable.addGroupMember_inv ha
          have hms : ms0 = ms := by
            have : GoMap.get? s.members entitlement.Resource.Id.Resource = some ms0 := hm0
            rw [hm] at this
            exact (Option.some.inj this).symm
          subst hms
          exact ⟨ms0, ms2, hm, hm2, hex2, hcount, by simp [mutatingCalls, Call.isMutating]⟩
  obtain ⟨ms, ms1, hm, hm1, hex1, hcount, hmut⟩ := key
  generalize (groupBuilder.Grant tenable principal entitlement ⟨s, []⟩).2.ext = s' at h2 hm1 ⊢
  rcases hl : tenable.listGroupMembers entitlement.Resource.Id.Resource s' with ⟨r, s1⟩
  cases r with
  | error e =>
    rw [groupGrant_of_fetch_error tenable principal entitlement ⟨s', []⟩ e s1 hl] at h2
    simp at h2
  | ok ms' =>
    obtain ⟨hm', rfl⟩ := Tenable.listGroupMembers_inv hl
    have hms : ms' = ms1 := by
      rw [hm1] at hm'
      exact (Option.some.inj hm').symm
    subst hms
    rw [groupGrant_of_member tenable principal entitlement ⟨s', []⟩ ms' s'.served hl hex1]
    refine ⟨rfl, by simp [mutatingCalls, World.record, Call.isMutating], hmut, ?_⟩
    have hm3 : GoMap.get? s'.served.members entitlement.Resource.Id.Resource = some ms' := hm1
    simp only [Tenable.memberEntries, World.record, hm3, hm, Option.getD_some]
    exact hcount

end ReferenceUpstream

section RoleGrant

variable {σ : Type}

/-- `roleBuilder.Grant` when the user cannot be fetched. -/
theorem roleGrant_of_user_error (env : Env σ) (principal : Resource) (entitlement : Entitlement)
    (w : World σ) (e : GoError) (s1 : σ)
    (hu : env.getUser principal.Id.Resource w.ext = (.error e, s1)) :
    (roleBuilder.Grant env principal entitlement w).1.err ≠ none := by
  simp [roleBuilder.Grant, TenableVMClient.GetUserDetails, hu]

/-- `roleBuilder.Grant` when the user's roles cannot be fetched. -/
theorem roleGrant_of_roles_error (env : Env σ) (principal : Resource)
    (entitlement : Entitlement) (w : World σ) (user : User) (s1 : σ) (e : GoError) (s2 : σ)
    (hu : env.getUser principal.Id.Resource w.ext = (.ok user, s1))
    (hr : env.getUserRoles user.UUID s1 = (.error e, s2)) :
    (roleBuilder.Grant env principal entitlement w).1.err ≠ none := by
  simp [roleBuilder.Grant, TenableVMClient.GetUserDetails, hu, TenableVMClient.GetUserRoles, hr,
    World.record]

/-- `roleBuilder.Grant` when the user already holds the role. -/
theorem roleGrant_of_role (env : Env σ) (principal : Resource) (entitlement : Entitlement)
    (w : World σ) (user : User) (s1 : σ) (userRoles : UserRole) (s2 : σ)
    (hu : env.getUser principal.Id.Resource w.ext = (.ok user, s1))
    (hr : env.getUserRoles user.UUID s1 = (.ok userRoles, s2))
    (hc : userRoles.RolesUUID.contains entitlement.Resource.Id.Resource = true) :
    roleBuilder.Grant env principal entitlement w =
      (⟨[.GrantAlreadyExists], none⟩,
        ⟨s2, w.calls ++ [.GetUserDetails principal.Id.Resource, .GetUserRoles user.UUID]⟩) := by
  simp only [roleBuilder.Grant, TenableVMClient.GetUserDetails, hu, TenableVMClient.GetUserRoles,
    hr, World.record, hc, if_true, List.append_assoc, List.singleton_append]

/-- `roleBuilder.Grant` when the user does not hold the role: one set-roles call. -/
theorem roleGrant_of_no_role (env : Env σ) (principal : Resource) (entitlement : Entitlement)
    (w : World σ) (user : User) (s1 : σ) (userRoles : UserRole) (s2 : σ)
    (hu : env.getUser principal.Id.Resource w.ext = (.ok user, s1))
    (hr : env.getUserRoles user.UUID s1 = (.ok userRoles, s2))
    (hc : userRoles.RolesUUID.contains entitlement.Resource.Id.Resource = false) :
    roleBuilder.Grant env principal entitlement w =
      match env.setUserRoles user.UUID { RolesUUIDs := [entitlement.Resource.Id.Resource] } s2 with
      | (some err, s3) =>
        (⟨[], some ("error updating user role: " ++ err)⟩,
          ⟨s3, w.calls ++ [.GetUserDetails principal.Id.Resource, .GetUserRoles user.UUID,
            .UpdateUserRoles user.UUID { RolesUUIDs := [entitlement.Resource.Id.Resource] }]⟩)
      | (none, s3) =>
        (⟨[], none⟩,
          ⟨s3, w.calls ++ [.GetUserDetails principal.Id.Resource, .GetUserRoles user.UUID,
            .UpdateUserRoles user.UUID { RolesUUIDs := [entitlement.Resource.Id.Resource] }]⟩) := by
  have hc2 : entitlement.Resource.Id.Resource ∉ userRoles.RolesUUID := by simpa using hc
  rcases h3 : env.setUserRoles user.UUID { RolesUUIDs := [entitlement.Resource.Id.Resource] } s2
    with ⟨e, s3⟩
  cases e <;>
    simp [roleBuilder.Grant, TenableVMClient.GetUserDetails, hu, TenableVMClient.GetUserRoles, hr,
      World.record, hc2, TenableVMClient.UpdateUserRoles, h3]

/-- What a successful user read of the reference upstream tells. -/
theorem Tenable.getUser_inv {s s1 : Tenable} {userId : String} {u : User}
    (h : Tenable.getUser userId s = (.ok u, s1)) : s.findUser userId = some u ∧ s1 = s.served := by
  unfold Tenable.getUser at h
  split at h
  · simp at h
  · split at h
    · rename_i u0 hu
      simp only [Prod.mk.injEq, Except.ok.injEq] at h
      exact ⟨by rw [hu, h.1], h.2.symm⟩
    · simp at h

/-- What a successful roles read of the reference upstream tells. -/
theorem Tenable.getUserRoles_inv {s s1 : Tenable} {userUUID : String} {r : UserRole}
    (h : Tenable.getUserRoles userUUID s = (.ok r, s1)) :
    GoMap.get? s.roles userUUID = some r.RolesUUID ∧ s1 = s.served := by
  unfold Tenable.getUserRoles at h
  split at h
  · simp at h
  · split at h
    · rename_i rs hr
      simp only [Prod.mk.injEq, Except.ok.injEq] at h
      obtain ⟨h1, h2⟩ := h
      subst h1
      exact ⟨hr, h2.symm⟩
    · simp at h

/-- What a successful set-roles of the reference upstream leaves behind. -/
theorem Tenable.setUserRoles_inv {s s2 : Tenable} {userUUID : String} {body : UserRoleReqBody}
    (h : Tenable.setUserRoles userUUID body s = (none, s2)) :
    s2.users = s.users ∧ GoMap.get? s2.roles userUUID = some body.RolesUUIDs := by
  unfold Tenable.setUserRoles at h
  split at h
  · simp at h
  · split at h
    · simp only [Prod.mk.injEq, true_and] at h
      subst h
      exact ⟨rfl, by simp [GoMap.get?_set]⟩
    · simp at h

/-- Role Grant twice in a row against the reference upstream, both calls completing
without error: the second reports GrantAlreadyExists and issues no mutating call, the
first issues at most one, and the role is among the roles the upstream ends with. -/
theorem roleGrant_twice (s : Tenable) (principal : Resource) (entitlement : Entitlement)
    (h1 : (roleBuilder.Grant tenable principal entitlement ⟨s, []⟩).1.err = none)
    (h2 : (roleBuilder.Grant tenable principal entitlement
      ⟨(roleBuilder.Grant tenable principal entitlement ⟨s, []⟩).2.ext, []⟩).1.err = none) :
    (roleBuilder.Grant tenable principal entitlement
      ⟨(roleBuilder.Grant tenable principal entitlement ⟨s, []⟩).2.ext, []⟩).1 =
      ⟨[.GrantAlreadyExists], none⟩ ∧
    mutatingCalls (roleBuilder.Grant tenable principal entitlement
      ⟨(roleBuilder.Grant tenable principal entitlement ⟨s, []⟩).2.ext, []⟩).2.calls = 0 ∧
    mutatingCalls (roleBuilder.Grant tenable principal entitlement ⟨s, []⟩).2.calls ≤ 1 := by
  have key : ∃ user rs,
      (roleBuilder.Grant tenable principal entitlement ⟨s, []⟩).2.ext.findUser
        principal.Id.Resource = some user ∧
      GoMap.get? (roleBuilder.Grant tenable principal entitlement ⟨s, []⟩).2.ext.roles
        user.UUID = some rs ∧
      rs.contains entitlement.Resource.Id.Resource = true ∧
      mutatingCalls (roleBuilder.Grant tenable principal entitlement ⟨s, []⟩).2.calls ≤ 1 := by
    rcases hu : tenable.getUser principal.Id.Resource s with ⟨r, s1⟩
    cases r with
    | error e => exact absurd h1 (roleGrant_of_user_error tenable principal entitlement _ e s1 hu)
    | ok user =>
      obtain ⟨hfu, rfl⟩ := Tenable.getUser_inv hu
      rcases hr : tenable.getUserRoles user.UUID s.served with ⟨r2, s2⟩
      cases r2 with
      | error e =>
        exact absurd h1
          (roleGrant_of_roles_error tenable principal entitlement _ user s.served e s2 hu hr)
      | ok userRoles =>
        obtain ⟨hroles, rfl⟩ := Tenable.getUserRoles_inv hr
        by_cases hc : userRoles.RolesUUID.contains entitlement.Resource.Id.Resource = true
        · rw [roleGrant_of_role tenable principal entitlement ⟨s, []⟩ user s.served userRoles
            s.served.served hu hr hc]
          exact ⟨user, userRoles.RolesUUID, hfu, hroles, hc,
            by simp [mutatingCalls, Call.isMutating]⟩
        · have hc' : userRoles.RolesUUID.contains entitlement.Resource.Id.Resource = false := by
            simpa using hc
          have e1 := roleGrant_of_no_role tenable principal entitlement ⟨s, []⟩ user s.served
            userRoles s.served.served hu hr hc'
          rcases h3 : tenable.setUserRoles user.UUID
            { RolesUUIDs := [entitlement.Resource.Id.Resource] } s.served.served with ⟨e, s3⟩
          rw [h3] at e1
          cases e with
          | some err => rw [e1] at h1; simp at h1
          | none =>
            rw [e1]
            obtain ⟨husers, hr3⟩ := Tenable.setUserRoles_inv h3
            refine ⟨user, [entitlement.Resource.Id.Resource], ?_, hr3, by simp,
              by simp [mutatingCalls, Call.isMutating]⟩
            show s3.findUser principal.Id.Resource = some user
            unfold Tenable.findUser at hfu ⊢
            rw [husers]
            exact hfu
  obtain ⟨user, rs, hfu, hroles, hc, hmut⟩ := key
  generalize (roleBuilder.Grant tenable principal entitlement ⟨s, []⟩).2.ext = s' at h2 hfu hroles ⊢
  rcases hu : tenable.getUser principal.Id.Resource s' with ⟨r, s1⟩
  cases r with
  | error e => exact absurd h2 (roleGrant_of_user_error tenable principal entitlement _ e s1 hu)
  | ok user' =>
    obtain ⟨hfu', rfl⟩ := Tenable.getUser_inv hu
    have hsame : user' = user := by
      rw [hfu] at hfu'
      exact (Option.some.inj hfu').symm
    subst hsame
    rcases hr : tenable.getUserRoles user'.UUID s'.served with ⟨r2, s2⟩
    cases r2 with
    | error e =>
      exact absurd h2
        (roleGrant_of_roles_error tenable principal entitlement _ user' s'.served e s2 hu hr)
    | ok userRoles =>
      obtain ⟨hroles', rfl⟩ := Tenable.getUserRoles_inv hr
      have hrs : userRoles.RolesUUID = rs := by
        have : GoMap.get? s'.roles user'.UUID = some userRoles.RolesUUID := hroles'
        rw [hroles] at this
        exact (Option.some.inj this).symm
      rw [roleGrant_of_role tenable principal entitlement ⟨s', []⟩ user' s'.served userRoles
        s'.served.served hu hr (by rw [hrs]; exact hc)]
      exact ⟨rfl, by simp [mutatingCalls, Call.isMutating], hmut⟩

end RoleGrant

section PermissionIdempotency

variable {σ : Type}

/-- `permissionBuilder.Grant` for a principal that is not a user. -/
theorem permissionGrant_of_wrong_type (env : Env σ) (principal : Resource)
    (entitlement : Entitlement) (w : World σ)
    (hty : principal.Id.ResourceType ≠ userResourceTypeId) :
    (permissionBuilder.Grant env principal entitlement w).1.err ≠ none := by
  simp [permissionBuilder.Grant, hty]

/-- `permissionBuilder.Grant` when the permission cannot be fetched. -/
theorem permissionGrant_of_permission_error (env : Env σ) (principal : Resource)
    (entitlement : Entitlement) (w : World σ) (e : GoError) (s1 : σ)
    (hp : env.getPermission entitlement.Resource.Id.Resource w.ext = (.error e, s1)) :
    (permissionBuilder.Grant env principal entitlement w).1.err ≠ none := by
  by_cases hty : principal.Id.ResourceType = userResourceTypeId <;>
    simp [permissionBuilder.Grant, hty, TenableVMClient.GetPermissionDetails, hp]

/-- `permissionBuilder.Grant` when the user cannot be fetched. -/
theorem permissionGrant_of_user_error (env : Env σ) (principal : Resource)
    (entitlement : Entitlement) (w : World σ) (permission : Permission) (s1 : σ) (e : GoError)
    (s2 : σ)
    (hp : env.getPermission entitlement.Resource.Id.Resource w.ext = (.ok permission, s1))
    (hu : env.getUser principal.Id.Resource s1 = (.error e, s2)) :
    (permissionBuilder.Grant env principal entitlement w).1.err ≠ none := by
  by_cases hty : principal.Id.ResourceType = userResourceTypeId <;>
    simp [permissionBuilder.Grant, hty, TenableVMClient.GetPermissionDetails, hp,
      TenableVMClient.GetUserDetails, World.record, hu]

/-- `permissionBuilder.Grant` when the update is sent: its outcome is the outcome of
the update. -/
theorem permissionGrant_of_update (env : Env σ) (principal : Resource)
    (entitlement : Entitlement) (w : World σ) (permission : Permission) (s1 : σ) (user : User)
    (s2 : σ) (uuid : UUID) (hty : principal.Id.ResourceType = userResourceTypeId)
    (hp : env.getPermission entitlement.Resource.Id.Resource w.ext = (.ok permission, s1))
    (hu : env.getUser principal.Id.Resource s1 = (.ok user, s2))
    (hs : permission.Subjects.any (fun subject => decide (subject.UUID.String = user.UUID)) = false)
    (hparse : Parse user.UUID = .ok uuid) :
    permissionBuilder.Grant env principal entitlement w =
      match env.updatePermission permission.UUID.String
          { Name := permission.Name, Actions := permission.Actions,
            Objects := parseTagNames permission.Objects,
            Subjects := permission.Subjects ++
              [{ Type_ := subjectTypeUser, Name := user.Name, UUID := uuid }] } s2 with
      | (some err, s3) =>
        (⟨[], some ("failed to update permission " ++ err)⟩,
          ⟨s3, w.calls ++ [.GetPermissionDetails entitlement.Resource.Id.Resource,
            .GetUserDetails principal.Id.Resource,
            .UpdatePermission permission.UUID.String
              { Name := permission.Name, Actions := permission.Actions,
                Objects := parseTagNames permission.Objects,
                Subjects := permission.Subjects ++
                  [{ Type_ := subjectTypeUser, Name := user.Name, UUID := uuid }] }]⟩)
      | (none, s3) =>
        (⟨[], none⟩,
          ⟨s3, w.calls ++ [.GetPermissionDetails entitlement.Resource.Id.Resource,
            .GetUserDetails principal.Id.Resource,
            .UpdatePermission permission.UUID.String
              { Name := permission.Name, Actions := permission.Actions,
                Objects := parseTagNames permission.Objects,
                Subjects := permission.Subjects ++
                  [{ Type_ := subjectTypeUser, Name := user.Name, UUID := uuid }] }]⟩) := by
  rcases hup : env.updatePermission permission.UUID.String
      { Name := permission.Name, Actions := permission.Actions,
        Objects := parseTagNames permission.Objects,
        Subjects := permission.Subjects ++
          [{ Type_ := subjectTypeUser, Name := user.Name, UUID := uuid }] } s2 with ⟨e, s3⟩
  cases e <;>
    simp [permissionBuilder.Grant, hty, TenableVMClient.GetPermissionDetails, hp,
      TenableVMClient.GetUserDetails, World.record, hu, hs, hparse,
      TenableVMClient.UpdatePermission, TenableVMClient.permissionBody, hup]

/-- What a successful permission read of the reference upstream tells. -/
theorem Tenable.getPermission_inv {s s1 : Tenable} {uuid : String} {p : Permission}
    (h : Tenable.getPermission uuid s = (.ok p, s1)) :
    s.findPermission uuid = some p ∧ s1 = s.served := by
  unfold Tenable.getPermission at h
  split at h
  · simp at h
  · split at h
    · rename_i p0 hp
      simp only [Prod.mk.injEq, Except.ok.injEq] at h
      exact ⟨by rw [hp, h.1], h.2.symm⟩
    · simp at h

/-- The permission found under a UUID text renders to that text. -/
theorem Tenable.findPermission_uuid (s : Tenable) (uuid : String) (p : Permission)
    (h : s.findPermission uuid = some p) : p.UUID.String = uuid := by
  have := List.find?_some h
  simpa using this

/-- Looking up a permission after replacing the content of the permissions with its
UUID. -/
theorem find?_map_replace (l : List Permission) (uuid : String) (f : Permission → Permission)
    (hf : ∀ p, (f p).UUID = p.UUID) :
    (l.map (fun p => if p.UUID.String = uuid then f p else p)).find?
        (fun p => decide (p.UUID.String = uuid)) =
      (l.find? (fun p => decide (p.UUID.String = uuid))).map f := by
  induction l with
  | nil => rfl
  | cons a l ih =>
    by_cases h : a.UUID.String = uuid
    · simp [List.find?, h, hf]
    · simp [List.find?, h, ih]

/-- What a successful update of the reference upstream leaves behind. -/
theorem Tenable.updatePermission_inv {s s2 : Tenable} {uuid : String}
    {body : PermissionUpdateBody} (h : Tenable.updatePermission uuid body s = (none, s2)) :
    s2.users = s.users ∧
    ∃ p, s.findPermission uuid = some p ∧
      s2.findPermission uuid =
        some { p with Name := body.Name, Actions := body.Actions, Objects := body.Objects,
                      Subjects := body.Subjects } := by
  unfold Tenable.updatePermission at h
  split at h
  · simp at h
  · split at h
    · rename_i p0 hp
      simp only [Prod.mk.injEq, true_and] at h
      subst h
      refine ⟨rfl, p0, hp, ?_⟩
      unfold Tenable.findPermission at hp ⊢
      simp only [Tenable.served]
      rw [find?_map_replace s.permissions uuid
        (fun p => { p with Name := body.Name, Actions := body.Actions, Objects := body.Objects,
                           Subjects := body.Subjects }) (fun _ => rfl), hp]
      rfl
    · simp at h

/-- Permission Grant twice in a row against the reference upstream, for a user whose
UUID text is canonical and both calls completing without error: the second reports
GrantAlreadyExists and issues no mutating call, the first issues at most one, and the
permission ends with one subject entry of the user if it had none and with the entries
it had otherwise. -/
theorem permissionGrant_twice_canonical (s : Tenable) (principal : Resource)
    (entitlement : Entitlement) (v : UUID)
    (hcanon : ∀ user, s.findUser principal.Id.Resource = some user → v.String = user.UUID)
    (h1 : (permissionBuilder.Grant tenable principal entitlement ⟨s, []⟩).1.err = none)
    (h2 : (permissionBuilder.Grant tenable principal entitlement
      ⟨(permissionBuilder.Grant tenable principal entitlement ⟨s, []⟩).2.ext, []⟩).1.err = none) :
    (permissionBuilder.Grant tenable principal entitlement
      ⟨(permissionBuilder.Grant tenable principal entitlement ⟨s, []⟩).2.ext, []⟩).1 =
      ⟨[.GrantAlreadyExists], none⟩ ∧
    mutatingCalls (permissionBuilder.Grant tenable principal entitlement
      ⟨(permissionBuilder.Grant tenable principal entitlement ⟨s, []⟩).2.ext, []⟩).2.calls = 0 ∧
    mutatingCalls (permissionBuilder.Grant tenable principal entitlement ⟨s, []⟩).2.calls ≤ 1 ∧
    (permissionBuilder.Grant tenable principal entitlement
      ⟨(permissionBuilder.Grant tenable principal entitlement ⟨s, []⟩).2.ext, []⟩).2.ext.subjectEntries
        entitlement.Resource.Id.Resource v =
      max 1 (s.subjectEntries entitlement.Resource.Id.Resource v) := by
  by_cases hty : principal.Id.ResourceType = userResourceTypeId
  swap
  · exact absurd h1 (permissionGrant_of_wrong_type tenable principal entitlement _ hty)
  have key : ∃ user p1,
      (permissionBuilder.Grant tenable principal entitlement ⟨s, []⟩).2.ext.findUser
        principal.Id.Resource = some user ∧
      (permissionBuilder.Grant tenable principal entitlement ⟨s, []⟩).2.ext.findPermission
        entitlement.Resource.Id.Resource = some p1 ∧
      p1.Subjects.any (fun subject => decide (subject.UUID.String = user.UUID)) = true ∧
      mutatingCalls (permissionBuilder.Grant tenable principal entitlement ⟨s, []⟩).2.calls ≤ 1 ∧
      (permissionBuilder.Grant tenable principal entitlement ⟨s, []⟩).2.ext.subjectEntries
          entitlement.Resource.Id.Resource v =
        max 1 (s.subjectEntries entitlement.Resource.Id.Resource v) := by
    rcases hp : tenable.getPermission entitlement.Resource.Id.Resource s with ⟨r, s1⟩
    cases r with
    | error e =>
      exact absurd h1 (permissionGrant_of_permission_error tenable principal entitlement _ e s1 hp)
    | ok permission =>
      obtain ⟨hfp, rfl⟩ := Tenable.getPermission_inv hp
      rcases hu : tenable.getUser principal.Id.Resource s.served with ⟨r2, s2⟩
      cases r2 with
      | error e =>
        exact absurd h1
          (permissionGrant_of_user_error tenable principal entitlement _ permission s.served e s2
            hp hu)
      | ok user =>
        obtain ⟨hfu, rfl⟩ := Tenable.getUser_inv hu
        have hv : v.String = user.UUID := hcanon user hfu
        have hscan := subject_scan_iff permission.Subjects v
        rw [hv] at hscan
        by_cases hs : permission.Subjects.any
            (fun subject => decide (subject.UUID.String = user.UUID)) = true
        · rw [permissionGrant_of_subject tenable principal entitlement ⟨s, []⟩ permission
            s.served user s.served.served hty hp hu hs]
          refine ⟨user, permission, hfu, hfp, hs, by simp [mutatingCalls, Call.isMutating], ?_⟩
          have hfp2 : s.served.served.findPermission entitlement.Resource.Id.Resource =
              some permission := hfp
          simp only [Tenable.subjectEntries, hfp2, hfp]
          have hpos : 0 < permission.Subjects.countP (fun subject => decide (subject.UUID = v)) := by
            rw [List.countP_pos_iff]
            obtain ⟨x, hx, hxv⟩ := hscan.1 hs
            exact ⟨x, hx, by simpa using hxv⟩
          omega
        · have hs' : permission.Subjects.any
              (fun subject => decide (subject.UUID.String = user.UUID)) = false := by
            simpa using hs
          have hparse : Parse user.UUID = .ok v := by rw [← hv]; exact Parse_String v
          have e1 := permissionGrant_of_update tenable principal entitlement ⟨s, []⟩ permission
            s.served user s.served.served v hty hp hu hs' hparse
          rcases h3 : tenable.updatePermission permission.UUID.String
            { Name := permission.Name, Actions := permission.Actions,
              Objects := parseTagNames permission.Objects,
              Subjects := permission.Subjects ++
                [{ Type_ := subjectTypeUser, Name := user.Name, UUID := v }] } s.served.served
            with ⟨e, s3⟩
          rw [h3] at e1
          cases e with
          | some err => rw [e1] at h1; simp at h1
          | none =>
            rw [e1]
            obtain ⟨husers, p0, hp0, hp3⟩ := Tenable.updatePermission_inv h3
            have huuid := Tenable.findPermission_uuid _ _ _ hfp
            rw [huuid] at hp0 hp3
            have hp0' : s.findPermission entitlement.Resource.Id.Resource = some p0 := hp0
            rw [hfp] at hp0'
            have hpp : p0 = permission := (Option.some.inj hp0').symm
            subst hpp
            refine ⟨user, _, ?_, hp3, ?_, by simp [mutatingCalls, Call.isMutating], ?_⟩
            · show s3.findUser principal.Id.Resource = some user
              unfold Tenable.findUser at hfu ⊢
              rw [husers]
              exact hfu
            · simp [hv]
            · have hzero : p0.Subjects.countP (fun subject => decide (subject.UUID = v)) = 0 := by
                rw [List.countP_eq_zero]
                intro a ha hh
                apply hs
                exact hscan.2 ⟨a, ha, by simpa using hh⟩
              simp only [Tenable.subjectEntries, hp3, hfp, List.countP_append, hzero]
              simp
  obtain ⟨user, p1, hfu, hfp, hs, hmut, hcount⟩ := key
  generalize (permissionBuilder.Grant tenable principal entitlement ⟨s, []⟩).2.ext = s'
    at h2 hfu hfp hcount ⊢
  rcases hp : tenable.getPermission entitlement.Resource.Id.Resource s' with ⟨r, s1⟩
  cases r with
  | error e =>
    exact absurd h2 (permissionGrant_of_permission_error tenable principal entitlement _ e s1 hp)
  | ok permission =>
    obtain ⟨hfp', rfl⟩ := Tenable.getPermission_inv hp
    rcases hu : tenable.getUser principal.Id.Resource s'.served with ⟨r2, s2⟩
    cases r2 with
    | error e =>
      exact absurd h2
        (permissionGrant_of_user_error tenable principal entitlement _ permission s'.served e
          s2 hp hu)
    | ok user' =>
      obtain ⟨hfu', rfl⟩ := Tenable.getUser_inv hu
      have hsame : user' = user := by
        have : s'.findUser principal.Id.Resource = some user' := hfu'
        rw [hfu] at this
        exact (Option.some.inj this).symm
      have hpsame : permission = p1 := by
        rw [hfp] at hfp'
        exact (Option.some.inj hfp').symm
      subst hsame hpsame
      rw [permissionGrant_of_subject tenable principal entitlement ⟨s', []⟩ permission
        s'.served user' s'.served.served hty hp hu hs]
      refine ⟨rfl, by simp [mutatingCalls, Call.isMutating], hmut, ?_⟩
      rw [← hcount]
      rfl

end PermissionIdempotency

section RevokeIdempotency

variable {σ : Type}

/-- `groupBuilder.Revoke` when the member list cannot be fetched. -/
theorem groupRevoke_of_fetch_error (env : Env σ) (grant : TenableVM.Grant) (w : World σ)
    (e : GoError) (s : σ)
    (hr : env.listGroupMembers grant.Entitlement.Resource.Id.Resource w.ext = (.error e, s)) :
    (groupBuilder.Revoke env grant w).1.err ≠ none := by
  simp [groupBuilder.Revoke, TenableVMClient.GetGroupMembers, hr]

/-- `groupBuilder.Revoke` when the principal is not among the fetched members. -/
theorem groupRevoke_of_not_member (env : Env σ) (grant : TenableVM.Grant) (w : World σ)
    (members : List User) (s : σ)
    (hr : env.listGroupMembers grant.Entitlement.Resource.Id.Resource w.ext = (.ok members, s))
    (hm : ¬ ∃ member ∈ members, Itoa member.ID = grant.Principal.Id.Resource) :
    groupBuilder.Revoke env grant w =
      (⟨[.GrantAlreadyRevoked], none⟩,
        ⟨s, w.calls ++ [.GetGroupMembers grant.Entitlement.Resource.Id.Resource]⟩) := by
  have hany : members.any
      (fun member => decide (Itoa member.ID = grant.Principal.Id.Resource)) = false := by
    rw [Bool.eq_false_iff]
    intro h
    exact hm (by simpa [List.any_eq_true] using h)
  simp [groupBuilder.Revoke, TenableVMClient.GetGroupMembers, hr, hany, World.record]

/-- `groupBuilder.Revoke` when the principal is among the fetched members: its outcome
is the outcome of the one remove call. -/
theorem groupRevoke_of_member (env : Env σ) (grant : TenableVM.Grant) (w : World σ)
    (members : List User) (s : σ)
    (hr : env.listGroupMembers grant.Entitlement.Resource.Id.Resource w.ext = (.ok members, s))
    (hm : ∃ member ∈ members, Itoa member.ID = grant.Principal.Id.Resource) :
    groupBuilder.Revoke env grant w =
      match env.removeGroupMember grant.Entitlement.Resource.Id.Resource
          grant.Principal.Id.Resource s with
      | (some err, s2) =>
        (⟨[], some ("baton-tenable: failed to remove user from group: " ++ err)⟩,
          ⟨s2, w.calls ++ [.GetGroupMembers grant.Entitlement.Resource.Id.Resource,
            .DeleteUserGroupMembership grant.Entitlement.Resource.Id.Resource
              grant.Principal.Id.Resource]⟩)
      | (none, s2) =>
        (⟨[], none⟩,
          ⟨s2, w.calls ++ [.GetGroupMembers grant.Entitlement.Resource.Id.Resource,
            .DeleteUserGroupMembership grant.Entitlement.Resource.Id.Resource
              grant.Principal.Id.Resource]⟩) := by
  have hany : members.any
      (fun member => decide (Itoa member.ID = grant.Principal.Id.Resource)) = true := by
    simpa [List.any_eq_true] using hm
  rcases h2 : env.removeGroupMember grant.Entitlement.Resource.Id.Resource
    grant.Principal.Id.Resource s with ⟨e, s2⟩
  cases e <;>
    simp [groupBuilder.Revoke, TenableVMClient.GetGroupMembers, hr, hany,
      TenableVMClient.DeleteUserGroupMembership, World.record, h2]

/-- What a successful remove-membership of the reference upstream leaves behind. -/
theorem Tenable.removeGroupMember_inv {s s2 : Tenable} {g u : String}
    (h : Tenable.removeGroupMember g u s = (none, s2)) :
    ∃ ms, GoMap.get? s.members g = some ms ∧
      GoMap.get? s2.members g = some (ms.filter (fun m => !decide (Itoa m.ID = u))) := by
  unfold Tenable.removeGroupMember at h
  split at h
  · simp at h
  · split at h
    · rename_i ms hm
      simp only [Prod.mk.injEq, true_and] at h
      subst h
      exact ⟨ms, hm, by simp [GoMap.get?_set]⟩
    · simp at h

/-- Group Revoke twice in a row against the reference upstream, for a user who is a
member and both calls completing without error: the first issues exactly one mutating
call, the second reports GrantAlreadyRevoked and issues none, and no member entry of
the user is left. -/
theorem groupRevoke_twice (s : Tenable) (grant : TenableVM.Grant) (ms : List User)
    (hms : GoMap.get? s.members grant.Entitlement.Resource.Id.Resource = some ms)
    (hex : ∃ member ∈ ms, Itoa member.ID = grant.Principal.Id.Resource)
    (h1 : (groupBuilder.Revoke tenable grant ⟨s, []⟩).1.err = none)
    (h2 : (groupBuilder.Revoke tenable grant
      ⟨(groupBuilder.Revoke tenable grant ⟨s, []⟩).2.ext, []⟩).1.err = none) :
    mutatingCalls (groupBuilder.Revoke tenable grant ⟨s, []⟩).2.calls = 1 ∧
    (groupBuilder.Revoke tenable grant
      ⟨(groupBuilder.Revoke tenable grant ⟨s, []⟩).2.ext, []⟩).1 =
      ⟨[.GrantAlreadyRevoked], none⟩ ∧
    mutatingCalls (groupBuilder.Revoke tenable grant
      ⟨(groupBuilder.Revoke tenable grant ⟨s, []⟩).2.ext, []⟩).2.calls = 0 ∧
    (groupBuilder.Revoke tenable grant
      ⟨(groupBuilder.Revoke tenable grant ⟨s, []⟩).2.ext, []⟩).2.ext.memberEntries
        grant.Entitlement.Resource.Id.Resource grant.Principal.Id.Resource = 0 := by
  have key : mutatingCalls (groupBuilder.Revoke tenable grant ⟨s, []⟩).2.calls = 1 ∧
      GoMap.get? (groupBuilder.Revoke tenable grant ⟨s, []⟩).2.ext.members
        grant.Entitlement.Resource.Id.Resource =
        some (ms.filter (fun m => !decide (Itoa m.ID = grant.Principal.Id.Resource))) := by
    rcases hl : tenable.listGroupMembers grant.Entitlement.Resource.Id.Resource s with ⟨r, s1⟩
    cases r with
    | error e => exact absurd h1 (groupRevoke_of_fetch_error tenable grant _ e s1 hl)
    | ok ms0 =>
      obtain ⟨hm0, rfl⟩ := Tenable.listGroupMembers_inv hl
      have hsame : ms0 = ms := by
        rw [hms] at hm0
        exact (Option.some.inj hm0).symm
      subst hsame
      have e1 := groupRevoke_of_member tenable grant ⟨s, []⟩ ms0 s.served hl hex
      rcases ha : tenable.removeGroupMember grant.Entitlement.Resource.Id.Resource
        grant.Principal.Id.Resource s.served with ⟨e, s2⟩
      rw [ha] at e1
      cases e with
      | some err => rw [e1] at h1; simp at h1
      | none =>
        rw [e1]
        obtain ⟨ms1, hm1, hm2⟩ := Tenable.removeGroupMember_inv ha
        have hsame : ms1 = ms0 := by
          have : GoMap.get? s.members grant.Entitlement.Resource.Id.Resource = some ms1 := hm1
          rw [hms] at this
          exact (Option.some.inj this).symm
        subst hsame
        exact ⟨by simp [mutatingCalls, Call.isMutating], hm2⟩
  obtain ⟨hmut, hm'⟩ := key
  generalize (groupBuilder.Revoke tenable grant ⟨s, []⟩).2.ext = s' at h2 hm' ⊢
  have hnone : ¬ ∃ member ∈ ms.filter (fun m => !decide (Itoa m.ID = grant.Principal.Id.Resource)),
      Itoa member.ID = grant.Principal.Id.Resource := by
    rintro ⟨x, hx, hxu⟩
    simp only [List.mem_filter, Bool.not_eq_true', decide_eq_false_iff_not] at hx
    exact hx.2 hxu
  rcases hl : tenable.listGroupMembers grant.Entitlement.Resource.Id.Resource s' with ⟨r, s1⟩
  cases r with
  | error e => exact absurd h2 (groupRevoke_of_fetch_error tenable grant _ e s1 hl)
  | ok ms2 =>
    obtain ⟨hm2, rfl⟩ := Tenable.listGroupMembers_inv hl
    have hsame : ms2 = ms.filter (fun m => !decide (Itoa m.ID = grant.Principal.Id.Resource)) := by
      rw [hm'] at hm2
      exact (Option.some.inj hm2).symm
    subst hsame
    rw [groupRevoke_of_not_member tenable grant ⟨s', []⟩ _ s'.served hl hnone]
    refine ⟨hmut, rfl, by simp [mutatingCalls, Call.isMutating], ?_⟩
    have hm3 : GoMap.get? s'.served.members grant.Entitlement.Resource.Id.Resource =
        some (ms.filter (fun m => !decide (Itoa m.ID = grant.Principal.Id.Resource))) := hm'
    simp only [Tenable.memberEntries, hm3, Option.getD_some]
    rw [List.countP_eq_zero]
    intro a ha hh
    exact hnone ⟨a, ha, by simpa using hh⟩

end RevokeIdempotency

section PermissionRevoke

variable {σ : Type}

/-- `permissionBuilder.Revoke` for a principal that is not a user. -/
theorem permissionRevoke_of_wrong_type (env : Env σ) (grant : TenableVM.Grant) (w : World σ)
    (hty : grant.Principal.Id.ResourceType ≠ userResourceTypeId) :
    (permissionBuilder.Revoke env grant w).1.err ≠ none := by
  simp [permissionBuilder.Revoke, hty]

/-- `permissionBuilder.Revoke` when the permission cannot be fetched. -/
theorem permissionRevoke_of_permission_error (env : Env σ) (grant : TenableVM.Grant)
    (w : World σ) (e : GoError) (s1 : σ)
    (hp : env.getPermission grant.Entitlement.Resource.Id.Resource w.ext = (.error e, s1)) :
    (permissionBuilder.Revoke env grant w).1.err ≠ none := by
  by_cases hty : grant.Principal.Id.ResourceType = userResourceTypeId <;>
    simp [permissionBuilder.Revoke, hty, TenableVMClient.GetPermissionDetails, hp]

/-- `permissionBuilder.Revoke` when the user cannot be fetched. -/
theorem permissionRevoke_of_user_error (env : Env σ) (grant : TenableVM.Grant) (w : World σ)
    (permission : Permission) (s1 : σ) (e : GoError) (s2 : σ)
    (hp : env.getPermission grant.Entitlement.Resource.Id.Resource w.ext = (.ok permission, s1))
    (hu : env.getUser grant.Principal.Id.Resource s1 = (.error e, s2)) :
    (permissionBuilder.Revoke env grant w).1.err ≠ none := by
  by_cases hty : grant.Principal.Id.ResourceType = userResourceTypeId <;>
    simp [permissionBuilder.Revoke, hty, TenableVMClient.GetPermissionDetails, hp,
      TenableVMClient.GetUserDetails, World.record, hu]

/-- `permissionBuilder.Revoke` when no subject renders to the user's UUID text. -/
theorem permissionRevoke_of_no_subject (env : Env σ) (grant : TenableVM.Grant) (w : World σ)
    (permission : Permission) (s1 : σ) (user : User) (s2 : σ)
    (hty : grant.Principal.Id.ResourceType = userResourceTypeId)
    (hp : env.getPermission grant.Entitlement.Resource.Id.Resource w.ext = (.ok permission, s1))
    (hu : env.getUser grant.Principal.Id.Resource s1 = (.ok user, s2))
    (hs : permission.Subjects.any (fun subject => decide (subject.UUID.String = user.UUID)) = false) :
    permissionBuilder.Revoke env grant w =
      (⟨[.GrantAlreadyRevoked], none⟩,
        ⟨s2, w.calls ++ [.GetPermissionDetails grant.Entitlement.Resource.Id.Resource,
          .GetUserDetails grant.Principal.Id.Resource]⟩) := by
  simp [permissionBuilder.Revoke, hty, TenableVMClient.GetPermissionDetails, hp,
    TenableVMClient.GetUserDetails, World.record, hu, hs]

/-- `permissionBuilder.Revoke` when the update is sent: its outcome is the outcome of
the update, which carries the subjects without those of the parsed UUID. -/
theorem permissionRevoke_of_update (env : Env σ) (grant : TenableVM.Grant) (w : World σ)
    (permission : Permission) (s1 : σ) (user : User) (s2 : σ) (uuid : UUID)
    (hty : grant.Principal.Id.ResourceType = userResourceTypeId)
    (hp : env.getPermission grant.Entitlement.Resource.Id.Resource w.ext = (.ok permission, s1))
    (hu : env.getUser grant.Principal.Id.Resource s1 = (.ok user, s2))
    (hs : permission.Subjects.any (fun subject => decide (subject.UUID.String = user.UUID)) = true)
    (hparse : Parse user.UUID = .ok uuid) :
    permissionBuilder.Revoke env grant w =
      match env.updatePermission permission.UUID.String
          { Name := permission.Name, Actions := permission.Actions,
            Objects := parseTagNames permission.Objects,
            Subjects := permission.Subjects.filter (fun obj => !decide (obj.UUID = uuid)) } s2 with
      | (some err, s3) =>
        (⟨[], some ("failed to update permission " ++ err)⟩,
          ⟨s3, w.calls ++ [.GetPermissionDetails grant.Entitlement.Resource.Id.Resource,
            .GetUserDetails grant.Principal.Id.Resource,
            .UpdatePermission permission.UUID.String
              { Name := permission.Name, Actions := permission.Actions,
                Objects := parseTagNames permission.Objects,
                Subjects := permission.Subjects.filter (fun obj => !decide (obj.UUID = uuid)) }]⟩)
      | (none, s3) =>
        (⟨[], none⟩,
          ⟨s3, w.calls ++ [.GetPermissionDetails grant.Entitlement.Resource.Id.Resource,
            .GetUserDetails grant.Principal.Id.Resource,
            .UpdatePermission permission.UUID.String
              { Name := permission.Name, Actions := permission.Actions,
                Objects := parseTagNames permission.Objects,
                Subjects := permission.Subjects.filter (fun obj => !decide (obj.UUID = uuid)) }]⟩) := by
  rcases hup : env.updatePermission permission.UUID.String
      { Name := permission.Name, Actions := permission.Actions,
        Objects := parseTagNames permission.Objects,
        Subjects := permission.Subjects.filter (fun obj => !decide (obj.UUID = uuid)) } s2
    with ⟨e, s3⟩
  cases e <;>
    simp only [permissionBuilder.Revoke, hty, ne_eq, not_true_eq_false, if_false,
      TenableVMClient.GetPermissionDetails, hp, TenableVMClient.GetUserDetails, World.record, hu,
      hs, Bool.not_true, Bool.false_eq_true, hparse, TenableVMClient.UpdatePermission,
      TenableVMClient.permissionBody, hup, List.append_assoc, List.singleton_append,
      List.cons_append, List.nil_append]

/-- Permission Revoke twice in a row against the reference upstream, for a user whose
UUID text is canonical and who is a subject of the permission, both calls completing
without error: the first issues exactly one mutating call, the second reports
GrantAlreadyRevoked and issues none, and no subject entry of the user is left. -/
theorem permissionRevoke_twice_canonical (s : Tenable) (grant : TenableVM.Grant) (v : UUID)
    (p : Permission)
    (hcanon : ∀ user, s.findUser grant.Principal.Id.Resource = some user → v.String = user.UUID)
    (hfind : s.findPermission grant.Entitlement.Resource.Id.Resource = some p)
    (hex : ∃ subject ∈ p.Subjects, subject.UUID = v)
    (h1 : (permissionBuilder.Revoke tenable grant ⟨s, []⟩).1.err = none)
    (h2 : (permissionBuilder.Revoke tenable grant
      ⟨(permissionBuilder.Revoke tenable grant ⟨s, []⟩).2.ext, []⟩).1.err = none) :
    mutatingCalls (permissionBuilder.Revoke tenable grant ⟨s, []⟩).2.calls = 1 ∧
    (permissionBuilder.Revoke tenable grant
      ⟨(permissionBuilder.Revoke tenable grant ⟨s, []⟩).2.ext, []⟩).1 =
      ⟨[.GrantAlreadyRevoked], none⟩ ∧
    mutatingCalls (permissionBuilder.Revoke tenable grant
      ⟨(permissionBuilder.Revoke tenable grant ⟨s, []⟩).2.ext, []⟩).2.calls = 0 ∧
    (permissionBuilder.Revoke tenable grant
      ⟨(permissionBuilder.Revoke tenable grant ⟨s, []⟩).2.ext, []⟩).2.ext.subjectEntries
        grant.Entitlement.Resource.Id.Resource v = 0 := by
  by_cases hty : grant.Principal.Id.ResourceType = userResourceTypeId
  swap
  · exact absurd h1 (permissionRevoke_of_wrong_type tenable grant _ hty)
  have key : ∃ user p1,
      mutatingCalls (permissionBuilder.Revoke tenable grant ⟨s, []⟩).2.calls = 1 ∧
      (permissionBuilder.Revoke tenable grant ⟨s, []⟩).2.ext.findUser
        grant.Principal.Id.Resource = some user ∧
      v.String = user.UUID ∧
      (permissionBuilder.Revoke tenable grant ⟨s, []⟩).2.ext.findPermission
        grant.Entitlement.Resource.Id.Resource = some p1 ∧
      ¬ ∃ subject ∈ p1.Subjects, subject.UUID = v := by
    rcases hp : tenable.getPermission grant.Entitlement.Resource.Id.Resource s with ⟨r, s1⟩
    cases r with
    | error e => exact absurd h1 (permissionRevoke_of_permission_error tenable grant _ e s1 hp)
    | ok permission =>
      obtain ⟨hfp, rfl⟩ := Tenable.getPermission_inv hp
      have hsame : permission = p := by
        rw [hfind] at hfp
        exact (Option.some.inj hfp).symm
      subst hsame
      rcases hu : tenable.getUser grant.Principal.Id.Resource s.served with ⟨r2, s2⟩
      cases r2 with
      | error e =>
        exact absurd h1
          (permissionRevoke_of_user_error tenable grant _ permission s.served e s2 hp hu)
      | ok user =>
        obtain ⟨hfu, rfl⟩ := Tenable.getUser_inv hu
        have hv : v.String = user.UUID := hcanon user hfu
        have hscan := subject_scan_iff permission.Subjects v
        rw [hv] at hscan
        have hs := hscan.2 hex
        have hparse : Parse user.UUID = .ok v := by rw [← hv]; exact Parse_String v
        have e1 := permissionRevoke_of_update tenable grant ⟨s, []⟩ permission s.served user
          s.served.served v hty hp hu hs hparse
        rcases h3 : tenable.updatePermission permission.UUID.String
          { Name := permission.Name, Actions := permission.Actions,
            Objects := parseTagNames permission.Objects,
            Subjects := permission.Subjects.filter (fun obj => !decide (obj.UUID = v)) }
          s.served.served with ⟨e, s3⟩
        rw [h3] at e1
        cases e with
        | some err => rw [e1] at h1; simp at h1
        | none =>
          rw [e1]
          obtain ⟨husers, p0, hp0, hp3⟩ := Tenable.updatePermission_inv h3
          have huuid := Tenable.findPermission_uuid _ _ _ hfind
          rw [huuid] at hp3
          refine ⟨user, _, by simp [mutatingCalls, Call.isMutating], ?_, hv, hp3, ?_⟩
          · show s3.findUser grant.Principal.Id.Resource = some user
            unfold Tenable.findUser at hfu ⊢
            rw [husers]
            exact hfu
          · rintro ⟨x, hx, hxv⟩
            simp only [List.mem_filter, Bool.not_eq_true', decide_eq_false_iff_not] at hx
            exact hx.2 hxv
  obtain ⟨user, p1, hmut, hfu, hv, hfp, hnone⟩ := key
  generalize (permissionBuilder.Revoke tenable grant ⟨s, []⟩).2.ext = s' at h2 hfu hfp ⊢
  rcases hp : tenable.getPermission grant.Entitlement.Resource.Id.Resource s' with ⟨r, s1⟩
  cases r with
  | error e => exact absurd h2 (permissionRevoke_of_permission_error tenable grant _ e s1 hp)
  | ok permission =>
    obtain ⟨hfp', rfl⟩ := Tenable.getPermission_inv hp
    rcases hu : tenable.getUser grant.Principal.Id.Resource s'.served with ⟨r2, s2⟩
    cases r2 with
    | error e =>
      exact absurd h2
        (permissionRevoke_of_user_error tenable grant _ permission s'.served e s2 hp hu)
    | ok user' =>
      obtain ⟨hfu', rfl⟩ := Tenable.getUser_inv hu
      have hsame : user' = user := by
        have : s'.findUser grant.Principal.Id.Resource = some user' := hfu'
        rw [hfu] at this
        exact (Option.some.inj this).symm
      have hpsame : permission = p1 := by
        rw [hfp] at hfp'
        exact (Option.some.inj hfp').symm
      subst hsame hpsame
      have hscan := subject_scan_iff permission.Subjects v
      rw [hv] at hscan
      have hs : permission.Subjects.any
          (fun subject => decide (subject.UUID.String = user'.UUID)) = false := by
        rw [Bool.eq_false_iff]
        exact fun h => hnone (hscan.1 h)
      rw [permissionRevoke_of_no_subject tenable grant ⟨s', []⟩ permission s'.served user'
        s'.served.served hty hp hu hs]
      refine ⟨hmut, rfl, by simp [mutatingCalls, Call.isMutating], ?_⟩
      have hfp3 : s'.served.served.findPermission grant.Entitlement.Resource.Id.Resource =
          some permission := hfp
      simp only [Tenable.subjectEntries, hfp3]
      rw [List.countP_eq_zero]
      intro a ha hh
      exact hnone ⟨a, ha, by simpa using hh⟩

end PermissionRevoke

section RoleProjection

variable {σ : Type}

/-- The nested loops of `loadRoleMapCache` are one loop over the scan. -/
theorem foldl_roleOccurrences (users : List User) (m0 : GoMap RoleMapRegistry) :
    users.foldl (fun m user => user.RbacRoles.foldl (fun m role => roleMapInsert m user role) m)
        m0 =
      (roleOccurrences users).foldl (fun m occ => roleMapInsert m occ.1 occ.2) m0 := by
  induction users generalizing m0 with
  | nil => rfl
  | cons user rest ih =>
    simp only [List.foldl_cons, roleOccurrences, List.flatMap_cons, List.foldl_append,
      List.foldl_map]
    exact ih _

/-- The bucket a scan leaves under a key: the bucket already there with the users of
the matching occurrences appended, or a fresh bucket opened by the first matching
occurrence. -/
theorem get?_foldl_roleMapInsert (occs : List (User × Role)) (m0 : GoMap RoleMapRegistry)
    (k : String) :
    GoMap.get? (occs.foldl (fun m occ => roleMapInsert m occ.1 occ.2) m0) k =
      match GoMap.get? m0 k with
      | some existing =>
        some { existing with
          Users := existing.Users ++
            (occs.filter (fun occ => decide (occ.2.UUID.String = k))).map Prod.fst }
      | none =>
        match occs.filter (fun occ => decide (occ.2.UUID.String = k)) with
        | [] => none
        | (user, role) :: rest => some { Role := role, Users := user :: rest.map Prod.fst } := by
  induction occs generalizing m0 with
  | nil =>
    cases h : GoMap.get? m0 k <;> simp [h]
  | cons occ rest ih =>
    obtain ⟨user, role⟩ := occ
    rw [List.foldl_cons, ih]
    by_cases hk : role.UUID.String = k
    · subst hk
      cases h : GoMap.get? m0 role.UUID.String with
      | none => simp [roleMapInsert, h, GoMap.get?_set]
      | some existing => simp [roleMapInsert, h, GoMap.get?_set]
    · cases h : GoMap.get? m0 k with
      | none =>
        cases h2 : GoMap.get? m0 role.UUID.String <;>
          simp [roleMapInsert, h, h2, GoMap.get?_set, hk]
      | some existing =>
        cases h2 : GoMap.get? m0 role.UUID.String <;>
          simp [roleMapInsert, h, h2, GoMap.get?_set, hk]

/-- The bucket of the built map under any key, in terms of the scan. -/
theorem get?_buildRoleMap (users : List User) (k : String) :
    GoMap.get? (buildRoleMap users) k =
      match (roleOccurrences users).filter (fun occ => decide (occ.2.UUID.String = k)) with
      | [] => none
      | (user, role) :: rest => some { Role := role, Users := user :: rest.map Prod.fst } := by
  unfold buildRoleMap
  rw [foldl_roleOccurrences, get?_foldl_roleMapInsert]
  rfl

/-- Selecting occurrences by rendered UUID is selecting them by UUID. -/
theorem filter_by_rendering (occs : List (User × Role)) (r : UUID) :
    occs.filter (fun occ => decide (occ.2.UUID.String = r.String)) =
      occs.filter (fun occ => decide (occ.2.UUID = r)) := by
  apply List.filter_congr
  intro occ _
  by_cases h : occ.2.UUID = r
  · simp [h]
  · have : occ.2.UUID.String ≠ r.String := fun e => h (UUID.String_injective _ _ e)
    simp [h, this]

/-- C11 (role projection equals its reference definition). For every user listing,
the map a refresh of `loadRoleMapCache` stores holds under each role UUID `r` exactly
what the reference definition gives: the first descriptor with UUID `r` in scan order
and the users of all occurrences of `r`, once per occurrence, in scan order. In
particular, when the first occurrence of `r` carries descriptor `role`, the stored
descriptor is `role`, whatever name later descriptors of `r` carry. -/
theorem roleMap_refines_projection (users : List User) :
    (∀ (env : Env σ) (w : World σ) (o : roleBuilder) (s : σ),
      (o.roleCache = none ∨ 5 * Minute ≤ env.now w.ext - o.cacheLastLoad) →
      env.listUsers w.ext = (.ok users, s) →
      (o.loadRoleMapCache env w).2.1.roleCache = some (buildRoleMap users)) ∧
    (∀ r : UUID, GoMap.get? (buildRoleMap users) r.String = roleProjection users r) ∧
    (∀ (r : UUID) (before after : List (User × Role)) (user : User) (role : Role),
      roleOccurrences users = before ++ (user, role) :: after →
      role.UUID = r → (∀ occ ∈ before, occ.2.UUID ≠ r) →
      ∃ bucket, GoMap.get? (buildRoleMap users) r.String = some bucket ∧
        bucket.Role = role ∧ bucket.Role.Name = role.Name) := by
  refine ⟨fun env w o s hstale hr => ?_, fun r => ?_, ?_⟩
  · rw [loadRoleMapCache_ok env w o hstale users s hr]
  · rw [get?_buildRoleMap, filter_by_rendering]
    rfl
  · intro r before after user role hsplit hrole hbefore
    have hfilter : (roleOccurrences users).filter (fun occ => decide (occ.2.UUID = r)) =
        (user, role) :: after.filter (fun occ => decide (occ.2.UUID = r)) := by
      rw [hsplit, List.filter_append]
      have h0 : before.filter (fun occ => decide (occ.2.UUID = r)) = [] := by
        rw [List.filter_eq_nil_iff]
        intro occ hocc
        simpa using hbefore occ hocc
      rw [h0, List.nil_append, List.filter_cons]
      simp [hrole]
    rw [get?_buildRoleMap, filter_by_rendering, hfilter]
    exact ⟨_, rfl, rfl, rfl⟩

/-- C11 on a listing where Alice is "admin" and "scanner" and Carol holds the admin
UUID under the name "administrator": the bucket of the admin UUID keeps the name
"admin" and lists Alice then Carol. -/
theorem roleMap_refines_projection_witness :
    roleOccurrences roleListing =
      [] ++ (withRoles alice [adminRole, scannerRole], adminRole) ::
        [(withRoles alice [adminRole, scannerRole], scannerRole),
          (withRoles carol [adminRenamed], adminRenamed)] ∧
    ∃ bucket, GoMap.get? (buildRoleMap roleListing) (uuidOf 1).String = some bucket ∧
      bucket.Role = adminRole ∧ bucket.Role.Name = adminRole.Name :=
  ⟨by decide,
    (@roleMap_refines_projection Unit roleListing).2.2 (uuidOf 1) []
      [(withRoles alice [adminRole, scannerRole], scannerRole),
        (withRoles carol [adminRenamed], adminRenamed)]
      (withRoles alice [adminRole, scannerRole]) adminRole (by decide) rfl
      (fun occ h => by simp at h)⟩

end RoleProjection

section RoleKeys

variable {σ : Type}

/-- An entry of a map after an assignment is an old entry or the assigned one. -/
theorem GoMap.mem_set {V : Type} (m : GoMap V) (k : String) (v : V) (e : String × V)
    (h : e ∈ GoMap.set m k v) : e ∈ m ∨ e = (k, v) := by
  induction m with
  | nil =>
    simp only [GoMap.set, List.mem_singleton] at h
    exact Or.inr h
  | cons kv rest ih =>
    obtain ⟨k0, v0⟩ := kv
    by_cases h0 : k0 = k
    · simp only [GoMap.set, h0, if_true, List.mem_cons] at h
      rcases h with h | h
      · exact Or.inr h
      · exact Or.inl (List.mem_cons_of_mem _ h)
    · simp only [GoMap.set, h0, if_false, List.mem_cons] at h
      rcases h with h | h
      · exact Or.inl (by rw [h]; exact List.mem_cons_self _ _)
      · rcases ih h with h | h
        · exact Or.inl (List.mem_cons_of_mem _ h)
        · exact Or.inr h

/-- A successful lookup returns an entry of the map. -/
theorem GoMap.mem_of_get? {V : Type} (m : GoMap V) (k : String) (v : V)
    (h : GoMap.get? m k = some v) : (k, v) ∈ m := by
  induction m with
  | nil => simp [GoMap.get?] at h
  | cons kv rest ih =>
    obtain ⟨k0, v0⟩ := kv
    by_cases h0 : k0 = k
    · simp only [GoMap.get?, h0, if_true, Option.some.injEq] at h
      rw [h0, h]
      exact List.mem_cons_self _ _
    · simp only [GoMap.get?, h0, if_false] at h
      exact List.mem_cons_of_mem _ (ih h)

/-- The keys of a map are the keys its lookup answers. -/
theorem GoMap.mem_keys_iff {V : Type} (m : GoMap V) (k : String) :
    k ∈ GoMap.keys m ↔ (GoMap.get? m k).isSome = true := by
  induction m with
  | nil => simp [GoMap.keys, GoMap.get?]
  | cons kv rest ih =>
    obtain ⟨k0, v0⟩ := kv
    by_cases h0 : k0 = k
    · simp [GoMap.keys, GoMap.get?, h0]
    · have h1 : ¬ k = k0 := fun e => h0 e.symm
      simp only [GoMap.keys, List.map_cons, List.mem_cons, h1, false_or, GoMap.get?, h0,
        if_false]
      exact ih

/-- Every bucket of a scan started from well-formed buckets is well formed: it has at
least one user and sits under the rendering of its descriptor's UUID. -/
theorem roleMap_entries (occs : List (User × Role)) (m0 : GoMap RoleMapRegistry)
    (h0 : ∀ e ∈ m0, e.2.Users ≠ [] ∧ e.2.Role.UUID.String = e.1) :
    ∀ e ∈ occs.foldl (fun m occ => roleMapInsert m occ.1 occ.2) m0,
      e.2.Users ≠ [] ∧ e.2.Role.UUID.String = e.1 := by
  induction occs generalizing m0 with
  | nil => exact h0
  | cons occ rest ih =>
    obtain ⟨user, role⟩ := occ
    rw [List.foldl_cons]
    apply ih
    intro e he
    cases hg : GoMap.get? m0 role.UUID.String with
    | none =>
      simp only [roleMapInsert, hg] at he
      rcases GoMap.mem_set _ _ _ _ he with h | h
      · exact h0 e h
      · rw [h]
        exact ⟨by simp, rfl⟩
    | some existing =>
      simp only [roleMapInsert, hg] at he
      rcases GoMap.mem_set _ _ _ _ he with h | h
      · exact h0 e h
      · rw [h]
        exact ⟨by simp, (h0 _ (GoMap.mem_of_get? _ _ _ hg)).2⟩

/-- The buckets of the built map are well formed. -/
theorem buildRoleMap_entries (users : List User) :
    ∀ e ∈ buildRoleMap users, e.2.Users ≠ [] ∧ e.2.Role.UUID.String = e.1 := by
  unfold buildRoleMap
  rw [foldl_roleOccurrences]
  exact roleMap_entries _ [] (fun e he => by simp at he)

/-- An occurrence in the scan is a role descriptor embedded in a listed user. -/
theorem mem_roleOccurrences (users : List User) (user : User) (role : Role) :
    (user, role) ∈ roleOccurrences users ↔ user ∈ users ∧ role ∈ user.RbacRoles := by
  simp only [roleOccurrences, List.mem_flatMap, List.mem_map, Prod.mk.injEq]
  constructor
  · rintro ⟨u, hu, r, hr, rfl, rfl⟩
    exact ⟨hu, hr⟩
  · rintro ⟨hu, hr⟩
    exact ⟨user, hu, role, hr, rfl, rfl⟩

/-- A key answers exactly when some listed user carries a descriptor rendering to it. -/
theorem buildRoleMap_isSome (users : List User) (k : String) :
    (GoMap.get? (buildRoleMap users) k).isSome = true ↔
      ∃ user ∈ users, ∃ role ∈ user.RbacRoles, role.UUID.String = k := by
  rw [get?_buildRoleMap]
  constructor
  · intro h
    cases hf : (roleOccurrences users).filter (fun occ => decide (occ.2.UUID.String = k)) with
    | nil => rw [hf] at h; simp at h
    | cons occ rest =>
      have hmem : occ ∈ (roleOccurrences users).filter
          (fun occ => decide (occ.2.UUID.String = k)) := by rw [hf]; exact List.mem_cons_self _ _
      obtain ⟨user, role⟩ := occ
      simp only [List.mem_filter, decide_eq_true_eq] at hmem
      obtain ⟨hocc, hk⟩ := hmem
      exact ⟨user, ((mem_roleOccurrences users user role).1 hocc).1, role,
        ((mem_roleOccurrences users user role).1 hocc).2, hk⟩
  · rintro ⟨user, hu, role, hr, hk⟩
    have hmem : (user, role) ∈ (roleOccurrences users).filter
        (fun occ => decide (occ.2.UUID.String = k)) := by
      simp only [List.mem_filter, decide_eq_true_eq]
      exact ⟨(mem_roleOccurrences users user role).2 ⟨hu, hr⟩, hk⟩
    cases hf : (roleOccurrences users).filter (fun occ => decide (occ.2.UUID.String = k)) with
    | nil => rw [hf] at hmem; simp at hmem
    | cons occ rest => rfl

/-- The loop of `roleBuilder.List` yields one resource per bucket, under the rendering
of the bucket's descriptor UUID. -/
theorem roleResources_ok (parent : Option ResourceId) (m : GoMap RoleMapRegistry) :
    ∃ rs, roleResources parent m = .ok rs ∧
      rs.map (fun r => r.Id.Resource) = m.map (fun kv => kv.2.Role.UUID.String) := by
  induction m with
  | nil => exact ⟨[], rfl, rfl⟩
  | cons kv rest ih =>
    obtain ⟨k, reg⟩ := kv
    obtain ⟨rs, h1, h2⟩ := ih
    obtain ⟨r, h3, h4⟩ : ∃ r, parseIntoRoleResource reg.Role parent = .ok r ∧
        r.Id.Resource = reg.Role.UUID.String := ⟨_, rfl, rfl⟩
    refine ⟨r :: rs, ?_, ?_⟩
    · simp [roleResources, h1, h3]
    · simp [h2, h4]

/-- What `roleBuilder.List` returns when it refreshes: one resource per bucket of the
map built from the listing, whatever the builder held before. -/
theorem roleList_of_refresh (env : Env σ) (w : World σ) (rb : roleBuilder)
    (parent : Option ResourceId) (users : List User) (s : σ)
    (hstale : rb.roleCache = none ∨ 5 * Minute ≤ env.now w.ext - rb.cacheLastLoad)
    (hr : env.listUsers w.ext = (.ok users, s)) :
    (rb.List env parent w).1.err = none ∧
    (rb.List env parent w).1.resources.map (fun r => r.Id.Resource) =
      (buildRoleMap users).map (fun kv => kv.2.Role.UUID.String) := by
  obtain ⟨rs, h1, h2⟩ := roleResources_ok parent (buildRoleMap users)
  unfold roleBuilder.List
  rw [loadRoleMapCache_ok env w rb hstale users s hr]
  simp [h1, h2]

/-- C12 (role projection emptiness). After a refresh from listing `users`: a role UUID
is a key of the role projection if and only if some listed user carries it in the
embedded role list; every key is a role UUID so carried; every bucket has a non-empty
user list; a user with no roles changes nothing; and the output of the `List` that
refreshed has a resource for a role UUID exactly when a listed user carries it, so a
role of the previous snapshot that no listed user holds is absent. -/
theorem roleMap_keys (users : List User) :
    (∀ r : UUID, r.String ∈ GoMap.keys (buildRoleMap users) ↔
      ∃ user ∈ users, ∃ role ∈ user.RbacRoles, role.UUID = r) ∧
    (∀ k ∈ GoMap.keys (buildRoleMap users),
      ∃ user ∈ users, ∃ role ∈ user.RbacRoles, role.UUID.String = k) ∧
    (∀ e ∈ buildRoleMap users, e.2.Users ≠ []) ∧
    (∀ (before after : List User) (user : User), users = before ++ user :: after →
      user.RbacRoles = [] → buildRoleMap users = buildRoleMap (before ++ after)) ∧
    (∀ (env : Env σ) (w : World σ) (rb : roleBuilder) (parent : Option ResourceId) (s : σ),
      (rb.roleCache = none ∨ 5 * Minute ≤ env.now w.ext - rb.cacheLastLoad) →
      env.listUsers w.ext = (.ok users, s) →
      ∀ r : UUID,
        (∃ res ∈ (rb.List env parent w).1.resources, res.Id.Resource = r.String) ↔
          ∃ user ∈ users, ∃ role ∈ user.RbacRoles, role.UUID = r) := by
  have hkey : ∀ r : UUID, r.String ∈ GoMap.keys (buildRoleMap users) ↔
      ∃ user ∈ users, ∃ role ∈ user.RbacRoles, role.UUID = r := by
    intro r
    rw [GoMap.mem_keys_iff, buildRoleMap_isSome]
    constructor
    · rintro ⟨user, hu, role, hr, hk⟩
      exact ⟨user, hu, role, hr, UUID.String_injective _ _ hk⟩
    · rintro ⟨user, hu, role, hr, hk⟩
      exact ⟨user, hu, role, hr, by rw [hk]⟩
  refine ⟨hkey, fun k hk => ?_, fun e he => (buildRoleMap_entries users e he).1, ?_, ?_⟩
  · exact (buildRoleMap_isSome users k).1 ((GoMap.mem_keys_iff _ k).1 hk)
  · intro before after user hsplit hnone
    have hocc : roleOccurrences users = roleOccurrences (before ++ after) := by
      rw [hsplit]
      simp [roleOccurrences, List.flatMap_append, List.flatMap_cons, hnone]
    unfold buildRoleMap
    rw [foldl_roleOccurrences, foldl_roleOccurrences, hocc]
  · intro env w rb parent s hstale hr r
    obtain ⟨_, hids⟩ := roleList_of_refresh env w rb parent users s hstale hr
    rw [← hkey r]
    have hres : (∃ res ∈ (rb.List env parent w).1.resources, res.Id.Resource = r.String) ↔
        r.String ∈ (rb.List env parent w).1.resources.map (fun res => res.Id.Resource) := by
      simp [List.mem_map]
    rw [hres, hids]
    have hsame : (buildRoleMap users).map (fun kv => kv.2.Role.UUID.String) =
        GoMap.keys (buildRoleMap users) := by
      unfold GoMap.keys
      apply List.map_congr_left
      intro e he
      exact (buildRoleMap_entries users e he).2
    rw [hsame]

/-- C12 at concrete inputs: a builder whose old snapshot holds the scanner role
refreshes from a listing in which users hold the admin role only; the output has the
admin role and no scanner role. -/
theorem roleMap_keys_witness :
    (staleRoleBuilder.roleCache = none ∨
      5 * Minute ≤ tenable.now demoAdmins - staleRoleBuilder.cacheLastLoad) ∧
    ((∃ res ∈ (staleRoleBuilder.List tenable none ⟨demoAdmins, []⟩).1.resources,
        res.Id.Resource = (uuidOf 2).String) ↔
      ∃ user ∈ demoAdmins.users, ∃ role ∈ user.RbacRoles, role.UUID = uuidOf 2) ∧
    (staleRoleBuilder.List tenable none ⟨demoAdmins, []⟩).1.resources.map
      (fun res => res.Id.Resource) = [(uuidOf 1).String] :=
  ⟨by decide,
    (@roleMap_keys Tenable demoAdmins.users).2.2.2.2 tenable ⟨demoAdmins, []⟩ staleRoleBuilder
      none demoAdmins (by decide) (by decide) (uuidOf 2),
    by decide⟩

end RoleKeys

section Credentials

variable {γ : Type}

/-- The three ways the loop of `generateCredentials` ends, with the calls it made:
some rejected candidates, then a valid candidate that is returned, or a generator
error that is returned, or nothing more once the attempts are used up. -/
theorem generateAttempts_spec (uni : Unicode) (gen : Generator γ) (length : Int) :
    ∀ (attempts : Nat) (g : GenWorld γ),
      ∃ rejected : List String,
        (∀ p ∈ rejected, isPasswordValid uni p = false) ∧
        ((∃ password, (generateAttempts uni gen length attempts g).1 = .ok password ∧
            isPasswordValid uni password = true ∧ rejected.length < attempts ∧
            (generateAttempts uni gen length attempts g).2.log =
              g.log ++ (rejected.map (fun p => (min 12 length, Except.ok p)) ++
                [(min 12 length, .ok password)])) ∨
          (∃ err, (generateAttempts uni gen length attempts g).1 = .error err ∧
            rejected.length < attempts ∧
            (generateAttempts uni gen length attempts g).2.log =
              g.log ++ (rejected.map (fun p => (min 12 length, Except.ok p)) ++
                [(min 12 length, .error err)])) ∨
          ((generateAttempts uni gen length attempts g).1 =
              .error "failed to generate a valid password after 20 attempts" ∧
            rejected.length = attempts ∧
            (generateAttempts uni gen length attempts g).2.log =
              g.log ++ rejected.map (fun p => (min 12 length, Except.ok p)))) := by
  intro attempts
  induction attempts with
  | zero =>
    intro g
    exact ⟨[], by simp, Or.inr (Or.inr ⟨rfl, rfl, by simp [generateAttempts]⟩)⟩
  | succ n ih =>
    intro g
    rcases hgen : gen (min 12 length) g.st with ⟨r, s⟩
    cases r with
    | error err =>
      refine ⟨[], by simp, Or.inr (Or.inl ⟨err, ?_, by simp, ?_⟩)⟩ <;>
        simp [generateAttempts, hgen]
    | ok password =>
      by_cases hv : isPasswordValid uni password = true
      · refine ⟨[], by simp, Or.inl ⟨password, ?_, hv, by simp, ?_⟩⟩ <;>
          simp [generateAttempts, hgen, hv]
      · have hv' : isPasswordValid uni password = false := by simpa using hv
        have hstep : generateAttempts uni gen length (n + 1) g =
            generateAttempts uni gen length n
              ⟨s, g.log ++ [(min 12 length, .ok password)]⟩ := by
          simp [generateAttempts, hgen, hv']
        obtain ⟨rejected, hrej, hcases⟩ := ih ⟨s, g.log ++ [(min 12 length, .ok password)]⟩
        refine ⟨password :: rejected, ?_, ?_⟩
        · intro p hp
          rcases List.mem_cons.1 hp with h | h
          · rw [h]; exact hv'
          · exact hrej p h
        · rw [hstep]
          rcases hcases with ⟨pw, h1, h2, h3, h4⟩ | ⟨err, h1, h3, h4⟩ | ⟨h1, h3, h4⟩
          · exact Or.inl ⟨pw, h1, h2, by simp; omega, by rw [h4]; simp⟩
          · exact Or.inr (Or.inl ⟨err, h1, by simp; omega, by rw [h4]; simp⟩)
          · exact Or.inr (Or.inr ⟨h1, by simp; omega, by rw [h4]; simp⟩)

end Credentials

section CredentialClaims

variable {γ : Type}

/-- In a run of answers that ends with the only one that is not a rejected candidate,
an error answer can only be the last. -/
theorem error_is_last (rejected : List String) (len : Int) (last : Int × Except GoError String)
    (before after : List (Int × Except GoError String)) (n : Int) (e : GoError)
    (h : rejected.map (fun p => (len, Except.ok p)) ++ [last] = before ++ (n, .error e) :: after) :
    after = [] ∧ last = (n, .error e) := by
  induction rejected generalizing before with
  | nil =>
    cases before with
    | nil =>
      simp only [List.map_nil, List.nil_append, List.cons.injEq] at h
      exact ⟨h.2.symm, h.1⟩
    | cons b bs =>
      simp only [List.map_nil, List.nil_append, List.cons_append, List.cons.injEq] at h
      have := h.2
      cases bs <;> simp at this
  | cons p ps ih =>
    cases before with
    | nil =>
      simp only [List.map_cons, List.cons_append, List.nil_append, List.cons.injEq,
        Prod.mk.injEq, reduceCtorEq, and_false, false_and] at h
    | cons b bs =>
      simp only [List.map_cons, List.cons_append, List.cons.injEq] at h
      exact ih bs h.2

/-- An error answer is not among rejected candidates. -/
theorem no_error_among_rejected (rejected : List String) (len : Int)
    (before after : List (Int × Except GoError String)) (n : Int) (e : GoError)
    (h : rejected.map (fun p => (len, Except.ok p)) = before ++ (n, .error e) :: after) :
    False := by
  have hmem : (n, Except.error e) ∈ rejected.map (fun p => (len, Except.ok p)) := by
    rw [h]; simp
  simp at hmem

/-- C14 (failure modes). If the credential option is not a random password,
`generateCredentials` returns an error and leaves the generator untouched. Otherwise
it makes at most 20 generator calls; a generator error can only be the answer to the
last call made and is the error returned; and when 20 calls were made and every
answer was a candidate failing validation, the result is the exhaustion error. The
result is a string only if that string passes validation. -/
theorem generateCredentials_failures (uni : Unicode) (gen : Generator γ)
    (credentialOptions : CredentialOptions) (g : GenWorld γ) :
    (credentialOptions.RandomPassword = none →
      generateCredentials uni gen credentialOptions g =
        (.error "unsupported credential option", g)) ∧
    (∃ calls, (generateCredentials uni gen credentialOptions g).2.log = g.log ++ calls ∧
      calls.length ≤ 20 ∧
      (∀ before after n e, calls = before ++ (n, .error e) :: after →
        after = [] ∧ (generateCredentials uni gen credentialOptions g).1 = .error e) ∧
      (calls.length = 20 →
        (∀ call ∈ calls, ∃ p, call.2 = .ok p ∧ isPasswordValid uni p = false) →
        (generateCredentials uni gen credentialOptions g).1 =
          .error "failed to generate a valid password after 20 attempts")) ∧
    (∀ password, (generateCredentials uni gen credentialOptions g).1 = .ok password →
      isPasswordValid uni password = true) := by
  cases hopt : credentialOptions.RandomPassword with
  | none =>
    have hrun : generateCredentials uni gen credentialOptions g =
        (.error "unsupported credential option", g) := by
      simp [generateCredentials, hopt]
    rw [hrun]
    refine ⟨fun _ => rfl, ⟨[], by simp, by simp, ?_, by simp⟩, by simp⟩
    intro before after n e h
    cases before <;> simp at h
  | some randomPassword =>
    have hrun : generateCredentials uni gen credentialOptions g =
        generateAttempts uni gen randomPassword.Length 20 g := by
      simp [generateCredentials, hopt, maxAttempts]
    rw [hrun]
    obtain ⟨rejected, hrej, hcases⟩ := generateAttempts_spec uni gen randomPassword.Length 20 g
    refine ⟨fun h => by simp at h, ?_, ?_⟩
    · rcases hcases with ⟨pw, h1, h2, h3, h4⟩ | ⟨err, h1, h3, h4⟩ | ⟨h1, h3, h4⟩
      · refine ⟨_, h4, by simp; omega, ?_, ?_⟩
        · intro before after n e hsplit
          have := error_is_last rejected _ _ before after n e hsplit
          simp at this
        · intro hlen hall
          have hlast := hall (min 12 randomPassword.Length, .ok pw) (by simp)
          obtain ⟨p, hp, hinv⟩ := hlast
          have : pw = p := Except.ok.inj hp
          rw [← this, h2] at hinv
          simp at hinv
      · refine ⟨_, h4, by simp; omega, ?_, ?_⟩
        · intro before after n e hsplit
          obtain ⟨ha, hl⟩ := error_is_last rejected _ _ before after n e hsplit
          simp only [Prod.mk.injEq, Except.error.injEq] at hl
          exact ⟨ha, by rw [h1, hl.2]⟩
        · intro _ hall
          obtain ⟨p, hp, _⟩ := hall (min 12 randomPassword.Length, .error err) (by simp)
          simp at hp
      · refine ⟨_, h4, by simp; omega, ?_, fun _ _ => h1⟩
        intro before after n e hsplit
        exact absurd hsplit (fun h => no_error_among_rejected rejected _ before after n e h)
    · intro password hp
      rcases hcases with ⟨pw, h1, h2, _, _⟩ | ⟨err, h1, _, _⟩ | ⟨h1, _, _⟩
      · rw [h1] at hp
        rw [← Except.ok.inj hp]
        exact h2
      · rw [h1] at hp; simp at hp
      · rw [h1] at hp; simp at hp

/-- C14 at concrete inputs: without a random-password option the generator is not
called at all. -/
theorem generateCredentials_failures_witness :
    (⟨none⟩ : CredentialOptions).RandomPassword = none ∧
    generateCredentials unicodeASCII scripted ⟨none⟩ ⟨["Abcdefgh1!xy"], []⟩ =
      (.error "unsupported credential option", ⟨["Abcdefgh1!xy"], []⟩) :=
  ⟨rfl, (generateCredentials_failures unicodeASCII scripted ⟨none⟩ ⟨["Abcdefgh1!xy"], []⟩).1 rfl⟩

end CredentialClaims

section PermissionGrants

variable {σ : Type}

/-- A subject that cannot be resolved makes the loop of `Grants` fail, whatever was
collected before it. -/
theorem grantsLoop_of_dangling (resource : Resource) (cachedUsers : Option (GoMap User))
    (cachedGroups : Option (GoMap String)) (subjects : List TenableObject)
    (grants : List TenableVM.Grant)
    (h : ∃ subject ∈ subjects,
      (subject.Type_ = subjectTypeUser ∧
        GoMap.get? (cachedUsers.getD []) subject.UUID.String = none) ∨
      (subject.Type_ = subjectTypeGroup ∧
        GoMap.get? (cachedGroups.getD []) subject.UUID.String = none)) :
    ∃ err, grantsLoop resource cachedUsers cachedGroups subjects grants = .error err := by
  induction subjects generalizing grants with
  | nil => simp at h
  | cons subject rest ih =>
    obtain ⟨x, hx, hbad⟩ := h
    rcases List.mem_cons.1 hx with hhead | htail
    · subst hhead
      rcases hbad with ⟨hty, hnone⟩ | ⟨hty, hnone⟩
      · refine ⟨"user not found, unknown UUID: " ++ x.UUID.String, ?_⟩
        simp [grantsLoop, hty, getUserResourceId, hnone]
      · have hne : ¬ subjectTypeGroup = subjectTypeUser := by decide
        refine ⟨"group not found, unknown UUID: " ++ x.UUID.String, ?_⟩
        simp [grantsLoop, hne, hty, getGroupResourceId, hnone]
    · unfold grantsLoop
      split_ifs
      · cases getUserResourceId subject.UUID.String cachedUsers with
        | error err => exact ⟨err, rfl⟩
        | ok id => exact ih _ ⟨x, htail, hbad⟩
      · cases getGroupResourceId subject.UUID.String cachedGroups with
        | error err => exact ⟨err, rfl⟩
        | ok id => exact ih _ ⟨x, htail, hbad⟩
      · exact ih _ ⟨x, htail, hbad⟩

/-- `Grants` never returns grants together with an error. -/
theorem permissionGrants_error_no_grants (env : Env σ) (o : permissionBuilder)
    (resource : Resource) (w : World σ)
    (h : (o.Grants env resource w).1.err ≠ none) : (o.Grants env resource w).1.grants = [] := by
  unfold permissionBuilder.Grants at h ⊢
  rcases h1 : o.loadPermissionsCache env w with ⟨⟨a1, e1⟩, o1, w1⟩
  cases e1 with
  | some err => rfl
  | none =>
    simp only [h1] at h ⊢
    cases h2 : GoMap.get? (o1.permissionsCache.getD []) resource.Id.Resource with
    | none => rfl
    | some permission =>
      simp only [h2] at h ⊢
      rcases h3 : o1.connector.cacheUsers env w1 with ⟨⟨a2, e2⟩, c2, w2⟩
      cases e2 with
      | some err => rfl
      | none =>
        simp only [h3] at h ⊢
        rcases h4 : permissionBuilder.loadGroupsCache env { o1 with connector := c2 } w2
          with ⟨⟨a3, e3⟩, o3, w3⟩
        cases e3 with
        | some err => rfl
        | none =>
          simp only [h4] at h ⊢
          cases h5 : grantsLoop resource o3.connector.cachedUsers o3.cachedGroups
              permission.Subjects [] with
          | error err => rfl
          | ok grants => simp [h5] at h

/-- C15 (dangling references are hard errors). In `permissionBuilder.Grants`, with the
caches as the three loads leave them: if the permission UUID is not a key of the
permission cache, or some User subject's UUID is not a key of the user cache, or some
UserGroup subject's UUID is not a key of the group-id cache, then `Grants` returns a
non-nil error and no grant at all. -/
theorem permissionGrants_dangling (env : Env σ) (o : permissionBuilder) (resource : Resource)
    (w : World σ) :
    (∀ a1 o1 w1, o.loadPermissionsCache env w = (⟨a1, none⟩, o1, w1) →
      GoMap.get? (o1.permissionsCache.getD []) resource.Id.Resource = none →
      (o.Grants env resource w).1.err ≠ none ∧ (o.Grants env resource w).1.grants = []) ∧
    (∀ a1 o1 w1 permission a2 c2 w2 a3 o3 w3,
      o.loadPermissionsCache env w = (⟨a1, none⟩, o1, w1) →
      GoMap.get? (o1.permissionsCache.getD []) resource.Id.Resource = some permission →
      o1.connector.cacheUsers env w1 = (⟨a2, none⟩, c2, w2) →
      permissionBuilder.loadGroupsCache env { o1 with connector := c2 } w2 =
        (⟨a3, none⟩, o3, w3) →
      (∃ subject ∈ permission.Subjects,
        (subject.Type_ = "User" ∧
          GoMap.get? (o3.connector.cachedUsers.getD []) subject.UUID.String = none) ∨
        (subject.Type_ = "UserGroup" ∧
          GoMap.get? (o3.cachedGroups.getD []) subject.UUID.String = none)) →
      (o.Grants env resource w).1.err ≠ none ∧ (o.Grants env resource w).1.grants = []) := by
  refine ⟨fun a1 o1 w1 h1 h2 => ?_,
    fun a1 o1 w1 permission a2 c2 w2 a3 o3 w3 h1 h2 h3 h4 hbad => ?_⟩
  · simp [permissionBuilder.Grants, h1, h2]
  · obtain ⟨err, h5⟩ := grantsLoop_of_dangling resource o3.connector.cachedUsers o3.cachedGroups
      permission.Subjects [] hbad
    simp [permissionBuilder.Grants, h1, h2, h3, h4, h5]

/-- C15 at concrete inputs: the subject of Carol's permission renders to a text that
is not a key of the user cache (the upstream spells her UUID in upper case); `Grants`
returns the lookup error and no grant. -/
theorem permissionGrants_dangling_witness :
    (∃ subject ∈ carolPermission.Subjects,
      (subject.Type_ = "User" ∧
        GoMap.get? (carolGrants.2.1.connector.cachedUsers.getD []) subject.UUID.String = none) ∨
      (subject.Type_ = "UserGroup" ∧
        GoMap.get? (carolGrants.2.1.cachedGroups.getD []) subject.UUID.String = none)) ∧
    (carolGrants.1.err ≠ none ∧ carolGrants.1.grants = []) :=
  ⟨⟨carolSubject, by decide, Or.inl (by decide)⟩,
    (permissionGrants_dangling tenable emptyPermissionBuilder
      (resourceOf "permission" (uuidOf 2).String) ⟨demoCarol, []⟩).2
      [] (emptyPermissionBuilder.loadPermissionsCache tenable ⟨demoCarol, []⟩).2.1
      (emptyPermissionBuilder.loadPermissionsCache tenable ⟨demoCarol, []⟩).2.2
      carolPermission [] carolGrants.2.1.connector
      ⟨demoCarol, [.ListPermissions, .GetUsers]⟩ [] carolGrants.2.1 carolGrants.2.2
      (by decide) (by decide) (by decide) (by decide)
      ⟨carolSubject, by decide, Or.inl (by decide)⟩⟩

end PermissionGrants

section CreateAccount

variable {σ γ : Type}

/-- C16 (account creation). Without a string-valued `email`, or without a
string-valued `name`, `CreateAccount` returns an error, generates no credential and
makes no upstream call. With both, a failed credential generation is returned without
an upstream call; with password `pw` generated, the one upstream call is the creation
whose payload has Username = Email = the profile email, Name = the profile name,
Permissions = 16 and Password = `pw`, and on success the secrets returned are the
single entry named "password" whose bytes are `pw`. The creation is made on the
upstream: the upstream after `CreateAccount` is the one the create endpoint leaves, an
error of that endpoint is returned wrapped, and on its success the resource returned
is the resource of the user the endpoint answered. -/
theorem createAccount_spec (env : Env σ) (uni : Unicode) (gen : Generator γ)
    (accountInfo : AccountInfo) (credentialOptions : CredentialOptions) (w : World σ)
    (g : GenWorld γ) :
    ((∀ email, GoMap.get? accountInfo.Profile "email" ≠ some (.str email)) →
      (userBuilder.CreateAccount env uni gen accountInfo credentialOptions w g).1.err ≠ none ∧
      (userBuilder.CreateAccount env uni gen accountInfo credentialOptions w g).2 = (w, g)) ∧
    ((∀ name, GoMap.get? accountInfo.Profile "name" ≠ some (.str name)) →
      (userBuilder.CreateAccount env uni gen accountInfo credentialOptions w g).1.err ≠ none ∧
      (userBuilder.CreateAccount env uni gen accountInfo credentialOptions w g).2 = (w, g)) ∧
    (∀ email name, GoMap.get? accountInfo.Profile "email" = some (.str email) →
      GoMap.get? accountInfo.Profile "name" = some (.str name) →
      (∀ err g1, generateCredentials uni gen credentialOptions g = (.error err, g1) →
        userBuilder.CreateAccount env uni gen accountInfo credentialOptions w g =
          (⟨none, [], [], some err⟩, w, g1)) ∧
      (∀ pw g1, generateCredentials uni gen credentialOptions g = (.ok pw, g1) →
        (userBuilder.CreateAccount env uni gen accountInfo credentialOptions w g).2.1.calls =
          w.calls ++ [Call.CreateUser
            { Username := email, Password := pw, Email := email, Name := name,
              Permissions := 16 }] ∧
        ((userBuilder.CreateAccount env uni gen accountInfo credentialOptions w g).1.err = none →
          (userBuilder.CreateAccount env uni gen accountInfo credentialOptions w g).1.plaintexts =
            [{ Name := "password", Bytes := pw }] ∧
          (userBuilder.CreateAccount env uni gen accountInfo credentialOptions w g).1.resource.isSome
            = true) ∧
        (userBuilder.CreateAccount env uni gen accountInfo credentialOptions w g).2.1.ext =
          (env.createUser
            { Username := email, Password := pw, Email := email, Name := name,
              Permissions := 16 } w.ext).2 ∧
        (userBuilder.CreateAccount env uni gen accountInfo credentialOptions w g).2.2 = g1 ∧
        (∀ e s, env.createUser
            { Username := email, Password := pw, Email := email, Name := name,
              Permissions := 16 } w.ext = (.error e, s) →
          (userBuilder.CreateAccount env uni gen accountInfo credentialOptions w g).1 =
            ⟨none, [], [], some ("failed to create user: " ++ ("error creating user: " ++ e))⟩) ∧
        (∀ createdUser s, env.createUser
            { Username := email, Password := pw, Email := email, Name := name,
              Permissions := 16 } w.ext = (.ok createdUser, s) →
          ∃ userResource, parseIntoUserResource createdUser none = .ok userResource ∧
            (userBuilder.CreateAccount env uni gen accountInfo credentialOptions w g).1 =
              ⟨some userResource, [{ Name := "password", Bytes := pw }], [], none⟩))) := by
  refine ⟨fun hemail => ?_, fun hname => ?_, fun email name hemail hname => ⟨?_, ?_⟩⟩
  · rcases h : GoMap.get? accountInfo.Profile "email" with _ | v
    · simp [userBuilder.CreateAccount, h]
    · cases v with
      | str email => exact absurd h (hemail email)
      | int n => simp [userBuilder.CreateAccount, h]
  · rcases h : GoMap.get? accountInfo.Profile "name" with _ | v
    · rcases he : GoMap.get? accountInfo.Profile "email" with _ | v
      · simp [userBuilder.CreateAccount, he]
      · cases v <;> simp [userBuilder.CreateAccount, h, he]
    · cases v with
      | str name => exact absurd h (hname name)
      | int n =>
        rcases he : GoMap.get? accountInfo.Profile "email" with _ | v
        · simp [userBuilder.CreateAccount, he]
        · cases v <;> simp [userBuilder.CreateAccount, h, he]
  · intro err g1 hgen
    simp [userBuilder.CreateAccount, hemail, hname, hgen]
  · intro pw g1 hgen
    rcases hcreate : env.createUser
      { Username := email, Password := pw, Email := email, Name := name,
        Permissions := 16 } w.ext with ⟨r, s⟩
    cases r <;>
      simp [userBuilder.CreateAccount, hemail, hname, hgen, TenableVMClient.CreateUser, hcreate,
        World.record, BasicUserRole, parseIntoUserResource]

/-- C16 at concrete inputs: for Dave, with the generator handing out "Abcdefgh1!xy",
the payload carries that password and it is the one secret returned, and the upstream
ends with a fourth user, whose resource is returned; with a numeric email nothing is
generated and nothing is sent. -/
theorem createAccount_spec_witness :
    (GoMap.get? daveProfile.Profile "email" = some (.str "dave@example.com") ∧
      GoMap.get? daveProfile.Profile "name" = some (.str "Dave D") ∧
      generateCredentials unicodeASCII scripted ⟨some ⟨12⟩⟩ ⟨["Abcdefgh1!xy"], []⟩ =
        (.ok "Abcdefgh1!xy", ⟨[], [(12, .ok "Abcdefgh1!xy")]⟩)) ∧
    ((userBuilder.CreateAccount tenable unicodeASCII scripted daveProfile ⟨some ⟨12⟩⟩ ⟨demo, []⟩
        ⟨["Abcdefgh1!xy"], []⟩).2.1.calls =
        [] ++ [Call.CreateUser
          { Username := "dave@example.com", Password := "Abcdefgh1!xy",
            Email := "dave@example.com", Name := "Dave D", Permissions := 16 }] ∧
      ((userBuilder.CreateAccount tenable unicodeASCII scripted daveProfile ⟨some ⟨12⟩⟩
          ⟨demo, []⟩ ⟨["Abcdefgh1!xy"], []⟩).1.err = none →
        (userBuilder.CreateAccount tenable unicodeASCII scripted daveProfile ⟨some ⟨12⟩⟩
          ⟨demo, []⟩ ⟨["Abcdefgh1!xy"], []⟩).1.plaintexts =
          [{ Name := "password", Bytes := "Abcdefgh1!xy" }] ∧
        (userBuilder.CreateAccount tenable unicodeASCII scripted daveProfile ⟨some ⟨12⟩⟩
          ⟨demo, []⟩ ⟨["Abcdefgh1!xy"], []⟩).1.resource.isSome = true) ∧
      (userBuilder.CreateAccount tenable unicodeASCII scripted daveProfile ⟨some ⟨12⟩⟩
        ⟨demo, []⟩ ⟨["Abcdefgh1!xy"], []⟩).2.1.ext =
        (tenable.createUser
          { Username := "dave@example.com", Password := "Abcdefgh1!xy",
            Email := "dave@example.com", Name := "Dave D", Permissions := 16 }
          (⟨demo, []⟩ : World Tenable).ext).2 ∧
      (userBuilder.CreateAccount tenable unicodeASCII scripted daveProfile ⟨some ⟨12⟩⟩
        ⟨demo, []⟩ ⟨["Abcdefgh1!xy"], []⟩).2.2 = ⟨[], [(12, .ok "Abcdefgh1!xy")]⟩ ∧
      (∀ e s, tenable.createUser
          { Username := "dave@example.com", Password := "Abcdefgh1!xy",
            Email := "dave@example.com", Name := "Dave D", Permissions := 16 }
          (⟨demo, []⟩ : World Tenable).ext = (.error e, s) →
        (userBuilder.CreateAccount tenable unicodeASCII scripted daveProfile ⟨some ⟨12⟩⟩
          ⟨demo, []⟩ ⟨["Abcdefgh1!xy"], []⟩).1 =
          ⟨none, [], [], some ("failed to create user: " ++ ("error creating user: " ++ e))⟩) ∧
      (∀ createdUser s, tenable.createUser
          { Username := "dave@example.com", Password := "Abcdefgh1!xy",
            Email := "dave@example.com", Name := "Dave D", Permissions := 16 }
          (⟨demo, []⟩ : World Tenable).ext = (.ok createdUser, s) →
        ∃ userResource, parseIntoUserResource createdUser none = .ok userResource ∧
          (userBuilder.CreateAccount tenable unicodeASCII scripted daveProfile ⟨some ⟨12⟩⟩
            ⟨demo, []⟩ ⟨["Abcdefgh1!xy"], []⟩).1 =
            ⟨some userResource, [{ Name := "password", Bytes := "Abcdefgh1!xy" }], [], none⟩)) ∧
    (userBuilder.CreateAccount tenable unicodeASCII scripted daveProfile ⟨some ⟨12⟩⟩ ⟨demo, []⟩
      ⟨["Abcdefgh1!xy"], []⟩).1.err = none ∧
    (userBuilder.CreateAccount tenable unicodeASCII scripted daveProfile ⟨some ⟨12⟩⟩ ⟨demo, []⟩
      ⟨["Abcdefgh1!xy"], []⟩).2.1.ext.users.map (fun u => u.Email) =
      ["Alice A", "Bob", "Carol", "dave@example.com"] ∧
    ((userBuilder.CreateAccount tenable unicodeASCII scripted daveProfile ⟨some ⟨12⟩⟩ ⟨demo, []⟩
      ⟨["Abcdefgh1!xy"], []⟩).1.resource.map (fun r => r.Id)) = some ⟨"user", "4"⟩ ∧
    ((userBuilder.CreateAccount tenable unicodeASCII scripted badProfile ⟨some ⟨12⟩⟩ ⟨demo, []⟩
        ⟨["Abcdefgh1!xy"], []⟩).1.err ≠ none ∧
      (userBuilder.CreateAccount tenable unicodeASCII scripted badProfile ⟨some ⟨12⟩⟩ ⟨demo, []⟩
        ⟨["Abcdefgh1!xy"], []⟩).2 = (⟨demo, []⟩, ⟨["Abcdefgh1!xy"], []⟩)) :=
  ⟨⟨by decide, by decide, rfl⟩,
    ((createAccount_spec tenable unicodeASCII scripted daveProfile ⟨some ⟨12⟩⟩ ⟨demo, []⟩
      ⟨["Abcdefgh1!xy"], []⟩).2.2 "dave@example.com" "Dave D" (by decide) (by decide)).2
      "Abcdefgh1!xy" ⟨[], [(12, .ok "Abcdefgh1!xy")]⟩ rfl,
    by decide, by decide, by decide,
    (createAccount_spec tenable unicodeASCII scripted badProfile ⟨some ⟨12⟩⟩ ⟨demo, []⟩
      ⟨["Abcdefgh1!xy"], []⟩).1 (fun email => by
        rw [show GoMap.get? badProfile.Profile "email" = some (.int 7) from by decide]
        simp)⟩

end CreateAccount

section PermissionGrantPayload

variable {σ : Type}

/-- When the user's UUID text parses to a UUID no subject has, no subject renders to
that text, so the scan of `Grant` and of `Revoke` finds nothing. -/
theorem subject_scan_of_parse (subjects : List TenableObject) (text : String) (uuid : UUID)
    (hparse : Parse text = .ok uuid) (hnew : ∀ subject ∈ subjects, subject.UUID ≠ uuid) :
    subjects.any (fun subject => decide (subject.UUID.String = text)) = false := by
  rw [List.any_eq_false]
  intro subject hmem h
  have heq : subject.UUID.String = text := by simpa using h
  rw [← heq, Parse_String] at hparse
  exact hnew subject hmem (Except.ok.inj hparse)

/-- A UUID text that does not parse is the rendering of no subject's UUID, so the scan
of `Grant` finds nothing. -/
theorem subject_scan_of_parse_error (subjects : List TenableObject) (text : String)
    (err : GoError) (hparse : Parse text = .error err) :
    subjects.any (fun subject => decide (subject.UUID.String = text)) = false := by
  rw [List.any_eq_false]
  intro subject _ h
  have heq : subject.UUID.String = text := by simpa using h
  rw [← heq, Parse_String] at hparse
  cases hparse

/-- C17 as stated fails for a user whose UUID text is not a UUID: Dave's text is the
rendering of no subject of the scan permission, yet granting it to him sends no
update; `Grant` returns the parse error after its two reads. -/
theorem permissionGrant_unparseable_uuid :
    tenable.getPermission (uuidOf 1).String demoDave = (.ok scanPermission, demoDave) ∧
    tenable.getUser "404" demoDave = (.ok dave, demoDave) ∧
    (∀ subject ∈ scanPermission.Subjects, subject.UUID.String ≠ dave.UUID) ∧
    (Parse dave.UUID).toOption = none ∧
    (permissionBuilder.Grant tenable (resourceOf "user" "404")
      (entitlementOf "permission" (uuidOf 1).String "assigned") ⟨demoDave, []⟩).1.err ≠ none ∧
    (permissionBuilder.Grant tenable (resourceOf "user" "404")
      (entitlementOf "permission" (uuidOf 1).String "assigned") ⟨demoDave, []⟩).2.calls =
      [.GetPermissionDetails (uuidOf 1).String, .GetUserDetails "404"] ∧
    mutatingCalls (permissionBuilder.Grant tenable (resourceOf "user" "404")
      (entitlementOf "permission" (uuidOf 1).String "assigned") ⟨demoDave, []⟩).2.calls = 0 ∧
    (permissionBuilder.Grant tenable (resourceOf "user" "404")
      (entitlementOf "permission" (uuidOf 1).String "assigned") ⟨demoDave, []⟩).2.ext =
      demoDave := by
  decide

/-- C17, amended (payload of a permission grant). For every fetched permission and
every fetched user: when the user's UUID text parses to a UUID that is the UUID of none
of the permission's subjects, `Grant` makes, after its two reads, exactly one call
that changes the upstream: the update of that permission whose Subjects are the
fetched subjects, in their order and unchanged, followed by the one new subject of
type "User" with the user's name and UUID, whose Name and Actions are the fetched ones
and whose Objects are the fetched objects after `parseTagNames`. It does not report
GrantAlreadyExists; the upstream after `Grant` is the one the update endpoint leaves,
and the error of `Grant` is the error of that endpoint, wrapped. When the user's UUID
text does not parse, `Grant` returns the parse error after its two reads and sends no
update. -/
theorem permissionGrant_payload (env : Env σ) (principal : Resource)
    (entitlement : Entitlement) (w : World σ) (permission : Permission) (s1 : σ) (user : User)
    (s2 : σ) (hty : principal.Id.ResourceType = userResourceTypeId)
    (hp : env.getPermission entitlement.Resource.Id.Resource w.ext = (.ok permission, s1))
    (hu : env.getUser principal.Id.Resource s1 = (.ok user, s2)) :
    (∀ uuid, Parse user.UUID = .ok uuid →
      (∀ subject ∈ permission.Subjects, subject.UUID ≠ uuid) →
      ∃ body : PermissionUpdateBody,
        (permissionBuilder.Grant env principal entitlement w).2.calls =
          w.calls ++ [.GetPermissionDetails entitlement.Resource.Id.Resource,
            .GetUserDetails principal.Id.Resource,
            .UpdatePermission permission.UUID.String body] ∧
        mutatingCalls (permissionBuilder.Grant env principal entitlement w).2.calls =
          mutatingCalls w.calls + 1 ∧
        body.Subjects =
          permission.Subjects ++ [{ Type_ := "User", Name := user.Name, UUID := uuid }] ∧
        body.Subjects.take permission.Subjects.length = permission.Subjects ∧
        body.Subjects.length = permission.Subjects.length + 1 ∧
        body.Name = permission.Name ∧
        body.Actions = permission.Actions ∧
        body.Objects = parseTagNames permission.Objects ∧
        (permissionBuilder.Grant env principal entitlement w).1.annos = [] ∧
        (permissionBuilder.Grant env principal entitlement w).2.ext =
          (env.updatePermission permission.UUID.String body s2).2 ∧
        (permissionBuilder.Grant env principal entitlement w).1.err =
          (env.updatePermission permission.UUID.String body s2).1.map
            (fun err => "failed to update permission " ++ err)) ∧
    (∀ err, Parse user.UUID = .error err →
      permissionBuilder.Grant env principal entitlement w =
        (⟨[], some ("error while parsing user uuid " ++ err)⟩,
          ⟨s2, w.calls ++ [.GetPermissionDetails entitlement.Resource.Id.Resource,
            .GetUserDetails principal.Id.Resource]⟩) ∧
      mutatingCalls (permissionBuilder.Grant env principal entitlement w).2.calls =
        mutatingCalls w.calls) := by
  refine ⟨fun uuid hparse hnew => ?_, fun err hparse => ?_⟩
  · have hs := subject_scan_of_parse permission.Subjects user.UUID uuid hparse hnew
    have h := permissionGrant_of_no_subject env principal entitlement w permission s1 user s2
      uuid hty hp hu hs hparse
    have hfull := permissionGrant_of_update env principal entitlement w permission s1 user s2
      uuid hty hp hu hs hparse
    refine ⟨_, h.1, ?_, rfl, ?_, ?_, rfl, rfl, rfl, h.2, ?_, ?_⟩
    · rw [h.1]
      simp [mutatingCalls, Call.isMutating, List.filter_append]
    · simp
    · simp
    · rw [hfull]
      rcases env.updatePermission permission.UUID.String
        { Name := permission.Name, Actions := permission.Actions,
          Objects := parseTagNames permission.Objects,
          Subjects := permission.Subjects ++
            [{ Type_ := subjectTypeUser, Name := user.Name, UUID := uuid }] } s2 with ⟨e, s3⟩
      cases e <;> rfl
    · rw [hfull]
      rcases env.updatePermission permission.UUID.String
        { Name := permission.Name, Actions := permission.Actions,
          Objects := parseTagNames permission.Objects,
          Subjects := permission.Subjects ++
            [{ Type_ := subjectTypeUser, Name := user.Name, UUID := uuid }] } s2 with ⟨e, s3⟩
      cases e <;> rfl
  · have hs := subject_scan_of_parse_error permission.Subjects user.UUID err hparse
    have h := permissionGrant_of_bad_uuid env principal entitlement w permission s1 user s2 err
      hty hp hu hs hparse
    refine ⟨h, ?_⟩
    rw [h]
    simp [mutatingCalls, Call.isMutating, List.filter_append]

/-- C17 at concrete inputs: granting the scan permission, held by Alice, to Bob sends
one update whose subjects are Alice then Bob and whose tag object is renamed, and the
upstream ends with both as subjects; granting it to Dave, whose UUID text does not
parse, sends nothing. -/
theorem permissionGrant_payload_witness :
    (Parse bob.UUID = .ok (uuidOf 202) ∧
      (∀ subject ∈ scanPermission.Subjects, subject.UUID ≠ uuidOf 202) ∧
      ∃ body : PermissionUpdateBody,
        (permissionBuilder.Grant tenable (resourceOf "user" "202")
          (entitlementOf "permission" (uuidOf 1).String "assigned") ⟨demo, []⟩).2.calls =
          [] ++ [.GetPermissionDetails (uuidOf 1).String, .GetUserDetails "202",
            .UpdatePermission scanPermission.UUID.String body] ∧
        mutatingCalls (permissionBuilder.Grant tenable (resourceOf "user" "202")
          (entitlementOf "permission" (uuidOf 1).String "assigned") ⟨demo, []⟩).2.calls =
          mutatingCalls [] + 1 ∧
        body.Subjects =
          scanPermission.Subjects ++
            [{ Type_ := "User", Name := bob.Name, UUID := uuidOf 202 }] ∧
        body.Subjects.take scanPermission.Subjects.length = scanPermission.Subjects ∧
        body.Subjects.length = scanPermission.Subjects.length + 1 ∧
        body.Name = scanPermission.Name ∧
        body.Actions = scanPermission.Actions ∧
        body.Objects = parseTagNames scanPermission.Objects ∧
        (permissionBuilder.Grant tenable (resourceOf "user" "202")
          (entitlementOf "permission" (uuidOf 1).String "assigned") ⟨demo, []⟩).1.annos = [] ∧
        (permissionBuilder.Grant tenable (resourceOf "user" "202")
          (entitlementOf "permission" (uuidOf 1).String "assigned") ⟨demo, []⟩).2.ext =
          (tenable.updatePermission scanPermission.UUID.String body demo).2 ∧
        (permissionBuilder.Grant tenable (resourceOf "user" "202")
          (entitlementOf "permission" (uuidOf 1).String "assigned") ⟨demo, []⟩).1.err =
          (tenable.updatePermission scanPermission.UUID.String body demo).1.map
            (fun err => "failed to update permission " ++ err)) ∧
    ((permissionBuilder.Grant tenable (resourceOf "user" "202")
      (entitlementOf "permission" (uuidOf 1).String "assigned") ⟨demo, []⟩).2.ext.findPermission
        (uuidOf 1).String).map (fun p => p.Subjects.map (fun subject => subject.Name)) =
      some ["Alice A", "Bob"] ∧
    (Parse dave.UUID = .error "invalid UUID format" ∧
      permissionBuilder.Grant tenable (resourceOf "user" "404")
        (entitlementOf "permission" (uuidOf 1).String "assigned") ⟨demoDave, []⟩ =
        (⟨[], some ("error while parsing user uuid " ++ "invalid UUID format")⟩,
          ⟨demoDave, [] ++ [.GetPermissionDetails (uuidOf 1).String, .GetUserDetails "404"]⟩) ∧
      mutatingCalls (permissionBuilder.Grant tenable (resourceOf "user" "404")
        (entitlementOf "permission" (uuidOf 1).String "assigned") ⟨demoDave, []⟩).2.calls =
        mutatingCalls []) :=
  ⟨⟨by decide, by decide,
      (permissionGrant_payload tenable (resourceOf "user" "202")
        (entitlementOf "permission" (uuidOf 1).String "assigned") ⟨demo, []⟩ scanPermission demo
        bob demo (by decide) (by decide) (by decide)).1 (uuidOf 202) (by decide) (by decide)⟩,
    by decide,
    ⟨by decide,
      (permissionGrant_payload tenable (resourceOf "user" "404")
        (entitlementOf "permission" (uuidOf 1).String "assigned") ⟨demoDave, []⟩ scanPermission
        demoDave dave demoDave (by decide) (by decide) (by decide)).2 "invalid UUID format"
        (by decide)⟩⟩

end PermissionGrantPayload

section PermissionRevokeDecision

variable {σ : Type}

/-- The decision of `permissionBuilder.Revoke` for a user whose UUID text is the
canonical rendering of `uuid`: GrantAlreadyRevoked and no update exactly when no
subject has that UUID; otherwise one update whose subjects are the fetched ones
without those of that UUID, the others in their order. -/
theorem permissionRevoke_decision_canonical (env : Env σ) (grant : TenableVM.Grant)
    (w : World σ) (permission : Permission) (s1 : σ) (user : User) (s2 : σ) (uuid : UUID)
    (hty : grant.Principal.Id.ResourceType = userResourceTypeId)
    (hp : env.getPermission grant.Entitlement.Resource.Id.Resource w.ext = (.ok permission, s1))
    (hu : env.getUser grant.Principal.Id.Resource s1 = (.ok user, s2))
    (hcanon : user.UUID = uuid.String) :
    ((∀ subject ∈ permission.Subjects, subject.UUID ≠ uuid) →
      permissionBuilder.Revoke env grant w =
        (⟨[.GrantAlreadyRevoked], none⟩,
          ⟨s2, w.calls ++ [.GetPermissionDetails grant.Entitlement.Resource.Id.Resource,
            .GetUserDetails grant.Principal.Id.Resource]⟩)) ∧
    ((∃ subject ∈ permission.Subjects, subject.UUID = uuid) →
      (permissionBuilder.Revoke env grant w).2.calls =
        w.calls ++ [.GetPermissionDetails grant.Entitlement.Resource.Id.Resource,
          .GetUserDetails grant.Principal.Id.Resource,
          .UpdatePermission permission.UUID.String
            { Name := permission.Name, Actions := permission.Actions,
              Objects := parseTagNames permission.Objects,
              Subjects := permission.Subjects.filter (fun obj => !decide (obj.UUID = uuid)) }] ∧
      (permissionBuilder.Revoke env grant w).1.annos = []) := by
  have hparse : Parse user.UUID = .ok uuid := by rw [hcanon, Parse_String]
  constructor
  · intro hnew
    exact permissionRevoke_of_no_subject env grant w permission s1 user s2 hty hp hu
      (subject_scan_of_parse permission.Subjects user.UUID uuid hparse hnew)
  · intro hex
    have hs : permission.Subjects.any
        (fun subject => decide (subject.UUID.String = user.UUID)) = true := by
      rw [hcanon]
      exact (subject_scan_iff permission.Subjects uuid).2 hex
    have h := permissionRevoke_of_update env grant w permission s1 user s2 uuid hty hp hu hs hparse
    rw [h]
    rcases env.updatePermission permission.UUID.String
      { Name := permission.Name, Actions := permission.Actions,
        Objects := parseTagNames permission.Objects,
        Subjects := permission.Subjects.filter (fun obj => !decide (obj.UUID = uuid)) } s2
      with ⟨e, s3⟩
    cases e <;> simp

/-- C18 fails in the code for UUID texts that parse without being canonical. For every
fetched permission and every fetched user whose UUID text parses to `uuid` but is not
the text `String` prints for it (upper-case digits, braces, a urn prefix), `Revoke`
reports GrantAlreadyRevoked and sends no update even when a subject has UUID `uuid`:
the subject of that UUID is not removed. -/
theorem permissionRevoke_decision_noncanonical (env : Env σ) (grant : TenableVM.Grant)
    (w : World σ) (permission : Permission) (s1 : σ) (user : User) (s2 : σ) (uuid : UUID)
    (hty : grant.Principal.Id.ResourceType = userResourceTypeId)
    (hp : env.getPermission grant.Entitlement.Resource.Id.Resource w.ext = (.ok permission, s1))
    (hu : env.getUser grant.Principal.Id.Resource s1 = (.ok user, s2))
    (hparse : Parse user.UUID = .ok uuid) (hform : user.UUID ≠ uuid.String)
    (hex : ∃ subject ∈ permission.Subjects, subject.UUID = uuid) :
    (∃ subject ∈ permission.Subjects, subject.UUID = uuid) ∧
    permissionBuilder.Revoke env grant w =
      (⟨[.GrantAlreadyRevoked], none⟩,
        ⟨s2, w.calls ++ [.GetPermissionDetails grant.Entitlement.Resource.Id.Resource,
          .GetUserDetails grant.Principal.Id.Resource]⟩) ∧
    mutatingCalls (permissionBuilder.Revoke env grant w).2.calls = mutatingCalls w.calls := by
  have hs : permission.Subjects.any
      (fun subject => decide (subject.UUID.String = user.UUID)) = false := by
    rw [List.any_eq_false]
    intro subject _ h
    have heq : subject.UUID.String = user.UUID := by simpa using h
    have h2 := hparse
    rw [← heq, Parse_String] at h2
    exact hform (by rw [← heq, Except.ok.inj h2])
  have h := permissionRevoke_of_no_subject env grant w permission s1 user s2 hty hp hu hs
  refine ⟨hex, h, ?_⟩
  rw [h]
  simp [mutatingCalls, Call.isMutating, List.filter_append]

/-- C18 at its failing input: Carol, whose UUID the upstream spells in upper case, is
the second subject of the shared permission; revoking it from her reports
GrantAlreadyRevoked, sends no update, and leaves both subjects in place. -/
theorem permissionRevoke_decision_noncanonical_witness :
    ((∃ subject ∈ sharedPermission.Subjects, subject.UUID = uuidOf 204) ∧
      permissionBuilder.Revoke tenable (grantOf "permission" (uuidOf 4).String "assigned" "303")
        ⟨demoShared, []⟩ =
        (⟨[.GrantAlreadyRevoked], none⟩,
          ⟨demoShared, [] ++ [.GetPermissionDetails (uuidOf 4).String, .GetUserDetails "303"]⟩) ∧
      mutatingCalls (permissionBuilder.Revoke tenable
        (grantOf "permission" (uuidOf 4).String "assigned" "303") ⟨demoShared, []⟩).2.calls =
        mutatingCalls []) ∧
    ((permissionBuilder.Revoke tenable (grantOf "permission" (uuidOf 4).String "assigned" "303")
      ⟨demoShared, []⟩).2.ext.findPermission (uuidOf 4).String).map (fun p => p.Subjects) =
      some [{ Type_ := "User", UUID := uuidOf 101, Name := "Alice A" }, carolSubject] :=
  ⟨permissionRevoke_decision_noncanonical tenable
    (grantOf "permission" (uuidOf 4).String "assigned" "303") ⟨demoShared, []⟩ sharedPermission
    demoShared carol demoShared (uuidOf 204) (by decide) (by decide) (by decide) (by decide)
    (by decide) (by decide), by decide⟩

end PermissionRevokeDecision

section RoleDecision

variable {σ : Type}

/-- C19 (role grant). With the user and the user's current roles fetched live: if the
role id is among them, `Grant` returns GrantAlreadyExists after the two reads and
issues no update; otherwise it issues exactly one call that changes the upstream, the
set-roles call for the user's UUID whose role list is the one-element list of the role
id, whatever roles `userRoles` holds. That call is made on the upstream as the reads
left it: the upstream after `Grant` is the one the set-roles endpoint leaves, and the
error of `Grant` is the error of that endpoint, wrapped. -/
theorem roleGrant_decision (env : Env σ) (principal : Resource) (entitlement : Entitlement)
    (w : World σ) (user : User) (s1 : σ) (userRoles : UserRole) (s2 : σ)
    (hu : env.getUser principal.Id.Resource w.ext = (.ok user, s1))
    (hr : env.getUserRoles user.UUID s1 = (.ok userRoles, s2)) :
    (entitlement.Resource.Id.Resource ∈ userRoles.RolesUUID →
      roleBuilder.Grant env principal entitlement w =
        (⟨[.GrantAlreadyExists], none⟩,
          ⟨s2, w.calls ++ [.GetUserDetails principal.Id.Resource, .GetUserRoles user.UUID]⟩) ∧
      mutatingCalls (roleBuilder.Grant env principal entitlement w).2.calls =
        mutatingCalls w.calls) ∧
    (entitlement.Resource.Id.Resource ∉ userRoles.RolesUUID →
      (roleBuilder.Grant env principal entitlement w).2.calls =
        w.calls ++ [.GetUserDetails principal.Id.Resource, .GetUserRoles user.UUID,
          .UpdateUserRoles user.UUID { RolesUUIDs := [entitlement.Resource.Id.Resource] }] ∧
      mutatingCalls (roleBuilder.Grant env principal entitlement w).2.calls =
        mutatingCalls w.calls + 1 ∧
      (roleBuilder.Grant env principal entitlement w).1.annos = [] ∧
      (roleBuilder.Grant env principal entitlement w).2.ext =
        (env.setUserRoles user.UUID
          { RolesUUIDs := [entitlement.Resource.Id.Resource] } s2).2 ∧
      (roleBuilder.Grant env principal entitlement w).1.err =
        (env.setUserRoles user.UUID
          { RolesUUIDs := [entitlement.Resource.Id.Resource] } s2).1.map
          (fun err => "error updating user role: " ++ err)) := by
  constructor
  · intro hmem
    have h := roleGrant_of_role env principal entitlement w user s1 userRoles s2 hu hr
      (by simpa using hmem)
    refine ⟨h, ?_⟩
    rw [h]
    simp [mutatingCalls, Call.isMutating, List.filter_append]
  · intro hmem
    have h := roleGrant_of_no_role env principal entitlement w user s1 userRoles s2 hu hr
      (by simpa using hmem)
    rw [h]
    rcases env.setUserRoles user.UUID { RolesUUIDs := [entitlement.Resource.Id.Resource] } s2
      with ⟨e, s3⟩
    cases e <;> simp [mutatingCalls, Call.isMutating, List.filter_append]

/-- C19 at concrete inputs: Alice holds role r1. Granting r1 again is reported as
existing; granting r2 sends the one-element list of r2, without r1, and the upstream
ends with r2 as her only role. -/
theorem roleGrant_decision_witness :
    ("r1" ∈ (⟨"", alice.UUID, ["r1"]⟩ : UserRole).RolesUUID ∧
      roleBuilder.Grant tenable (resourceOf "user" "101") (entitlementOf "role" "r1" "assigned")
        ⟨demo, []⟩ =
        (⟨[.GrantAlreadyExists], none⟩,
          ⟨demo, [] ++ [.GetUserDetails "101", .GetUserRoles alice.UUID]⟩) ∧
      mutatingCalls (roleBuilder.Grant tenable (resourceOf "user" "101")
        (entitlementOf "role" "r1" "assigned") ⟨demo, []⟩).2.calls = mutatingCalls []) ∧
    ("r2" ∉ (⟨"", alice.UUID, ["r1"]⟩ : UserRole).RolesUUID ∧
      (roleBuilder.Grant tenable (resourceOf "user" "101") (entitlementOf "role" "r2" "assigned")
        ⟨demo, []⟩).2.calls =
        [] ++ [.GetUserDetails "101", .GetUserRoles alice.UUID,
          .UpdateUserRoles alice.UUID { RolesUUIDs := ["r2"] }] ∧
      mutatingCalls (roleBuilder.Grant tenable (resourceOf "user" "101")
        (entitlementOf "role" "r2" "assigned") ⟨demo, []⟩).2.calls = mutatingCalls [] + 1 ∧
      (roleBuilder.Grant tenable (resourceOf "user" "101") (entitlementOf "role" "r2" "assigned")
        ⟨demo, []⟩).1.annos = [] ∧
      (roleBuilder.Grant tenable (resourceOf "user" "101") (entitlementOf "role" "r2" "assigned")
        ⟨demo, []⟩).2.ext = (tenable.setUserRoles alice.UUID { RolesUUIDs := ["r2"] } demo).2 ∧
      (roleBuilder.Grant tenable (resourceOf "user" "101") (entitlementOf "role" "r2" "assigned")
        ⟨demo, []⟩).1.err =
        (tenable.setUserRoles alice.UUID { RolesUUIDs := ["r2"] } demo).1.map
          (fun err => "error updating user role: " ++ err)) ∧
    GoMap.get? (roleBuilder.Grant tenable (resourceOf "user" "101")
      (entitlementOf "role" "r2" "assigned") ⟨demo, []⟩).2.ext.roles alice.UUID = some ["r2"] ∧
    (roleBuilder.Grant tenable (resourceOf "user" "101") (entitlementOf "role" "r2" "assigned")
      ⟨demo, []⟩).1 = ⟨[], none⟩ :=
  ⟨⟨by decide,
      (roleGrant_decision tenable (resourceOf "user" "101") (entitlementOf "role" "r1" "assigned")
        ⟨demo, []⟩ alice demo ⟨"", alice.UUID, ["r1"]⟩ demo (by decide) (by decide)).1
        (by decide)⟩,
    ⟨by decide,
      (roleGrant_decision tenable (resourceOf "user" "101") (entitlementOf "role" "r2" "assigned")
        ⟨demo, []⟩ alice demo ⟨"", alice.UUID, ["r1"]⟩ demo (by decide) (by decide)).2
        (by decide)⟩,
    by decide, by decide⟩

/-- C20 (role revoke). With the user and the user's current roles fetched live: if the
role id is not among them, `Revoke` returns GrantAlreadyRevoked after the two reads and
issues no update; otherwise it issues exactly one call that changes the upstream, the
generic user update for the principal's id, whose body has Permissions 16 and every
other field at its zero value, so that "permissions" is the only member sent. That
call is made on the upstream as the reads left it: the upstream after `Revoke` is the
one the user-update endpoint leaves, and the error of `Revoke` is the error of that
endpoint, wrapped. On no path, the failing ones included, does `Revoke` call the
set-roles endpoint. -/
theorem roleRevoke_decision (env : Env σ) (grant : TenableVM.Grant) (w : World σ) :
    (∀ user s1 userRoles s2,
      env.getUser grant.Principal.Id.Resource w.ext = (.ok user, s1) →
      env.getUserRoles user.UUID s1 = (.ok userRoles, s2) →
      (grant.Entitlement.Resource.Id.Resource ∉ userRoles.RolesUUID →
        roleBuilder.Revoke env grant w =
          (⟨[.GrantAlreadyRevoked], none⟩,
            ⟨s2, w.calls ++ [.GetUserDetails grant.Principal.Id.Resource,
              .GetUserRoles user.UUID]⟩) ∧
        mutatingCalls (roleBuilder.Revoke env grant w).2.calls = mutatingCalls w.calls) ∧
      (grant.Entitlement.Resource.Id.Resource ∈ userRoles.RolesUUID →
        ∃ body : UserUpdateReqBody,
          (roleBuilder.Revoke env grant w).2.calls =
            w.calls ++ [.GetUserDetails grant.Principal.Id.Resource, .GetUserRoles user.UUID,
              .UpdateUser grant.Principal.Id.Resource body] ∧
          mutatingCalls (roleBuilder.Revoke env grant w).2.calls = mutatingCalls w.calls + 1 ∧
          body = { Name := "", Permissions := 16, Email := "", Enabled := false } ∧
          body.wireFields = [("permissions", .num 16)] ∧
          (roleBuilder.Revoke env grant w).1.annos = [] ∧
          (roleBuilder.Revoke env grant w).2.ext =
            (env.updateUser grant.Principal.Id.Resource body s2).2 ∧
          (roleBuilder.Revoke env grant w).1.err =
            match (env.updateUser grant.Principal.Id.Resource body s2).1 with
            | .error err => some ("error updating user role: " ++ err)
            | .ok _ => none)) ∧
    (∃ added, (roleBuilder.Revoke env grant w).2.calls = w.calls ++ added ∧
      ∀ c ∈ added, ∀ userUUID body, c ≠ .UpdateUserRoles userUUID body) := by
  constructor
  · intro user s1 userRoles s2 hu hr
    constructor
    · intro hmem
      have h : roleBuilder.Revoke env grant w =
          (⟨[.GrantAlreadyRevoked], none⟩,
            ⟨s2, w.calls ++ [.GetUserDetails grant.Principal.Id.Resource,
              .GetUserRoles user.UUID]⟩) := by
        simp [roleBuilder.Revoke, TenableVMClient.GetUserDetails, hu,
          TenableVMClient.GetUserRoles, hr, World.record, hmem]
      refine ⟨h, ?_⟩
      rw [h]
      simp [mutatingCalls, Call.isMutating, List.filter_append]
    · intro hmem
      refine ⟨{ Name := "", Permissions := 16, Email := "", Enabled := false }, ?_, ?_, rfl,
        by decide, ?_, ?_, ?_⟩ <;>
      · rcases h3 : env.updateUser grant.Principal.Id.Resource
          { Name := "", Permissions := 16, Email := "", Enabled := false } s2 with ⟨r, s3⟩
        cases r <;>
          simp [roleBuilder.Revoke, TenableVMClient.GetUserDetails, hu,
            TenableVMClient.GetUserRoles, hr, World.record, hmem, TenableVMClient.UpdateUser,
            BasicUserRole, h3, mutatingCalls, Call.isMutating, List.filter_append]
  · rcases hu : env.getUser grant.Principal.Id.Resource w.ext with ⟨r1, s1⟩
    cases r1 with
    | error e =>
      exact ⟨[.GetUserDetails grant.Principal.Id.Resource], by
        simp [roleBuilder.Revoke, TenableVMClient.GetUserDetails, hu, World.record], by simp⟩
    | ok user =>
      rcases hr : env.getUserRoles user.UUID s1 with ⟨r2, s2⟩
      cases r2 with
      | error e =>
        exact ⟨[.GetUserDetails grant.Principal.Id.Resource, .GetUserRoles user.UUID], by
          simp [roleBuilder.Revoke, TenableVMClient.GetUserDetails, hu,
            TenableVMClient.GetUserRoles, hr, World.record], by simp⟩
      | ok userRoles =>
        by_cases hmem : grant.Entitlement.Resource.Id.Resource ∈ userRoles.RolesUUID
        · refine ⟨[.GetUserDetails grant.Principal.Id.Resource, .GetUserRoles user.UUID,
            .UpdateUser grant.Principal.Id.Resource
              { Name := "", Permissions := 16, Email := "", Enabled := false }], ?_, by simp⟩
          rcases h3 : env.updateUser grant.Principal.Id.Resource
            { Name := "", Permissions := 16, Email := "", Enabled := false } s2 with ⟨r, s3⟩
          cases r <;>
            simp [roleBuilder.Revoke, TenableVMClient.GetUserDetails, hu,
              TenableVMClient.GetUserRoles, hr, World.record, hmem, TenableVMClient.UpdateUser,
              BasicUserRole, h3]
        · exact ⟨[.GetUserDetails grant.Principal.Id.Resource, .GetUserRoles user.UUID], by
            simp [roleBuilder.Revoke, TenableVMClient.GetUserDetails, hu,
              TenableVMClient.GetUserRoles, hr, World.record, hmem], by simp⟩

/-- C20 at concrete inputs: Alice holds role r1. Revoking r2 is reported as already
revoked; revoking r1 sends one user update for id 101 carrying permissions 16 only,
and the upstream after it is the one that update leaves. -/
theorem roleRevoke_decision_witness :
    ("r2" ∉ (⟨"", alice.UUID, ["r1"]⟩ : UserRole).RolesUUID ∧
      roleBuilder.Revoke tenable (grantOf "role" "r2" "assigned" "101") ⟨demo, []⟩ =
        (⟨[.GrantAlreadyRevoked], none⟩,
          ⟨demo, [] ++ [.GetUserDetails "101", .GetUserRoles alice.UUID]⟩) ∧
      mutatingCalls (roleBuilder.Revoke tenable (grantOf "role" "r2" "assigned" "101")
        ⟨demo, []⟩).2.calls = mutatingCalls []) ∧
    ("r1" ∈ (⟨"", alice.UUID, ["r1"]⟩ : UserRole).RolesUUID ∧
      ∃ body : UserUpdateReqBody,
        (roleBuilder.Revoke tenable (grantOf "role" "r1" "assigned" "101") ⟨demo, []⟩).2.calls =
          [] ++ [.GetUserDetails "101", .GetUserRoles alice.UUID, .UpdateUser "101" body] ∧
        mutatingCalls (roleBuilder.Revoke tenable (grantOf "role" "r1" "assigned" "101")
          ⟨demo, []⟩).2.calls = mutatingCalls [] + 1 ∧
        body = { Name := "", Permissions := 16, Email := "", Enabled := false } ∧
        body.wireFields = [("permissions", .num 16)] ∧
        (roleBuilder.Revoke tenable (grantOf "role" "r1" "assigned" "101") ⟨demo, []⟩).1.annos
          = [] ∧
        (roleBuilder.Revoke tenable (grantOf "role" "r1" "assigned" "101") ⟨demo, []⟩).2.ext =
          (tenable.updateUser "101" body demo).2 ∧
        (roleBuilder.Revoke tenable (grantOf "role" "r1" "assigned" "101") ⟨demo, []⟩).1.err =
          match (tenable.updateUser "101" body demo).1 with
          | .error err => some ("error updating user role: " ++ err)
          | .ok _ => none) ∧
    (roleBuilder.Revoke tenable (grantOf "role" "r1" "assigned" "101") ⟨demo, []⟩).1 =
      ⟨[], none⟩ ∧
    (roleBuilder.Revoke tenable (grantOf "role" "r1" "assigned" "101") ⟨demo, []⟩).2.ext =
      (tenable.updateUser "101"
        { Name := "", Permissions := 16, Email := "", Enabled := false } demo).2 :=
  ⟨⟨by decide,
      ((roleRevoke_decision tenable (grantOf "role" "r2" "assigned" "101") ⟨demo, []⟩).1
        alice demo ⟨"", alice.UUID, ["r1"]⟩ demo (by decide) (by decide)).1 (by decide)⟩,
    ⟨by decide,
      ((roleRevoke_decision tenable (grantOf "role" "r1" "assigned" "101") ⟨demo, []⟩).1
        alice demo ⟨"", alice.UUID, ["r1"]⟩ demo (by decide) (by decide)).2 (by decide)⟩,
    by decide, by decide⟩

end RoleDecision

section PermissionGrantsDispatch

variable {σ : Type}

/-- When every "User" and "UserGroup" subject resolves, the loop of `Grants` ends
without error and adds to the grants collected so far the grant of each subject, in
subject order. -/
theorem grantsLoop_resolved (resource : Resource) (cachedUsers : Option (GoMap User))
    (cachedGroups : Option (GoMap String)) (subjects : List TenableObject)
    (grants : List TenableVM.Grant)
    (h : ∀ subject ∈ subjects,
      (subject.Type_ = "User" →
        (GoMap.get? (cachedUsers.getD []) subject.UUID.String).isSome = true) ∧
      (subject.Type_ = "UserGroup" →
        (GoMap.get? (cachedGroups.getD []) subject.UUID.String).isSome = true)) :
    grantsLoop resource cachedUsers cachedGroups subjects grants =
      .ok (grants ++ subjects.filterMap
        (dispatchedGrant resource (cachedUsers.getD []) (cachedGroups.getD []))) := by
  induction subjects generalizing grants with
  | nil => simp [grantsLoop]
  | cons subject rest ih =>
    have hrest := fun acc => ih acc (fun x hx => h x (List.mem_cons_of_mem _ hx))
    have hhead := h subject (List.mem_cons_self _ _)
    have hne : ¬ subjectTypeGroup = subjectTypeUser := by decide
    by_cases hu : subject.Type_ = "User"
    · obtain ⟨user, huser⟩ := Option.isSome_iff_exists.1 (hhead.1 hu)
      simp [grantsLoop, subjectTypeUser, hu, getUserResourceId, huser, hrest, dispatchedGrant,
        NewGrant, assignedEntitlement, userResourceTypeId]
    · by_cases hg : subject.Type_ = "UserGroup"
      · obtain ⟨g, hgroup⟩ := Option.isSome_iff_exists.1 (hhead.2 hg)
        simp [grantsLoop, subjectTypeUser, subjectTypeGroup, hg, getGroupResourceId, hgroup,
          hrest, dispatchedGrant, NewGrant, assignedEntitlement, groupResourceTypeId]
      · simp [grantsLoop, subjectTypeUser, subjectTypeGroup, hu, hg, hrest, dispatchedGrant]

/-- A value stored by a loop of assignments comes from an element of the listing with
that key. -/
theorem GoMap.get?_foldl_set_some {α V : Type} (key : α → String) (val : α → V) (xs : List α)
    (k : String) (v : V)
    (h : GoMap.get? (xs.foldl (fun m x => GoMap.set m (key x) (val x)) []) k = some v) :
    ∃ x ∈ xs, key x = k ∧ val x = v := by
  rw [GoMap.get?_foldl_set] at h
  cases hf : xs.reverse.find? (fun x => decide (key x = k)) with
  | none => simp [hf, GoMap.get?] at h
  | some x =>
    rw [hf] at h
    have hmem := List.mem_of_find?_eq_some hf
    have hkey := List.find?_some hf
    exact ⟨x, by simpa using hmem, by simpa using hkey, Option.some.inj h⟩

/-- C21 (dispatch of `Grants`). With the caches as the three loads leave them and every
"User" and "UserGroup" subject of the permission resolving, `Grants` returns without
error the grants of the subjects in subject order: for a "User" subject the grant
whose principal is the user resource with the decimal id of the user cached under the
subject's UUID, without annotation; for a "UserGroup" subject the grant whose
principal is the group resource with the cached group id g, annotated expandable with
"group:g:member" and immutable. In the maps the loaders build, the user cached under
a UUID text is a listed user with that UUID text, and the group id cached under it is
the decimal id of a listed group with that UUID text. -/
theorem permissionGrants_dispatch (env : Env σ) (o : permissionBuilder) (resource : Resource)
    (w : World σ) (a1 : Annotations) (o1 : permissionBuilder) (w1 : World σ)
    (permission : Permission) (a2 : Annotations) (c2 : Connector) (w2 : World σ)
    (a3 : Annotations) (o3 : permissionBuilder) (w3 : World σ)
    (h1 : o.loadPermissionsCache env w = (⟨a1, none⟩, o1, w1))
    (h2 : GoMap.get? (o1.permissionsCache.getD []) resource.Id.Resource = some permission)
    (h3 : o1.connector.cacheUsers env w1 = (⟨a2, none⟩, c2, w2))
    (h4 : permissionBuilder.loadGroupsCache env { o1 with connector := c2 } w2 =
      (⟨a3, none⟩, o3, w3))
    (hres : ∀ subject ∈ permission.Subjects,
      (subject.Type_ = "User" →
        (GoMap.get? (o3.connector.cachedUsers.getD []) subject.UUID.String).isSome = true) ∧
      (subject.Type_ = "UserGroup" →
        (GoMap.get? (o3.cachedGroups.getD []) subject.UUID.String).isSome = true)) :
    o.Grants env resource w =
      (⟨permission.Subjects.filterMap
          (dispatchedGrant resource (o3.connector.cachedUsers.getD []) (o3.cachedGroups.getD [])),
        "", [], none⟩, o3, w3) ∧
    (∀ (users : List User) (k : String) (user : User),
      GoMap.get? (users.foldl (fun m user => GoMap.set m user.UUID user) []) k = some user →
      user ∈ users ∧ user.UUID = k) ∧
    (∀ (groups : List Group) (k g : String),
      GoMap.get? (groups.foldl (fun m group => GoMap.set m group.UUID (Itoa group.ID)) []) k
        = some g →
      ∃ group ∈ groups, group.UUID = k ∧ g = Itoa group.ID) := by
  refine ⟨?_, fun users k user h => ?_, fun groups k g h => ?_⟩
  · have h5 := grantsLoop_resolved resource o3.connector.cachedUsers o3.cachedGroups
      permission.Subjects [] hres
    simp [permissionBuilder.Grants, h1, h2, h3, h4, h5]
  · obtain ⟨x, hx, hk, hv⟩ := GoMap.get?_foldl_set_some (fun u : User => u.UUID) id users k user h
    simp only [id] at hv
    subst hv
    exact ⟨hx, hk⟩
  · obtain ⟨x, hx, hk, hv⟩ := GoMap.get?_foldl_set_some (fun group : Group => group.UUID)
      (fun group => Itoa group.ID) groups k g h
    exact ⟨x, hx, hk, hv.symm⟩

/-- C21 at concrete inputs: the mixed permission has subjects Alice, group 8, a
subject of another type and Bob; its grants are user 101, group 8 (expandable through
"group:8:member", immutable) and user 202, in that order. -/
theorem permissionGrants_dispatch_witness :
    (mixedGrants =
      (⟨mixedPermission.Subjects.filterMap
          (dispatchedGrant (resourceOf "permission" (uuidOf 5).String)
            (mixedGrants.2.1.connector.cachedUsers.getD []) (mixedGrants.2.1.cachedGroups.getD [])),
        "", [], none⟩, mixedGrants.2.1, mixedGrants.2.2)) ∧
    mixedGrants.1.grants.map (fun grant => (grant.Principal.Id, grant.Annotations)) =
      [(⟨"user", "101"⟩, []),
        (⟨"group", "8"⟩, [.GrantExpandable ["group:8:member"], .GrantImmutable]),
        (⟨"user", "202"⟩, [])] :=
  ⟨(permissionGrants_dispatch tenable emptyPermissionBuilder
      (resourceOf "permission" (uuidOf 5).String) ⟨demoMixed, []⟩
      [] (emptyPermissionBuilder.loadPermissionsCache tenable ⟨demoMixed, []⟩).2.1
      (emptyPermissionBuilder.loadPermissionsCache tenable ⟨demoMixed, []⟩).2.2
      mixedPermission [] mixedGrants.2.1.connector
      ⟨demoMixed, [.ListPermissions, .GetUsers]⟩ [] mixedGrants.2.1 mixedGrants.2.2
      (by decide) (by decide) (by decide) (by decide) (by decide)).1,
    by decide⟩

end PermissionGrantsDispatch

section PermissionGrantsOtherTypes

variable {σ : Type}

/-- The loop of `Grants` passes over a subject that is neither a user nor a group. -/
theorem grantsLoop_skip (resource : Resource) (cachedUsers : Option (GoMap User))
    (cachedGroups : Option (GoMap String)) (subject : TenableObject)
    (rest : List TenableObject) (grants : List TenableVM.Grant)
    (hu : subject.Type_ ≠ "User") (hg : subject.Type_ ≠ "UserGroup") :
    grantsLoop resource cachedUsers cachedGroups (subject :: rest) grants =
      grantsLoop resource cachedUsers cachedGroups rest grants := by
  simp [grantsLoop, subjectTypeUser, subjectTypeGroup, hu, hg]

/-- The loop of `Grants` gives what it gives on the "User" and "UserGroup" subjects
alone. -/
theorem grantsLoop_filter (resource : Resource) (cachedUsers : Option (GoMap User))
    (cachedGroups : Option (GoMap String)) (subjects : List TenableObject)
    (grants : List TenableVM.Grant) :
    grantsLoop resource cachedUsers cachedGroups subjects grants =
      grantsLoop resource cachedUsers cachedGroups
        (subjects.filter
          (fun subject => decide (subject.Type_ = "User" ∨ subject.Type_ = "UserGroup")))
        grants := by
  induction subjects generalizing grants with
  | nil => rfl
  | cons subject rest ih =>
    by_cases hu : subject.Type_ = "User"
    · have hf : (subject :: rest).filter
          (fun subject : TenableObject =>
            decide (subject.Type_ = "User" ∨ subject.Type_ = "UserGroup")) =
          subject :: rest.filter
            (fun subject : TenableObject =>
              decide (subject.Type_ = "User" ∨ subject.Type_ = "UserGroup")) := by
        simp [hu]
      rw [hf]
      unfold grantsLoop
      simp only [subjectTypeUser, hu, if_true]
      cases getUserResourceId subject.UUID.String cachedUsers with
      | error err => rfl
      | ok id => exact ih _
    · by_cases hg : subject.Type_ = "UserGroup"
      · have hf : (subject :: rest).filter
            (fun subject : TenableObject =>
              decide (subject.Type_ = "User" ∨ subject.Type_ = "UserGroup")) =
            subject :: rest.filter
              (fun subject : TenableObject =>
                decide (subject.Type_ = "User" ∨ subject.Type_ = "UserGroup")) := by
          simp [hg]
        rw [hf]
        unfold grantsLoop
        simp only [subjectTypeUser, subjectTypeGroup, hu, hg, if_true, if_false]
        cases getGroupResourceId subject.UUID.String cachedGroups with
        | error err => rfl
        | ok id => exact ih _
      · have hf : (subject :: rest).filter
            (fun subject : TenableObject =>
              decide (subject.Type_ = "User" ∨ subject.Type_ = "UserGroup")) =
            rest.filter
              (fun subject : TenableObject =>
                decide (subject.Type_ = "User" ∨ subject.Type_ = "UserGroup")) := by
          simp [hu, hg]
        rw [hf, grantsLoop_skip _ _ _ _ _ _ hu hg]
        exact ih _

/-- A loop of `Grants` that ends without error has added one grant per "User" or
"UserGroup" subject. -/
theorem grantsLoop_length (resource : Resource) (cachedUsers : Option (GoMap User))
    (cachedGroups : Option (GoMap String)) (subjects : List TenableObject)
    (grants result : List TenableVM.Grant)
    (h : grantsLoop resource cachedUsers cachedGroups subjects grants = .ok result) :
    result.length = grants.length +
      subjects.countP
        (fun subject => decide (subject.Type_ = "User" ∨ subject.Type_ = "UserGroup")) := by
  induction subjects generalizing grants with
  | nil =>
    simp only [grantsLoop] at h
    rw [← Except.ok.inj h]
    simp
  | cons subject rest ih =>
    by_cases hu : subject.Type_ = "User"
    · unfold grantsLoop at h
      simp only [subjectTypeUser, hu, if_true] at h
      cases hl : getUserResourceId subject.UUID.String cachedUsers with
      | error err => simp [hl] at h
      | ok id =>
        simp only [hl] at h
        rw [ih _ h]
        simp [hu, List.countP_cons]
        omega
    · by_cases hg : subject.Type_ = "UserGroup"
      · unfold grantsLoop at h
        simp only [subjectTypeUser, subjectTypeGroup, hu, hg, if_true, if_false] at h
        cases hl : getGroupResourceId subject.UUID.String cachedGroups with
        | error err => simp [hl] at h
        | ok id =>
          simp only [hl] at h
          rw [ih _ h]
          simp [hg, List.countP_cons]
          omega
      · rw [grantsLoop_skip _ _ _ _ _ _ hu hg] at h
        rw [ih _ h]
        simp [hu, hg, List.countP_cons]

/-- C24 (subjects of other types). In the loop of `Grants` a subject whose type is
neither "User" nor "UserGroup" is passed over whatever the two caches hold, nil caches
included: the loop gives what it gives without that subject, and so what it gives on
the "User" and "UserGroup" subjects alone. When `Grants` returns without error, with
the caches as the three loads leave them, the number of grants is the number of
subjects of those two types. -/
theorem permissionGrants_other_types (env : Env σ) (o : permissionBuilder)
    (resource : Resource) (w : World σ) :
    (∀ cachedUsers cachedGroups (subject : TenableObject) rest grants,
      subject.Type_ ≠ "User" → subject.Type_ ≠ "UserGroup" →
      grantsLoop resource cachedUsers cachedGroups (subject :: rest) grants =
        grantsLoop resource cachedUsers cachedGroups rest grants) ∧
    (∀ cachedUsers cachedGroups subjects grants,
      grantsLoop resource cachedUsers cachedGroups subjects grants =
        grantsLoop resource cachedUsers cachedGroups
          (subjects.filter
            (fun subject => decide (subject.Type_ = "User" ∨ subject.Type_ = "UserGroup")))
          grants) ∧
    (∀ a1 o1 w1 permission a2 c2 w2 a3 o3 w3,
      o.loadPermissionsCache env w = (⟨a1, none⟩, o1, w1) →
      GoMap.get? (o1.permissionsCache.getD []) resource.Id.Resource = some permission →
      o1.connector.cacheUsers env w1 = (⟨a2, none⟩, c2, w2) →
      permissionBuilder.loadGroupsCache env { o1 with connector := c2 } w2 =
        (⟨a3, none⟩, o3, w3) →
      (o.Grants env resource w).1.err = none →
      (o.Grants env resource w).1.grants.length =
        permission.Subjects.countP
          (fun subject => decide (subject.Type_ = "User" ∨ subject.Type_ = "UserGroup"))) := by
  refine ⟨fun cu cg subject rest grants hu hg => grantsLoop_skip resource cu cg subject rest
    grants hu hg, fun cu cg subjects grants => grantsLoop_filter resource cu cg subjects grants,
    fun a1 o1 w1 permission a2 c2 w2 a3 o3 w3 h1 h2 h3 h4 herr => ?_⟩
  cases h5 : grantsLoop resource o3.connector.cachedUsers o3.cachedGroups
      permission.Subjects [] with
  | error err => simp [permissionBuilder.Grants, h1, h2, h3, h4, h5] at herr
  | ok grants =>
    have hlen := grantsLoop_length resource _ _ _ _ _ h5
    simp [permissionBuilder.Grants, h1, h2, h3, h4, h5, hlen]

/-- C24 at concrete inputs: the mixed permission has four subjects, one of them of
type "AllUsers" and known to no cache; `Grants` returns three grants and no error, and
the loop passes over that subject even with nil caches. -/
theorem permissionGrants_other_types_witness :
    grantsLoop (resourceOf "permission" (uuidOf 5).String) none none
      ({ Type_ := "AllUsers", UUID := uuidOf 60, Name := "everyone" } :: []) [] =
      grantsLoop (resourceOf "permission" (uuidOf 5).String) none none [] [] ∧
    grantsLoop (resourceOf "permission" (uuidOf 5).String) none none [] [] = .ok [] ∧
    mixedGrants.1.err = none ∧
    mixedPermission.Subjects.length = 4 ∧
    mixedGrants.1.grants.length =
      mixedPermission.Subjects.countP
        (fun subject => decide (subject.Type_ = "User" ∨ subject.Type_ = "UserGroup")) ∧
    mixedGrants.1.grants.length = 3 :=
  ⟨(permissionGrants_other_types tenable emptyPermissionBuilder
      (resourceOf "permission" (uuidOf 5).String) ⟨demoMixed, []⟩).1 none none
      { Type_ := "AllUsers", UUID := uuidOf 60, Name := "everyone" } [] [] (by decide)
      (by decide),
    by decide, by decide, by decide,
    (permissionGrants_other_types tenable emptyPermissionBuilder
      (resourceOf "permission" (uuidOf 5).String) ⟨demoMixed, []⟩).2.2
      [] (emptyPermissionBuilder.loadPermissionsCache tenable ⟨demoMixed, []⟩).2.1
      (emptyPermissionBuilder.loadPermissionsCache tenable ⟨demoMixed, []⟩).2.2
      mixedPermission [] mixedGrants.2.1.connector
      ⟨demoMixed, [.ListPermissions, .GetUsers]⟩ [] mixedGrants.2.1 mixedGrants.2.2
      (by decide) (by decide) (by decide) (by decide) (by decide),
    by decide⟩

end PermissionGrantsOtherTypes

section ShortPasswords

variable {γ : Type}

/-- One character sets at most one flag of `isPasswordValid`. -/
theorem classify_count (uni : Unicode) (flags : PasswordFlags) (c : Char) :
    (classify uni flags c).count ≤ flags.count + 1 := by
  obtain ⟨u, l, d, s⟩ := flags
  unfold classify
  split_ifs <;> cases u <;> cases l <;> cases d <;> cases s <;> simp [PasswordFlags.count]

/-- The scan of `isPasswordValid` sets at most one flag per character scanned. -/
theorem classify_foldl_count (uni : Unicode) (cs : List Char) (f0 : PasswordFlags) :
    (cs.foldl (classify uni) f0).count ≤ f0.count + cs.length := by
  induction cs generalizing f0 with
  | nil => simp
  | cons c cs ih =>
    have h1 := ih (classify uni f0 c)
    have h2 := classify_count uni f0 c
    simp only [List.foldl_cons, List.length_cons]
    omega

/-- A password of fewer than four characters is invalid. -/
theorem isPasswordValid_short (uni : Unicode) (password : String)
    (h : password.length < 4) : isPasswordValid uni password = false := by
  have hc := classify_foldl_count uni password.data ⟨false, false, false, false⟩
  have hlen : password.data.length < 4 := h
  cases hv : isPasswordValid uni password with
  | false => rfl
  | true =>
    exfalso
    unfold isPasswordValid at hv
    simp only [Bool.and_eq_true] at hv
    obtain ⟨⟨⟨hu, hl⟩, hd⟩, hs⟩ := hv
    simp [PasswordFlags.count, hu, hl, hd, hs] at hc
    omega

/-- With a generator that answers the length asked with a string of that length, below
four, every attempt of the loop of `generateCredentials` is rejected: the loop ends in
the exhaustion error after one generator call per attempt. -/
theorem generateAttempts_short (uni : Unicode) (gen : Generator γ) (length : Int)
    (hshort : length < 4)
    (hgen : ∀ st, ∃ s st1, gen length st = (.ok s, st1) ∧ (s.length : Int) = length) :
    ∀ (attempts : Nat) (g : GenWorld γ),
      ∃ g1, generateAttempts uni gen length attempts g =
          (.error "failed to generate a valid password after 20 attempts", g1) ∧
        g1.log.length = g.log.length + attempts ∧
        ∀ call ∈ g1.log.drop g.log.length, call.1 = length ∧ ∃ s, call.2 = .ok s := by
  have hmin : min 12 length = length := by omega
  intro attempts
  induction attempts with
  | zero =>
    intro g
    exact ⟨g, rfl, rfl, by simp⟩
  | succ n ih =>
    intro g
    obtain ⟨s, st1, hs, hlen⟩ := hgen g.st
    have hinv : isPasswordValid uni s = false :=
      isPasswordValid_short uni s (by omega)
    obtain ⟨g1, h1, h2, h3⟩ := ih ⟨st1, g.log ++ [(length, .ok s)]⟩
    refine ⟨g1, ?_, ?_, ?_⟩
    · simp [generateAttempts, hmin, hs, hinv, h1]
    · simp only [List.length_append, List.length_singleton] at h2
      omega
    · intro call hcall
      have hlog : g1.log = (g.log ++ [(length, Except.ok s)]) ++
          g1.log.drop (g.log ++ [(length, Except.ok s)]).length := by
        have hpre : (generateAttempts uni gen length n ⟨st1, g.log ++ [(length, .ok s)]⟩).2.log
            = g1.log := by rw [h1]
        obtain ⟨rejected, -, hcases⟩ :=
          generateAttempts_spec uni gen length n ⟨st1, g.log ++ [(length, .ok s)]⟩
        rcases hcases with ⟨_, _, _, _, hl⟩ | ⟨_, _, _, hl⟩ | ⟨_, _, hl⟩ <;>
        · rw [hpre] at hl
          rw [hl]
          simp
      rw [hlog] at hcall
      simp only [List.append_assoc, List.drop_left, List.singleton_append,
        List.mem_cons] at hcall
      rcases hcall with rfl | hrest
      · exact ⟨rfl, s, rfl⟩
      · exact h3 call hrest

/-- C23 (short passwords). One character sets at most one of the four flags of
`isPasswordValid`, so every password of fewer than four characters is invalid. With a
generator that answers the requested length, below four, with a string of that length,
`generateCredentials` does not succeed: it returns the exhaustion error after exactly
20 generator calls, each asking for the requested length and each answered with a
string. -/
theorem generateCredentials_short (uni : Unicode) (gen : Generator γ)
    (randomPassword : RandomPassword) (g : GenWorld γ)
    (hshort : randomPassword.Length < 4)
    (hgen : ∀ st, ∃ s st1,
      gen randomPassword.Length st = (.ok s, st1) ∧ (s.length : Int) = randomPassword.Length) :
    (∀ flags c, (classify uni flags c).count ≤ flags.count + 1) ∧
    (∀ password : String, password.length < 4 → isPasswordValid uni password = false) ∧
    (∀ password, (generateCredentials uni gen ⟨some randomPassword⟩ g).1 ≠ .ok password) ∧
    ∃ g1, generateCredentials uni gen ⟨some randomPassword⟩ g =
        (.error "failed to generate a valid password after 20 attempts", g1) ∧
      g1.log.length = g.log.length + 20 ∧
      ∀ call ∈ g1.log.drop g.log.length,
        call.1 = randomPassword.Length ∧ ∃ s, call.2 = .ok s := by
  obtain ⟨g1, h1, h2, h3⟩ :=
    generateAttempts_short uni gen randomPassword.Length hshort hgen maxAttempts g
  have hcred : generateCredentials uni gen ⟨some randomPassword⟩ g =
      (.error "failed to generate a valid password after 20 attempts", g1) := by
    simp [generateCredentials, h1]
  refine ⟨classify_count uni, isPasswordValid_short uni, fun password => ?_, g1, hcred, h2, h3⟩
  rw [hcred]
  simp

/-- C23 at concrete inputs: asked for three characters, the generator answers "aaa"
twenty times and `generateCredentials` fails with the exhaustion error. -/
theorem generateCredentials_short_witness :
    (∀ flags c, (classify unicodeASCII flags c).count ≤ flags.count + 1) ∧
    (∀ password : String, password.length < 4 →
      isPasswordValid unicodeASCII password = false) ∧
    (∀ password, (generateCredentials unicodeASCII filler ⟨some ⟨3⟩⟩ ⟨(), []⟩).1 ≠
      .ok password) ∧
    ∃ g1, generateCredentials unicodeASCII filler ⟨some ⟨3⟩⟩ ⟨(), []⟩ =
        (.error "failed to generate a valid password after 20 attempts", g1) ∧
      g1.log.length = ([] : List (Int × Except GoError String)).length + 20 ∧
      ∀ call ∈ g1.log.drop ([] : List (Int × Except GoError String)).length,
        call.1 = (⟨3⟩ : RandomPassword).Length ∧ ∃ s, call.2 = .ok s :=
  generateCredentials_short unicodeASCII filler ⟨3⟩ ⟨(), []⟩ (by decide)
    (fun st => ⟨"aaa", st, rfl, by decide⟩)

end ShortPasswords

section Names

/-- Function `strings.Split` never returns an empty slice for a non-empty separator. -/
theorem strSplit_ne_nil (sep : Char) (cs : List Char) : strSplit sep cs ≠ [] := by
  cases cs with
  | nil => simp [strSplit]
  | cons c cs =>
    unfold strSplit
    split_ifs
    · simp
    · split <;> simp

/-- Splitting at a separator that does not occur gives the string itself. -/
theorem strSplit_of_not_mem (sep : Char) (cs : List Char) (h : sep ∉ cs) :
    strSplit sep cs = [cs] := by
  induction cs with
  | nil => rfl
  | cons c cs ih =>
    have hc : c ≠ sep := fun e => h (by simp [e])
    have hcs : sep ∉ cs := fun e => h (List.mem_cons_of_mem _ e)
    simp [strSplit, hc, ih hcs]

/-- Joining the parts of a split gives the string back. -/
theorem strJoin_strSplit (sep : Char) (cs : List Char) : strJoin sep (strSplit sep cs) = cs := by
  induction cs with
  | nil => rfl
  | cons c cs ih =>
    unfold strSplit
    split_ifs with hc
    · cases hs : strSplit sep cs with
      | nil => exact absurd hs (strSplit_ne_nil sep cs)
      | cons p ps =>
        rw [hs] at ih
        simp [strJoin, ih, hc]
    · cases hs : strSplit sep cs with
      | nil => exact absurd hs (strSplit_ne_nil sep cs)
      | cons p ps =>
        rw [hs] at ih
        cases ps with
        | nil =>
          simp only [strJoin] at ih ⊢
          rw [ih]
        | cons q qs =>
          simp only [strJoin] at ih ⊢
          rw [← ih]
          simp

/-- The first part of a split does not contain the separator. -/
theorem strSplit_head (sep : Char) (cs p : List Char) (ps : List (List Char))
    (h : strSplit sep cs = p :: ps) : sep ∉ p := by
  induction cs generalizing p ps with
  | nil =>
    simp only [strSplit, List.cons.injEq] at h
    rw [← h.1]
    simp
  | cons c cs ih =>
    unfold strSplit at h
    split_ifs at h with hc
    · simp only [List.cons.injEq] at h
      rw [← h.1]
      simp
    · cases hs : strSplit sep cs with
      | nil => exact absurd hs (strSplit_ne_nil sep cs)
      | cons q qs =>
        rw [hs] at h
        simp only [List.cons.injEq] at h
        rw [← h.1]
        intro hmem
        rcases List.mem_cons.1 hmem with e | e
        · exact hc e.symm
        · exact ih q qs hs e

/-- A split has more than one part when the separator occurs. -/
theorem strSplit_of_mem (sep : Char) (cs : List Char) (h : sep ∈ cs) :
    ∃ p q qs, strSplit sep cs = p :: q :: qs := by
  induction cs with
  | nil => simp at h
  | cons c cs ih =>
    unfold strSplit
    split_ifs with hc
    · cases hs : strSplit sep cs with
      | nil => exact absurd hs (strSplit_ne_nil sep cs)
      | cons q qs => exact ⟨[], q, qs, rfl⟩
    · have hcs : sep ∈ cs := by
        rcases List.mem_cons.1 h with e | e
        · exact absurd e.symm hc
        · exact e
      obtain ⟨p, q, qs, hs⟩ := ih hcs
      exact ⟨c :: p, q, qs, by rw [hs]⟩

/-- C25 (splitting a name). `strings.Split` never gives an empty slice, so the branch
`len(parts) == 0` is taken for no input, the empty string included. For a name that
contains a space, first name, a space and last name put together give the name back
and the first name contains no space; for a name without a space the first name is
the name and the last name is empty. -/
theorem getFirstNameAndLastName_spec (name : String) :
    strSplit ' ' name.data ≠ [] ∧
    (' ' ∈ name.data →
      (getFirstNameAndLastName name).1 ++ " " ++ (getFirstNameAndLastName name).2 = name ∧
      ' ' ∉ (getFirstNameAndLastName name).1.data) ∧
    (' ' ∉ name.data → getFirstNameAndLastName name = (name, "")) := by
  refine ⟨strSplit_ne_nil ' ' name.data, fun h => ?_, fun h => ?_⟩
  · obtain ⟨p, q, qs, hs⟩ := strSplit_of_mem ' ' name.data h
    have hjoin := strJoin_strSplit ' ' name.data
    have hhead := strSplit_head ' ' name.data p (q :: qs) hs
    rw [hs] at hjoin
    simp only [strJoin] at hjoin
    constructor
    · apply String.ext
      simp [getFirstNameAndLastName, hs, String.data_append, hjoin]
    · simpa [getFirstNameAndLastName, hs] using hhead
  · simp [getFirstNameAndLastName, strSplit_of_not_mem ' ' name.data h]

/-- C25 at concrete inputs: a name of three words, a name that begins with a space, a
name of one word and the empty name. -/
theorem getFirstNameAndLastName_spec_witness :
    (getFirstNameAndLastName "Ada King Lovelace" = ("Ada", "King Lovelace") ∧
      (getFirstNameAndLastName "Ada King Lovelace").1 ++ " " ++
        (getFirstNameAndLastName "Ada King Lovelace").2 = "Ada King Lovelace" ∧
      ' ' ∉ (getFirstNameAndLastName "Ada King Lovelace").1.data) ∧
    getFirstNameAndLastName " x" = ("", "x") ∧
    getFirstNameAndLastName "Ada" = ("Ada", "") ∧
    getFirstNameAndLastName "" = ("", "") ∧
    strSplit ' ' "".data ≠ [] :=
  ⟨⟨by decide, (getFirstNameAndLastName_spec "Ada King Lovelace").2.1 (by decide)⟩,
    by decide, (getFirstNameAndLastName_spec "Ada").2.2 (by decide), by decide,
    (getFirstNameAndLastName_spec "").1⟩

end Names

section Frame

variable {σ : Type}

/-- A group `Grant` that reports an annotation has only read the upstream. -/
theorem groupGrant_reads (env : Env σ) (principal : Resource) (entitlement : Entitlement)
    (w : World σ) (h : (groupBuilder.Grant env principal entitlement w).1.annos ≠ []) :
    readsOnly w.calls (groupBuilder.Grant env principal entitlement w).2.calls := by
  unfold groupBuilder.Grant at h ⊢
  rcases h1 : env.listGroupMembers entitlement.Resource.Id.Resource w.ext with ⟨r1, s1⟩
  cases r1 with
  | error e => simp [TenableVMClient.GetGroupMembers, h1] at h
  | ok members =>
    simp only [TenableVMClient.GetGroupMembers, h1, World.record] at h ⊢
    split_ifs at h ⊢ with hm
    · exact ⟨[.GetGroupMembers entitlement.Resource.Id.Resource], rfl, by simp,
        by simp [Call.isMutating]⟩
    · rcases h2 : env.addGroupMember entitlement.Resource.Id.Resource principal.Id.Resource s1
        with ⟨e, s2⟩
      cases e <;> simp [TenableVMClient.CreateUserGroupMembership, h2, World.record] at h

/-- A group `Revoke` that reports an annotation has only read the upstream. -/
theorem groupRevoke_reads (env : Env σ) (grant : TenableVM.Grant) (w : World σ)
    (h : (groupBuilder.Revoke env grant w).1.annos ≠ []) :
    readsOnly w.calls (groupBuilder.Revoke env grant w).2.calls := by
  unfold groupBuilder.Revoke at h ⊢
  rcases h1 : env.listGroupMembers grant.Entitlement.Resource.Id.Resource w.ext with ⟨r1, s1⟩
  cases r1 with
  | error e => simp [TenableVMClient.GetGroupMembers, h1] at h
  | ok members =>
    simp only [TenableVMClient.GetGroupMembers, h1, World.record] at h ⊢
    split_ifs at h ⊢ with hm
    · exact ⟨[.GetGroupMembers grant.Entitlement.Resource.Id.Resource], rfl, by simp,
        by simp [Call.isMutating]⟩
    · rcases h2 : env.removeGroupMember grant.Entitlement.Resource.Id.Resource
        grant.Principal.Id.Resource s1 with ⟨e, s2⟩
      cases e <;> simp [TenableVMClient.DeleteUserGroupMembership, h2, World.record] at h

/-- A role `Grant` that reports an annotation has only read the upstream. -/
theorem roleGrant_reads (env : Env σ) (principal : Resource) (entitlement : Entitlement)
    (w : World σ) (h : (roleBuilder.Grant env principal entitlement w).1.annos ≠ []) :
    readsOnly w.calls (roleBuilder.Grant env principal entitlement w).2.calls := by
  unfold roleBuilder.Grant at h ⊢
  rcases h1 : env.getUser principal.Id.Resource w.ext with ⟨r1, s1⟩
  cases r1 with
  | error e => simp [TenableVMClient.GetUserDetails, h1] at h
  | ok user =>
    simp only [TenableVMClient.GetUserDetails, h1, World.record] at h ⊢
    rcases h2 : env.getUserRoles user.UUID s1 with ⟨r2, s2⟩
    cases r2 with
    | error e => simp [TenableVMClient.GetUserRoles, h2] at h
    | ok userRoles =>
      simp only [TenableVMClient.GetUserRoles, h2, World.record] at h ⊢
      split_ifs at h ⊢ with hm
      · exact ⟨[.GetUserDetails principal.Id.Resource, .GetUserRoles user.UUID], by simp,
          by simp, by simp [Call.isMutating]⟩
      · rcases h3 : env.setUserRoles user.UUID
          { RolesUUIDs := [entitlement.Resource.Id.Resource] } s2 with ⟨e, s3⟩
        cases e <;> simp [TenableVMClient.UpdateUserRoles, h3, World.record] at h

/-- A role `Revoke` that reports an annotation has only read the upstream. -/
theorem roleRevoke_reads (env : Env σ) (grant : TenableVM.Grant) (w : World σ)
    (h : (roleBuilder.Revoke env grant w).1.annos ≠ []) :
    readsOnly w.calls (roleBuilder.Revoke env grant w).2.calls := by
  unfold roleBuilder.Revoke at h ⊢
  rcases h1 : env.getUser grant.Principal.Id.Resource w.ext with ⟨r1, s1⟩
  cases r1 with
  | error e => simp [TenableVMClient.GetUserDetails, h1] at h
  | ok user =>
    simp only [TenableVMClient.GetUserDetails, h1, World.record] at h ⊢
    rcases h2 : env.getUserRoles user.UUID s1 with ⟨r2, s2⟩
    cases r2 with
    | error e => simp [TenableVMClient.GetUserRoles, h2] at h
    | ok userRoles =>
      simp only [TenableVMClient.GetUserRoles, h2, World.record] at h ⊢
      split_ifs at h ⊢ with hm
      · exact ⟨[.GetUserDetails grant.Principal.Id.Resource, .GetUserRoles user.UUID],
          by simp, by simp, by simp [Call.isMutating]⟩
      · rcases h3 : env.updateUser grant.Principal.Id.Resource
          { Name := "", Permissions := BasicUserRole, Email := "", Enabled := false } s2
          with ⟨r, s3⟩
        cases r <;> simp [TenableVMClient.UpdateUser, h3, World.record] at h

/-- A permission `Grant` that reports an annotation has only read the upstream. -/
theorem permissionGrant_reads (env : Env σ) (principal : Resource) (entitlement : Entitlement)
    (w : World σ) (h : (permissionBuilder.Grant env principal entitlement w).1.annos ≠ []) :
    readsOnly w.calls (permissionBuilder.Grant env principal entitlement w).2.calls := by
  by_cases hty : principal.Id.ResourceType = userResourceTypeId
  swap
  · simp [permissionBuilder.Grant, hty] at h
  rcases h1 : env.getPermission entitlement.Resource.Id.Resource w.ext with ⟨r1, s1⟩
  cases r1 with
  | error e =>
    simp [permissionBuilder.Grant, hty, TenableVMClient.GetPermissionDetails, h1] at h
  | ok permission =>
    rcases h2 : env.getUser principal.Id.Resource s1 with ⟨r2, s2⟩
    cases r2 with
    | error e =>
      simp [permissionBuilder.Grant, hty, TenableVMClient.GetPermissionDetails, h1,
        TenableVMClient.GetUserDetails, World.record, h2] at h
    | ok user =>
      cases hs : permission.Subjects.any
          (fun subject => decide (subject.UUID.String = user.UUID)) with
      | true =>
        rw [permissionGrant_of_subject env principal entitlement w permission s1 user s2 hty h1
          h2 hs]
        exact ⟨[.GetPermissionDetails entitlement.Resource.Id.Resource,
          .GetUserDetails principal.Id.Resource], rfl, by simp, by simp [Call.isMutating]⟩
      | false =>
        cases h3 : Parse user.UUID with
        | error e =>
          rw [permissionGrant_of_bad_uuid env principal entitlement w permission s1 user s2 e
            hty h1 h2 hs h3] at h
          simp at h
        | ok uuid =>
          exact absurd (permissionGrant_of_no_subject env principal entitlement w permission s1
            user s2 uuid hty h1 h2 hs h3).2 h

/-- A permission `Revoke` that reports an annotation has only read the upstream. -/
theorem permissionRevoke_reads (env : Env σ) (grant : TenableVM.Grant) (w : World σ)
    (h : (permissionBuilder.Revoke env grant w).1.annos ≠ []) :
    readsOnly w.calls (permissionBuilder.Revoke env grant w).2.calls := by
  by_cases hty : grant.Principal.Id.ResourceType = userResourceTypeId
  swap
  · simp [permissionBuilder.Revoke, hty] at h
  rcases h1 : env.getPermission grant.Entitlement.Resource.Id.Resource w.ext with ⟨r1, s1⟩
  cases r1 with
  | error e =>
    simp [permissionBuilder.Revoke, hty, TenableVMClient.GetPermissionDetails, h1] at h
  | ok permission =>
    rcases h2 : env.getUser grant.Principal.Id.Resource s1 with ⟨r2, s2⟩
    cases r2 with
    | error e =>
      simp [permissionBuilder.Revoke, hty, TenableVMClient.GetPermissionDetails, h1,
        TenableVMClient.GetUserDetails, World.record, h2] at h
    | ok user =>
      cases hs : permission.Subjects.any
          (fun subject => decide (subject.UUID.String = user.UUID)) with
      | false =>
        rw [permissionRevoke_of_no_subject env grant w permission s1 user s2 hty h1 h2 hs]
        exact ⟨[.GetPermissionDetails grant.Entitlement.Resource.Id.Resource,
          .GetUserDetails grant.Principal.Id.Resource], rfl, by simp, by simp [Call.isMutating]⟩
      | true =>
        cases h3 : Parse user.UUID with
        | error e =>
          have hs2 : ∃ x ∈ permission.Subjects, x.UUID.String = user.UUID := by simpa using hs
          have hn : ¬ ∀ x ∈ permission.Subjects, ¬ x.UUID.String = user.UUID := by
            push_neg
            exact hs2
          simp [permissionBuilder.Revoke, hty, TenableVMClient.GetPermissionDetails, h1,
            TenableVMClient.GetUserDetails, World.record, h2, h3, hn] at h
        | ok uuid =>
          rw [permissionRevoke_of_update env grant w permission s1 user s2 uuid hty h1 h2 hs
            h3] at h
          split at h <;> simp at h

end Frame

section ProvisioningFrame

variable {σ : Type}

/-- Group `Grant` leaves its receiver as it was, and its outcome and upstream calls are
those of the method body run on the upstream alone. -/
theorem groupGrantMethod_frame (env : Env σ) (g : groupBuilder) (principal : Resource)
    (entitlement : Entitlement) (w : World σ) :
    g.GrantMethod env principal entitlement w =
      ((groupBuilder.Grant env principal entitlement w).1, g,
        (groupBuilder.Grant env principal entitlement w).2) := by
  simp only [groupBuilder.GrantMethod, groupBuilder.Grant]
  rcases TenableVMClient.GetGroupMembers env entitlement.Resource.Id.Resource w with ⟨r, w1⟩
  cases r with
  | error err => rfl
  | ok members =>
    dsimp only
    split_ifs
    · rfl
    · rcases TenableVMClient.CreateUserGroupMembership env entitlement.Resource.Id.Resource
        principal.Id.Resource w1 with ⟨e, w2⟩
      cases e <;> rfl

/-- Group `Revoke` leaves its receiver as it was. -/
theorem groupRevokeMethod_frame (env : Env σ) (g : groupBuilder) (grant : TenableVM.Grant)
    (w : World σ) :
    g.RevokeMethod env grant w =
      ((groupBuilder.Revoke env grant w).1, g, (groupBuilder.Revoke env grant w).2) := by
  simp only [groupBuilder.RevokeMethod, groupBuilder.Revoke]
  rcases TenableVMClient.GetGroupMembers env grant.Entitlement.Resource.Id.Resource w
    with ⟨r, w1⟩
  cases r with
  | error err => rfl
  | ok members =>
    dsimp only
    split_ifs
    · rfl
    · rcases TenableVMClient.DeleteUserGroupMembership env
        grant.Entitlement.Resource.Id.Resource grant.Principal.Id.Resource w1 with ⟨e, w2⟩
      cases e <;> rfl

/-- Role `Grant` leaves its receiver, role projection and load time, as it was. -/
theorem roleGrantMethod_frame (env : Env σ) (rb : roleBuilder) (principal : Resource)
    (entitlement : Entitlement) (w : World σ) :
    rb.GrantMethod env principal entitlement w =
      ((roleBuilder.Grant env principal entitlement w).1, rb,
        (roleBuilder.Grant env principal entitlement w).2) := by
  simp only [roleBuilder.GrantMethod, roleBuilder.Grant]
  rcases TenableVMClient.GetUserDetails env principal.Id.Resource w with ⟨r1, w1⟩
  cases r1 with
  | error err => rfl
  | ok user =>
    dsimp only
    rcases TenableVMClient.GetUserRoles env user.UUID w1 with ⟨r2, w2⟩
    cases r2 with
    | error err => rfl
    | ok userRoles =>
      dsimp only
      split_ifs
      · rfl
      · rcases TenableVMClient.UpdateUserRoles env user.UUID entitlement.Resource.Id.Resource w2
          with ⟨e, w3⟩
        cases e <;> rfl

/-- Role `Revoke` leaves its receiver as it was. -/
theorem roleRevokeMethod_frame (env : Env σ) (rb : roleBuilder) (grant : TenableVM.Grant)
    (w : World σ) :
    rb.RevokeMethod env grant w =
      ((roleBuilder.Revoke env grant w).1, rb, (roleBuilder.Revoke env grant w).2) := by
  simp only [roleBuilder.RevokeMethod, roleBuilder.Revoke]
  rcases TenableVMClient.GetUserDetails env grant.Principal.Id.Resource w with ⟨r1, w1⟩
  cases r1 with
  | error err => rfl
  | ok user =>
    dsimp only
    rcases TenableVMClient.GetUserRoles env user.UUID w1 with ⟨r2, w2⟩
    cases r2 with
    | error err => rfl
    | ok userRoles =>
      dsimp only
      split_ifs
      · rfl
      · rcases TenableVMClient.UpdateUser env grant.Principal.Id.Resource
          { Name := "", Permissions := BasicUserRole, Email := "", Enabled := false } w2
          with ⟨r, w3⟩
        cases r <;> rfl

/-- Permission `Grant` leaves its receiver, both snapshots, the connector and the load
times, as it was. -/
theorem permissionGrantMethod_frame (env : Env σ) (o : permissionBuilder)
    (principal : Resource) (entitlement : Entitlement) (w : World σ) :
    o.GrantMethod env principal entitlement w =
      ((permissionBuilder.Grant env principal entitlement w).1, o,
        (permissionBuilder.Grant env principal entitlement w).2) := by
  simp only [permissionBuilder.GrantMethod, permissionBuilder.Grant]
  split_ifs
  · rfl
  rcases TenableVMClient.GetPermissionDetails env entitlement.Resource.Id.Resource w
    with ⟨r1, w1⟩
  cases r1 with
  | error err => rfl
  | ok permission =>
    dsimp only
    rcases TenableVMClient.GetUserDetails env principal.Id.Resource w1 with ⟨r2, w2⟩
    cases r2 with
    | error err => rfl
    | ok user =>
      dsimp only
      split_ifs
      · rfl
      · cases Parse user.UUID with
        | error err => rfl
        | ok uuid =>
          dsimp only
          rcases TenableVMClient.UpdatePermission env
            { permission with
              Subjects := permission.Subjects ++
                [{ Type_ := subjectTypeUser, Name := user.Name, UUID := uuid }] } w2
            with ⟨e, w3⟩
          cases e <;> rfl

/-- Permission `Revoke` leaves its receiver as it was. -/
theorem permissionRevokeMethod_frame (env : Env σ) (o : permissionBuilder)
    (grant : TenableVM.Grant) (w : World σ) :
    o.RevokeMethod env grant w =
      ((permissionBuilder.Revoke env grant w).1, o, (permissionBuilder.Revoke env grant w).2) := by
  simp only [permissionBuilder.RevokeMethod, permissionBuilder.Revoke]
  split_ifs
  · rfl
  rcases TenableVMClient.GetPermissionDetails env grant.Entitlement.Resource.Id.Resource w
    with ⟨r1, w1⟩
  cases r1 with
  | error err => rfl
  | ok permission =>
    dsimp only
    rcases TenableVMClient.GetUserDetails env grant.Principal.Id.Resource w1 with ⟨r2, w2⟩
    cases r2 with
    | error err => rfl
    | ok user =>
      dsimp only
      split_ifs
      · rfl
      · cases Parse user.UUID with
        | error err => rfl
        | ok uuid =>
          dsimp only
          rcases TenableVMClient.UpdatePermission env
            { permission with
              Subjects := permission.Subjects.filter (fun obj => !decide (obj.UUID = uuid)) } w2
            with ⟨e, w3⟩
          cases e <;> rfl

/-- One provisioning call leaves the builders as they were, and its outcome and
upstream calls are those of the method body run on the upstream alone. -/
theorem provision_eq (env : Env σ) (b : Builders) (call : Provisioning) (w : World σ) :
    b.provision env call w =
      match call with
      | .groupGrant principal entitlement =>
        ((groupBuilder.Grant env principal entitlement w).1, b,
          (groupBuilder.Grant env principal entitlement w).2)
      | .groupRevoke grant =>
        ((groupBuilder.Revoke env grant w).1, b, (groupBuilder.Revoke env grant w).2)
      | .roleGrant principal entitlement =>
        ((roleBuilder.Grant env principal entitlement w).1, b,
          (roleBuilder.Grant env principal entitlement w).2)
      | .roleRevoke grant =>
        ((roleBuilder.Revoke env grant w).1, b, (roleBuilder.Revoke env grant w).2)
      | .permissionGrant principal entitlement =>
        ((permissionBuilder.Grant env principal entitlement w).1, b,
          (permissionBuilder.Grant env principal entitlement w).2)
      | .permissionRevoke grant =>
        ((permissionBuilder.Revoke env grant w).1, b,
          (permissionBuilder.Revoke env grant w).2) := by
  cases call <;>
    simp only [Builders.provision, groupGrantMethod_frame, groupRevokeMethod_frame,
      roleGrantMethod_frame, roleRevokeMethod_frame, permissionGrantMethod_frame,
      permissionRevokeMethod_frame]

/-- C22 (frame of Grant and Revoke). For each of the six calls, group, role and
permission `Grant` and `Revoke`, on every upstream and so on success, on
already-exists or already-revoked and on error: the builders after the call are the
builders before it, with the user snapshot, the role projection, the permission
snapshot, the group-id snapshot and the four load times unchanged; the outcome and
the upstream calls are the same whatever the caches hold; and an outcome
GrantAlreadyExists or GrantAlreadyRevoked comes after at least one upstream read made
by that call, and no upstream change. Method by method: each of the six methods hands
back the receiver it was given, on every path. -/
theorem provision_frame (env : Env σ) (b : Builders) (call : Provisioning) (w : World σ) :
    (b.provision env call w).2.1 = b ∧
    ((b.provision env call w).2.1.permissions.connector.cachedUsers =
        b.permissions.connector.cachedUsers ∧
      (b.provision env call w).2.1.permissions.connector.usersTimestamp =
        b.permissions.connector.usersTimestamp ∧
      (b.provision env call w).2.1.roles.roleCache = b.roles.roleCache ∧
      (b.provision env call w).2.1.roles.cacheLastLoad = b.roles.cacheLastLoad ∧
      (b.provision env call w).2.1.permissions.permissionsCache =
        b.permissions.permissionsCache ∧
      (b.provision env call w).2.1.permissions.permissionsLastLoad =
        b.permissions.permissionsLastLoad ∧
      (b.provision env call w).2.1.permissions.cachedGroups = b.permissions.cachedGroups ∧
      (b.provision env call w).2.1.permissions.groupsLastLoad =
        b.permissions.groupsLastLoad) ∧
    (∀ b2 : Builders,
      (b2.provision env call w).1 = (b.provision env call w).1 ∧
      (b2.provision env call w).2.2 = (b.provision env call w).2.2) ∧
    ((b.provision env call w).1.annos = [.GrantAlreadyExists] ∨
        (b.provision env call w).1.annos = [.GrantAlreadyRevoked] →
      readsOnly w.calls (b.provision env call w).2.2.calls) ∧
    ((∀ (g : groupBuilder) principal entitlement,
        (g.GrantMethod env principal entitlement w).2.1 = g) ∧
      (∀ (g : groupBuilder) grant, (g.RevokeMethod env grant w).2.1 = g) ∧
      (∀ (rb : roleBuilder) principal entitlement,
        (rb.GrantMethod env principal entitlement w).2.1 = rb) ∧
      (∀ (rb : roleBuilder) grant, (rb.RevokeMethod env grant w).2.1 = rb) ∧
      (∀ (o : permissionBuilder) principal entitlement,
        (o.GrantMethod env principal entitlement w).2.1 = o) ∧
      (∀ (o : permissionBuilder) grant, (o.RevokeMethod env grant w).2.1 = o)) := by
  have hframe : (b.provision env call w).2.1 = b := by
    rw [provision_eq]
    cases call <;> rfl
  refine ⟨hframe, ?_, fun b2 => ?_, fun h => ?_,
    fun g principal entitlement => by rw [groupGrantMethod_frame],
    fun g grant => by rw [groupRevokeMethod_frame],
    fun rb principal entitlement => by rw [roleGrantMethod_frame],
    fun rb grant => by rw [roleRevokeMethod_frame],
    fun o principal entitlement => by rw [permissionGrantMethod_frame],
    fun o grant => by rw [permissionRevokeMethod_frame]⟩
  · rw [hframe]
    exact ⟨rfl, rfl, rfl, rfl, rfl, rfl, rfl, rfl⟩
  · rw [provision_eq env b2, provision_eq env b]
    cases call <;> exact ⟨rfl, rfl⟩
  · have hne : (b.provision env call w).1.annos ≠ [] := by
      rcases h with h | h <;> rw [h] <;> simp
    rw [provision_eq] at hne ⊢
    cases call with
    | groupGrant principal entitlement => exact groupGrant_reads env principal entitlement w hne
    | groupRevoke grant => exact groupRevoke_reads env grant w hne
    | roleGrant principal entitlement => exact roleGrant_reads env principal entitlement w hne
    | roleRevoke grant => exact roleRevoke_reads env grant w hne
    | permissionGrant principal entitlement =>
      exact permissionGrant_reads env principal entitlement w hne
    | permissionRevoke grant => exact permissionRevoke_reads env grant w hne

/-- C22 at concrete inputs: with all four caches loaded, granting the scan permission
to Bob succeeds upstream and leaves the builders as they were; adding Alice to group 7,
where she is already, is decided from one upstream read. -/
theorem provision_frame_witness :
    ((loadedBuilders.provision tenable
        (.permissionGrant (resourceOf "user" "202")
          (entitlementOf "permission" (uuidOf 1).String "assigned")) ⟨demo, []⟩).1 = ⟨[], none⟩ ∧
      mutatingCalls (loadedBuilders.provision tenable
        (.permissionGrant (resourceOf "user" "202")
          (entitlementOf "permission" (uuidOf 1).String "assigned")) ⟨demo, []⟩).2.2.calls = 1 ∧
      (loadedBuilders.provision tenable
        (.permissionGrant (resourceOf "user" "202")
          (entitlementOf "permission" (uuidOf 1).String "assigned")) ⟨demo, []⟩).2.1 =
        loadedBuilders) ∧
    ((loadedBuilders.provision tenable
        (.groupGrant (resourceOf "user" "101") (entitlementOf "group" "7" "member"))
        ⟨demo, []⟩).1.annos = [.GrantAlreadyExists] ∧
      readsOnly []
        (loadedBuilders.provision tenable
          (.groupGrant (resourceOf "user" "101") (entitlementOf "group" "7" "member"))
          ⟨demo, []⟩).2.2.calls ∧
      (emptyBuilders.provision tenable
        (.groupGrant (resourceOf "user" "101") (entitlementOf "group" "7" "member"))
        ⟨demo, []⟩).1 =
        (loadedBuilders.provision tenable
          (.groupGrant (resourceOf "user" "101") (entitlementOf "group" "7" "member"))
          ⟨demo, []⟩).1) :=
  ⟨⟨by decide, by decide,
      (provision_frame tenable loadedBuilders
        (.permissionGrant (resourceOf "user" "202")
          (entitlementOf "permission" (uuidOf 1).String "assigned")) ⟨demo, []⟩).1⟩,
    ⟨by decide,
      (provision_frame tenable loadedBuilders
        (.groupGrant (resourceOf "user" "101") (entitlementOf "group" "7" "member"))
        ⟨demo, []⟩).2.2.2.1 (Or.inl (by decide)),
      ((provision_frame tenable loadedBuilders
        (.groupGrant (resourceOf "user" "101") (entitlementOf "group" "7" "member"))
        ⟨demo, []⟩).2.2.1 emptyBuilders).1⟩⟩

end ProvisioningFrame

end TenableVM
